import Mathlib

/-!
# Route optimisation handlers of `src/server/routes/optimize.js`

A shallow embedding of the handlers of the optimisation router and of their helpers:
the single-vehicle nearest-neighbour sequencer (`POST /optimize-order`), the greedy
capacity-constrained solver `solveVRPGreedy` with its caller `POST /vrp`, the load
matcher (`POST /match-routes`), the optimizer proxy (`POST /shipment`),
`calculateSavings`, `calculateDistance`, and `decodePolyline` of
`src/client/src/pages/RoutePlanner.jsx`, followed by theorems about them.

Numbers.  A JavaScript number that is finite is a rational `q : ℚ`; a numeric
expression whose value may fail to be a finite number (`NaN`, `Infinity`, or
`undefined` read from a missing array cell) is an `Option ℚ`, with `none` for
"not a finite number".  The additions of loads in `solveVRPGreedy`, whose results are
compared with the capacity, are rounded: the solver takes the rounding `fl` of a sum as
a parameter, and `roundDouble` is the rounding of IEEE 754 doubles, which is what
JavaScript does.  Sums of distances are kept exact.  The haversine `calculateDistance`
uses `Math.sin`, `Math.cos`, `Math.atan2` and `Math.sqrt`; the handlers take it as a
parameter, and the function itself is embedded over a record `JSMath` of these
functions and of the rounding of doubles.

Loops.  A `while` loop is run with a bound `fuel` on its number of passes and yields
`none` when the bound is reached; the theorems give the fuel that suffices.

External calls.  The Python solver of `/vrp` and the optimizer service of `/shipment`
are parameters giving the outcome of the call.
-/

namespace ZeroDay

/-! ## Numeric helpers -/

/-- The JS comparison `x < best` where `x` is a matrix cell (`none`: not a finite
number, so the comparison is false) and `best` is the running minimum
(`none`: still `Infinity`, so every finite `x` is smaller). -/
def jsLt : Option ℚ → Option ℚ → Bool
  | some x, some b => decide (x < b)
  | some _, none => true
  | none, _ => false

/-- The JS sum `a + b`; the result is a finite number only when both are. -/
def jsAdd : Option ℚ → Option ℚ → Option ℚ
  | some a, some b => some (a + b)
  | _, _ => none

/-- The value of `Math.round(x)` on a finite number: nearest integer, halves up. -/
def mathRound (x : ℚ) : ℤ := ⌊x + 1 / 2⌋

/-- The JS expression `Math.round(x * 10) / 10`. -/
def round1 (x : Option ℚ) : Option ℚ :=
  x.map fun q => (mathRound (q * 10) : ℚ) / 10

/-- The number of binary digits of `n` less one (`0` for `n < 2`), by halving at most
`fuel` times. -/
def log2Fuel : Nat → Nat → Nat
  | 0, _ => 0
  | fuel + 1, n => if n < 2 then 0 else log2Fuel fuel (n / 2) + 1

/-- The floor of the base-2 logarithm of a positive rational. -/
def binExp (y : ℚ) : ℤ :=
  if (2 : ℚ) ^ ((log2Fuel y.num.natAbs y.num.natAbs : ℤ) - (log2Fuel y.den y.den : ℤ)) ≤ y then
    (log2Fuel y.num.natAbs y.num.natAbs : ℤ) - (log2Fuel y.den y.den : ℤ)
  else (log2Fuel y.num.natAbs y.num.natAbs : ℤ) - (log2Fuel y.den y.den : ℤ) - 1

/-- The integer nearest to `m`, a tie going to the even one. -/
def roundHalfEven (m : ℚ) : ℤ :=
  if m - ⌊m⌋ < 1 / 2 then ⌊m⌋
  else if 1 / 2 < m - ⌊m⌋ then ⌊m⌋ + 1
  else if ⌊m⌋ % 2 = 0 then ⌊m⌋ else ⌊m⌋ + 1

/-- The IEEE 754 double nearest to the exact value `x` (round to nearest, ties to even,
53 significant bits, smallest exponent -1022 so that small values are subnormal), which
is the result of a JavaScript `+` whose exact sum is `x`.  Overflow to `Infinity` is not
modelled. -/
def roundDouble (x : ℚ) : ℚ :=
  if x = 0 then 0
  else (roundHalfEven (x / 2 ^ (max (binExp |x|) (-1022) - 52)) : ℚ)
    * 2 ^ (max (binExp |x|) (-1022) - 52)

/-! ## `POST /optimize-order` -/

/-- A location of the request body: `{lat, lng}`. -/
structure Coord where
  lat : ℚ
  lng : ℚ
deriving DecidableEq, Repr

/-- The matrix built at lines 76-89: `matrix[i][j]` is `0` on the diagonal and
`calculateDistance(allLocations[i], allLocations[j])` elsewhere. -/
def buildMatrix (calculateDistance : ℚ → ℚ → ℚ → ℚ → Option ℚ)
    (allLocations : List Coord) : List (List (Option ℚ)) :=
  (List.range allLocations.length).map fun i =>
    (List.range allLocations.length).map fun j =>
      if i = j then some 0
      else
        match allLocations[i]?, allLocations[j]? with
        | some a, some b => calculateDistance a.lat a.lng b.lat b.lng
        | _, _ => none

/-- The JS read `matrix[i][j]` of a built matrix. -/
def cellOf (matrix : List (List (Option ℚ))) (i j : Nat) : Option ℚ :=
  match matrix[i]? with
  | some row =>
    match row[j]? with
    | some c => c
    | none => none
  | none => none

/-- The variables of the nearest-neighbour loop (lines 92-95). -/
structure NNState where
  visited : Finset Nat
  route : List Nat
  current : Nat
  totalDistance : Option ℚ

/-- The body of the inner `for` loop (lines 102-105) on the pair
`(nearestDist, nearest)`; `nearest = none` is the JS value `-1`. -/
def nnScanStep (matrix : Nat → Nat → Option ℚ) (visited : Finset Nat) (current : Nat)
    (acc : Option ℚ × Option Nat) (j : Nat) : Option ℚ × Option Nat :=
  if j ∉ visited ∧ jsLt (matrix current j) acc.1 = true then (matrix current j, some j)
  else acc

/-- The inner `for (let j = 0; j < n; j++)` loop (lines 98-106). -/
def nnScan (n : Nat) (matrix : Nat → Nat → Option ℚ) (visited : Finset Nat)
    (current : Nat) : Option ℚ × Option Nat :=
  (List.range n).foldl (nnScanStep matrix visited current) (none, none)

/-- One pass through the body of `while (visited.size < n)` (lines 98-113). -/
def nnIter (n : Nat) (matrix : Nat → Nat → Option ℚ) (s : NNState) : NNState :=
  match nnScan n matrix s.visited s.current with
  | (nearestDist, some nearest) =>
    { visited := insert nearest s.visited
      route := s.route ++ [nearest]
      current := nearest
      totalDistance := jsAdd s.totalDistance nearestDist }
  | (_, none) => s

/-- The loop `while (visited.size < n)` run for at most `fuel` passes; `none` when
the loop is still running after `fuel` passes. -/
def nnLoop (n : Nat) (matrix : Nat → Nat → Option ℚ) : Nat → NNState → Option NNState
  | 0, s => if s.visited.card < n then none else some s
  | fuel + 1, s =>
    if s.visited.card < n then nnLoop n matrix fuel (nnIter n matrix s) else some s

/-- The state before the loop (lines 92-95). -/
def nnInit : NNState :=
  { visited := {0}, route := [0], current := 0, totalDistance := some 0 }

/-- The `if (return_to_origin)` block (lines 116-119). -/
def nnReturn (matrix : Nat → Nat → Option ℚ) (return_to_origin : Bool) (s : NNState) :
    NNState :=
  if return_to_origin then
    { s with totalDistance := jsAdd s.totalDistance (matrix s.current 0)
             route := s.route ++ [0] }
  else s

/-- Lines 91-119: the order and the accumulated distance, as `(route, totalDistance)`. -/
def nearestNeighbour (n : Nat) (matrix : Nat → Nat → Option ℚ) (return_to_origin : Bool)
    (fuel : Nat) : Option (List Nat × Option ℚ) :=
  (nnLoop n matrix fuel nnInit).map fun s =>
    ((nnReturn matrix return_to_origin s).route,
     (nnReturn matrix return_to_origin s).totalDistance)

/-- An element of `optimized_route`: the location with its `order`. -/
structure OrderedLoc where
  lat : ℚ
  lng : ℚ
  order : Nat
deriving DecidableEq, Repr

/-- The function `calculateSavings` (lines 439-463) on the coordinates of its two
arguments. -/
def calculateSavings (calculateDistance : ℚ → ℚ → ℚ → ℚ → Option ℚ)
    (original optimized : List Coord) : Option ℤ :=
  if original.length ≤ 1 then some 0
  else
    let legs (l : List Coord) : Option ℚ :=
      (List.zip l l.tail).foldl
        (fun d p => jsAdd d (calculateDistance p.1.lat p.1.lng p.2.lat p.2.lng)) (some 0)
    match legs original, legs optimized with
    | some originalDist, some optimizedDist =>
      if originalDist = 0 then some 0
      else some (mathRound ((1 - optimizedDist / originalDist) * 100))
    | some originalDist, none => if originalDist = 0 then some 0 else none
    | none, _ => none

/-- The JSON body of a successful `/optimize-order` response (lines 127-132). -/
structure OrderBody where
  optimized_route : List OrderedLoc
  total_distance_km : Option ℚ
  estimated_time_hours : Option ℚ
  savings_percentage : Option ℤ
deriving DecidableEq

/-- What the handler sends. -/
inductive OrderResponse where
  | badRequest (error : String)
  | ok (body : OrderBody)
deriving DecidableEq

/-- The request body: `origin` and `destinations` may be absent. -/
structure OrderRequest where
  origin : Option Coord
  destinations : Option (List Coord)
  return_to_origin : Bool

/-- The order computed for a request that passes the guard of line 67. -/
def orderRoute (calculateDistance : ℚ → ℚ → ℚ → ℚ → Option ℚ) (origin : Coord)
    (destinations : List Coord) (return_to_origin : Bool) (fuel : Nat) :
    Option (List Nat × Option ℚ) :=
  nearestNeighbour (origin :: destinations).length
    (cellOf (buildMatrix calculateDistance (origin :: destinations))) return_to_origin fuel

/-- The handler of `POST /optimize-order` (lines 63-136), run with `fuel` passes
allowed to the `while` loop; `none` when the loop has not finished by then. -/
def optimizeOrder (calculateDistance : ℚ → ℚ → ℚ → ℚ → Option ℚ) (fuel : Nat)
    (req : OrderRequest) : Option OrderResponse :=
  match req.origin, req.destinations with
  | some origin, some (d :: ds) =>
    let allLocations := origin :: d :: ds
    (orderRoute calculateDistance origin (d :: ds) req.return_to_origin fuel).map fun r =>
      let optimizedRoute : List OrderedLoc := r.1.filterMap fun idx =>
        allLocations[idx]?.map fun c =>
          { lat := c.lat, lng := c.lng, order := r.1.indexOf idx }
      OrderResponse.ok
        { optimized_route := optimizedRoute
          total_distance_km := round1 r.2
          estimated_time_hours := round1 (r.2.map (· / 50))
          savings_percentage :=
            calculateSavings calculateDistance (d :: ds)
              (optimizedRoute.tail.map fun o => { lat := o.lat, lng := o.lng }) }
  | _, _ => some (OrderResponse.badRequest "Origin and destinations are required")

/-! ## `calculateRouteDistance` and `solveVRPGreedy` -/

/-- The function `calculateRouteDistance` (lines 398-404): the sum of
`matrix[route[i]][route[i + 1]]` for `i = 0 .. route.length - 2`, added left to
right. -/
def calculateRouteDistance (route : List Nat) (matrix : Nat → Nat → Option ℚ) : Option ℚ :=
  (route.zip route.tail).foldl (fun distance p => jsAdd distance (matrix p.1 p.2)) (some 0)

/-- The argument of `solveVRPGreedy`.  `distance_matrix` is an array of rows of numbers
(`none`: a cell that is not a finite number, as `createSimpleDistanceMatrix` may
produce); the rows need not have the same length. -/
structure VRPInput where
  distance_matrix : List (List (Option ℚ))
  demands : List ℚ
  vehicle_capacities : List ℚ
  num_vehicles : Nat
  depot : Nat

/-- The JS read `distance_matrix[i][j]`; `none` is a value that is not a finite number
(`undefined` for a cell missing from the row included).  For `i` not a row of the
matrix the JS read throws; the solver only reads the rows `depot` and `j < n`, so this
is the read for `depot < n` (see `solveVRPGreedyThrows`). -/
def vrpCell (distance_matrix : List (List (Option ℚ))) (i j : Nat) : Option ℚ :=
  match distance_matrix[i]? with
  | some row =>
    match row[j]? with
    | some c => c
    | none => none
  | none => none

/-- The JS expression `demands[j] || 1`: a missing demand and the demand `0` are
both falsy. -/
def demandOr1 (demands : List ℚ) (j : Nat) : ℚ :=
  match demands[j]? with
  | some d => if d = 0 then 1 else d
  | none => 1

/-- The JS expression `vehicle_capacities[v] || vehicle_capacities[0]` (line 353);
`none` is `undefined`. -/
def capacityOf (vehicle_capacities : List ℚ) (v : Nat) : Option ℚ :=
  match vehicle_capacities[v]? with
  | some c => if c = 0 then vehicle_capacities[0]? else some c
  | none => vehicle_capacities[0]?

/-- The JS comparison `currentLoad + d <= capacity`; false when `capacity` is
`undefined`.  `fl` rounds the exact sum to the double that `+` returns. -/
def fitsCapacity (fl : ℚ → ℚ) (currentLoad d : ℚ) : Option ℚ → Bool
  | some capacity => decide (fl (currentLoad + d) ≤ capacity)
  | none => false

/-- The variables of one vehicle's `while (true)` loop, with the shared `visited`. -/
structure VehState where
  visited : Finset Nat
  route : List Nat
  currentLoad : ℚ
  currentNode : Nat

/-- The body of the inner `for` loop (lines 363-368) on `(bestDist, bestNext)`;
`bestNext = none` is the JS value `-1`. -/
def vrpScanStep (fl : ℚ → ℚ) (matrix : Nat → Nat → Option ℚ) (demands : List ℚ)
    (capacity : Option ℚ) (s : VehState) (acc : Option ℚ × Option Nat) (j : Nat) :
    Option ℚ × Option Nat :=
  if j ∉ s.visited ∧ fitsCapacity fl s.currentLoad (demandOr1 demands j) capacity = true ∧
      jsLt (matrix s.currentNode j) acc.1 = true then
    (matrix s.currentNode j, some j)
  else acc

/-- The inner `for (let j = 0; j < n; j++)` loop (lines 359-369). -/
def vrpScan (fl : ℚ → ℚ) (n : Nat) (matrix : Nat → Nat → Option ℚ) (demands : List ℚ)
    (capacity : Option ℚ) (s : VehState) : Option ℚ × Option Nat :=
  (List.range n).foldl (vrpScanStep fl matrix demands capacity s) (none, none)

/-- The update of lines 373-376 after `bestNext` was found; `currentLoad +=` stores the
double `fl` of the exact sum. -/
def vrpPush (fl : ℚ → ℚ) (demands : List ℚ) (s : VehState) (bestNext : Nat) : VehState :=
  { visited := insert bestNext s.visited
    route := s.route ++ [bestNext]
    currentLoad := fl (s.currentLoad + demandOr1 demands bestNext)
    currentNode := bestNext }

/-- The loop `while (true)` of one vehicle (lines 358-377), run for at most `fuel`
passes; `none` when it has not reached `break` by then. -/
def vehicleLoop (fl : ℚ → ℚ) (n : Nat) (matrix : Nat → Nat → Option ℚ) (demands : List ℚ)
    (capacity : Option ℚ) : Nat → VehState → Option VehState
  | 0, _ => none
  | fuel + 1, s =>
    match (vrpScan fl n matrix demands capacity s).2 with
    | none => some s
    | some bestNext =>
      vehicleLoop fl n matrix demands capacity fuel (vrpPush fl demands s bestNext)

/-- An element of `routes` (lines 380-385). -/
structure VehicleRoute where
  vehicle : Nat
  route : List Nat
  load : ℚ
  distance : Option ℚ
deriving DecidableEq

/-- The value returned by `solveVRPGreedy` (lines 390-395). -/
structure VRPResult where
  routes : List VehicleRoute
  total_distance : Option ℚ
  solver : String
  unvisited : List Nat
deriving DecidableEq

/-- The body of `for (let v = 0; v < num_vehicles; v++)` (lines 353-385): the new
`visited` and the element pushed on `routes`. -/
def vehicleRun (fl : ℚ → ℚ) (input : VRPInput) (fuel : Nat) (visited : Finset Nat)
    (v : Nat) : Option (Finset Nat × VehicleRoute) :=
  (vehicleLoop fl input.distance_matrix.length (vrpCell input.distance_matrix) input.demands
      (capacityOf input.vehicle_capacities v) fuel
      { visited := visited, route := [input.depot], currentLoad := 0,
        currentNode := input.depot }).map fun s =>
    (s.visited,
     { vehicle := v
       route := s.route ++ [input.depot]
       load := s.currentLoad
       distance :=
        calculateRouteDistance (s.route ++ [input.depot]) (vrpCell input.distance_matrix) })

/-- The `for` loop over the vehicles `vs`, from the state `(visited, routes)`. -/
def vehiclesLoop (fl : ℚ → ℚ) (input : VRPInput) (fuel : Nat) :
    List Nat → Finset Nat × List VehicleRoute → Option (Finset Nat × List VehicleRoute)
  | [], st => some st
  | v :: vs, st =>
    match vehicleRun fl input fuel st.1 v with
    | none => none
    | some (visited, r) => vehiclesLoop fl input fuel vs (visited, st.2 ++ [r])

/-- The function `solveVRPGreedy` (lines 346-396), each vehicle's `while (true)` loop
run for at most `fuel` passes; `none` when one of them has not finished by then.  `fl` is
the rounding of the additions of loads (lines 364 and 375); for the arithmetic of
JavaScript it is `roundDouble`. -/
def solveVRPGreedy (fl : ℚ → ℚ) (fuel : Nat) (input : VRPInput) : Option VRPResult :=
  (vehiclesLoop fl input fuel (List.range input.num_vehicles) ({input.depot}, [])).map
    fun st =>
    { routes := st.2
      total_distance := round1 (st.2.foldl (fun sum r => jsAdd sum r.distance) (some 0))
      solver := "greedy_fallback"
      unvisited :=
        (List.range input.distance_matrix.length).filter fun i =>
          decide (i ∉ st.1 ∧ i ≠ input.depot) }

/-- When `solveVRPGreedy` throws a `TypeError`: with at least one vehicle and `depot`
not a row of the matrix, `distance_matrix[depot]` is `undefined` and reading a cell of
it throws, at line 365 or at the latest in `calculateRouteDistance` (line 401) on the
route `[depot, .., depot]`.  With `depot < n` every row read exists. -/
def solveVRPGreedyThrows (input : VRPInput) : Prop :=
  0 < input.num_vehicles ∧ input.distance_matrix.length ≤ input.depot

instance (input : VRPInput) : Decidable (solveVRPGreedyThrows input) := by
  unfold solveVRPGreedyThrows
  infer_instance

/-! ## Specification vocabulary -/

/-- The argmin scan both solvers perform: the candidates are the `j < n` with `ok j`,
compared on `row j`, the first minimum winning. -/
def scanStep (ok : Nat → Bool) (row : Nat → Option ℚ) (acc : Option ℚ × Option Nat)
    (j : Nat) : Option ℚ × Option Nat :=
  if ok j = true ∧ jsLt (row j) acc.1 = true then (row j, some j) else acc

/-- The scan over `j = 0 .. n - 1`. -/
def scanUpTo (ok : Nat → Bool) (row : Nat → Option ℚ) (n : Nat) : Option ℚ × Option Nat :=
  (List.range n).foldl (scanStep ok row) (none, none)

/-- What a scan result says about the candidates below `n`. -/
def ScanSpec (ok : Nat → Bool) (row : Nat → Option ℚ) (n : Nat) :
    Option ℚ × Option Nat → Prop
  | (none, none) => ∀ j, j < n → ok j = true → row j = none
  | (some d, some j) =>
    j < n ∧ ok j = true ∧ row j = some d ∧
      (∀ i, i < n → ok i = true → ∀ e, row i = some e → d ≤ e) ∧
      (∀ i, i < j → ok i = true → ∀ e, row i = some e → d < e)
  | _ => False

/-! ## `POST /vrp` -/

/-- The function `createSimpleDistanceMatrix` (lines 406-425): `matrix[i][j]` is `0` on
the diagonal and `calculateDistance(locations[i], locations[j])` elsewhere. -/
def createSimpleDistanceMatrix (calculateDistance : ℚ → ℚ → ℚ → ℚ → Option ℚ)
    (locations : List Coord) : List (List (Option ℚ)) :=
  (List.range locations.length).map fun i =>
    (List.range locations.length).map fun j =>
      if i = j then some 0
      else
        match locations[i]?, locations[j]? with
        | some a, some b => calculateDistance a.lat a.lng b.lat b.lng
        | _, _ => none

/-- The body of a `/vrp` request (lines 21-29); every field may be absent.
`time_matrix` is read and never used. -/
structure VrpRequest where
  depot : Option Nat
  locations : Option (List Coord)
  demands : Option (List ℚ)
  vehicle_capacities : Option (List ℚ)
  distance_matrix : Option (List (List (Option ℚ)))
  num_vehicles : Option Nat

/-- The input prepared for the solvers (lines 36-45).  An array, even empty, is truthy,
so `x || d` keeps it; the numbers `0` and `undefined` are falsy. -/
def prepareVrpInput (calculateDistance : ℚ → ℚ → ℚ → ℚ → Option ℚ) (req : VrpRequest)
    (locations : List Coord) : VRPInput :=
  { distance_matrix :=
      match req.distance_matrix with
      | some m => m
      | none => createSimpleDistanceMatrix calculateDistance locations
    demands :=
      match req.demands with
      | some d => d
      | none => locations.map fun _ => 1
    vehicle_capacities :=
      match req.vehicle_capacities with
      | some c => c
      | none => [(locations.length : ℚ)]
    num_vehicles :=
      match req.num_vehicles with
      | some k => if k = 0 then 1 else k
      | none => 1
    depot :=
      match req.depot with
      | some d => d
      | none => 0 }

/-- What the `/vrp` handler sends: the 400 error, the external result, the fallback
result, or the 500 error of the outer `catch`. -/
inductive VrpResponse (β : Type) where
  | badRequest (error : String)
  | external (result : β)
  | fallback (result : VRPResult)
  | serverError
deriving DecidableEq

/-- The handler of `POST /vrp` (lines 19-60).  `runVRPSolver` is the promise of lines
306-343: `Except.ok` when it resolves with the parsed output, `Except.error` when it
rejects (spawn error, non-zero exit code, output that is not JSON).  `fl` is the
rounding of the load additions of `solveVRPGreedy`. -/
def vrpHandler {β : Type} (fl : ℚ → ℚ) (calculateDistance : ℚ → ℚ → ℚ → ℚ → Option ℚ)
    (runVRPSolver : VRPInput → Except String β) (fuel : Nat) (req : VrpRequest) :
    Option (VrpResponse β) :=
  match req.locations with
  | none => some (VrpResponse.badRequest "Locations are required")
  | some [] => some (VrpResponse.badRequest "Locations are required")
  | some (l :: ls) =>
    match runVRPSolver (prepareVrpInput calculateDistance req (l :: ls)) with
    | Except.ok result => some (VrpResponse.external result)
    | Except.error _ =>
      if solveVRPGreedyThrows (prepareVrpInput calculateDistance req (l :: ls)) then
        some VrpResponse.serverError
      else
        (solveVRPGreedy fl fuel (prepareVrpInput calculateDistance req (l :: ls))).map
          VrpResponse.fallback

/-! ## `POST /match-routes` -/

/-- A shipment of a `/match-routes` request. -/
structure MatchShipment where
  id : Option Nat
  origin : Coord
  destination : Coord
  weight : Option ℚ
deriving DecidableEq

/-- An available route of a `/match-routes` request. -/
structure MatchRoute where
  origin : Coord
  destination : Coord
  available_capacity : Option ℚ
deriving DecidableEq

/-- The object built for a shipment and a route (lines 168-176). -/
structure MatchCandidate where
  route : MatchRoute
  shipment_id : Option Nat
  origin_deviation_km : Option ℚ
  destination_deviation_km : Option ℚ
  has_capacity : Bool
  compatibility_score : Option ℤ
  is_compatible : Bool
deriving DecidableEq

/-- The JS comparison `available_capacity >= weight`; false when either is `undefined`. -/
def hasCapacity (available_capacity weight : Option ℚ) : Bool :=
  match available_capacity, weight with
  | some a, some w => decide (w ≤ a)
  | _, _ => false

/-- The JS expression `Math.max(0, 100 - ((originDeviation + destDeviation) / 50) * 100)`
(lines 165-166); not a number when a deviation is not. -/
def deviationScore (originDeviation destDeviation : Option ℚ) : Option ℚ :=
  match originDeviation, destDeviation with
  | some o, some d => some (max 0 (100 - ((o + d) / 50) * 100))
  | _, _ => none

/-- The JS comparison `deviationScore > 30`; false for `NaN`. -/
def above30 : Option ℚ → Bool
  | some x => decide (30 < x)
  | none => false

/-- The callback of `available_routes.map` (lines 151-177). -/
def scoreRoute (calculateDistance : ℚ → ℚ → ℚ → ℚ → Option ℚ) (shipment : MatchShipment)
    (route : MatchRoute) : MatchCandidate :=
  let originDeviation :=
    calculateDistance shipment.origin.lat shipment.origin.lng route.origin.lat route.origin.lng
  let destDeviation :=
    calculateDistance shipment.destination.lat shipment.destination.lng
      route.destination.lat route.destination.lng
  { route := route
    shipment_id := shipment.id
    origin_deviation_km := round1 originDeviation
    destination_deviation_km := round1 destDeviation
    has_capacity := hasCapacity route.available_capacity shipment.weight
    compatibility_score :=
      if hasCapacity route.available_capacity shipment.weight = true then
        (deviationScore originDeviation destDeviation).map mathRound
      else some 0
    is_compatible :=
      hasCapacity route.available_capacity shipment.weight &&
        above30 (deviationScore originDeviation destDeviation) }

/-- The number a candidate is sorted on. -/
def scoreKey (c : MatchCandidate) : ℤ := c.compatibility_score.getD 0

/-- The candidates kept by `.filter(m => m.is_compatible)` (line 178). -/
def compatibleCandidates (calculateDistance : ℚ → ℚ → ℚ → ℚ → Option ℚ)
    (shipment : MatchShipment) (available_routes : List MatchRoute) : List MatchCandidate :=
  (available_routes.map (scoreRoute calculateDistance shipment)).filter fun m => m.is_compatible

/-- The list `compatibleRoutes` (lines 150-179): the kept candidates sorted by
`(a, b) => b.compatibility_score - a.compatibility_score`; `Array.prototype.sort` is a
stable sort. -/
def compatibleRoutes (calculateDistance : ℚ → ℚ → ℚ → ℚ → Option ℚ)
    (shipment : MatchShipment) (available_routes : List MatchRoute) : List MatchCandidate :=
  (compatibleCandidates calculateDistance shipment available_routes).insertionSort
    fun a b => scoreKey b ≤ scoreKey a

/-- An element of `matches` (lines 182-186). -/
structure MatchEntry where
  shipment : MatchShipment
  best_match : MatchCandidate
  alternatives : List MatchCandidate
deriving DecidableEq

/-- The loop over the shipments (lines 149-188). -/
def matchesOf (calculateDistance : ℚ → ℚ → ℚ → ℚ → Option ℚ)
    (shipments : List MatchShipment) (available_routes : List MatchRoute) : List MatchEntry :=
  shipments.filterMap fun shipment =>
    match compatibleRoutes calculateDistance shipment available_routes with
    | [] => none
    | best :: rest =>
      some { shipment := shipment, best_match := best, alternatives := rest.take 2 }

/-- The list `unmatched_shipments` (lines 192-194). -/
def unmatchedOf (shipments : List MatchShipment) (matchEntries : List MatchEntry) :
    List MatchShipment :=
  shipments.filter fun s => !(matchEntries.any fun m => decide (m.shipment.id = s.id))

/-- The JSON body of a successful `/match-routes` response; `matchEntries` is its key
`matches`. -/
structure MatchBody where
  matchEntries : List MatchEntry
  unmatched_shipments : List MatchShipment
deriving DecidableEq

/-- What the `/match-routes` handler sends. -/
inductive MatchResponse where
  | badRequest (error : String)
  | ok (body : MatchBody)
deriving DecidableEq

/-- The handler of `POST /match-routes` (lines 139-199). -/
def matchRoutes (calculateDistance : ℚ → ℚ → ℚ → ℚ → Option ℚ)
    (shipments : Option (List MatchShipment)) (available_routes : Option (List MatchRoute)) :
    MatchResponse :=
  match shipments, available_routes with
  | some (s :: ss), some (r :: rs) =>
    MatchResponse.ok
      { matchEntries := matchesOf calculateDistance (s :: ss) (r :: rs)
        unmatched_shipments :=
          unmatchedOf (s :: ss) (matchesOf calculateDistance (s :: ss) (r :: rs)) }
  | _, _ => MatchResponse.badRequest "Shipments and available routes are required"

/-! ## `POST /shipment` -/

/-- The `origin` or `destination` of a `/shipment` request; a coordinate may be absent. -/
structure LatLng where
  lat : Option ℚ
  lng : Option ℚ
deriving DecidableEq

/-- A shipment of a `/shipment` request. -/
structure ShipmentItem where
  id : Option Nat
  weight_kg : Option ℚ
  weight : Option ℚ
deriving DecidableEq

/-- The body of a `/shipment` request (lines 205-211). -/
structure ShipmentRequest where
  origin : Option LatLng
  destination : Option LatLng
  product_type : Option String
  urgency_multiplier : Option ℚ
  shipments : Option (List ShipmentItem)

/-- The JS truthiness of a number that may be absent: `undefined` and `0` are falsy. -/
def truthyNum : Option ℚ → Bool
  | some q => decide (q ≠ 0)
  | none => false

/-- The JS expression `!p || !p.lat || !p.lng`. -/
def missingPoint : Option LatLng → Bool
  | some p => !(truthyNum p.lat && truthyNum p.lng)
  | none => true

/-- The list `validProductTypes` (line 231). -/
def validProductTypes : List String :=
  ["medicine", "furniture", "electronics", "perishable", "other"]

/-- The JS expression `urgency_multiplier || 1.0` (line 239). -/
def urgencyOf (urgency_multiplier : Option ℚ) : ℚ :=
  match urgency_multiplier with
  | some u => if u = 0 then 1 else u
  | none => 1

/-- The validation of lines 213-242: the message of the 400 error, if any. -/
def shipmentValidation (req : ShipmentRequest) : Option String :=
  if missingPoint req.origin = true then some "Origin with lat and lng is required"
  else if missingPoint req.destination = true then
    some "Destination with lat and lng is required"
  else
    match req.product_type with
    | none => some "Product type is required"
    | some product_type =>
      if product_type = "" then some "Product type is required"
      else
        match req.shipments with
        | none => some "At least one shipment is required"
        | some [] => some "At least one shipment is required"
        | some (_ :: _) =>
          if product_type ∉ validProductTypes then
            some ("Invalid product_type. Must be one of: " ++ ", ".intercalate validProductTypes)
          else if urgencyOf req.urgency_multiplier < 1 ∨ 3 < urgencyOf req.urgency_multiplier then
            some "Urgency multiplier must be between 1 and 3"
          else none

/-- A shipment of the request sent to the optimizer (lines 256-259):
`weight_kg: parseFloat(s.weight_kg || s.weight || 0)`. -/
structure OptimizerItem where
  id : Option Nat
  weight_kg : ℚ
deriving DecidableEq

/-- The object `optimizerRequest` (lines 245-260). -/
structure OptimizerRequest where
  origin : Option LatLng
  destination : Option LatLng
  product_type : Option String
  urgency_multiplier : ℚ
  shipments : List OptimizerItem
deriving DecidableEq

/-- The construction of `optimizerRequest`. -/
def optimizerRequestOf (req : ShipmentRequest) : OptimizerRequest :=
  { origin := req.origin
    destination := req.destination
    product_type := req.product_type
    urgency_multiplier := urgencyOf req.urgency_multiplier
    shipments := (req.shipments.getD []).map fun s =>
      { id := s.id
        weight_kg :=
          if truthyNum s.weight_kg = true then s.weight_kg.getD 0
          else if truthyNum s.weight = true then s.weight.getD 0
          else 0 } }

/-- The outcome of the `fetch` of lines 266-282: `failed` when `fetch` or the reading of
a success body throws, `notOk` for a response whose status is not 2xx (with the
`detail` of its body, if any), `ok` with the parsed list of routes. -/
inductive FetchOutcome (β : Type) where
  | failed (message : String)
  | notOk (status : Nat) (detail : Option String)
  | ok (optimizedRoutes : List β)
deriving DecidableEq

/-- What the `/shipment` handler sends: a 400 error, the optimizer's error status, the
success body, or the 503 body of lines 294-298. -/
inductive ShipmentResponse (β : Type) where
  | badRequest (error : String)
  | optimizerError (status : Nat) (error : String)
  | success (request : OptimizerRequest) (optimized_routes : List β) (route_count : Nat)
  | unavailable (error : String) (message : String) (fallback_available : Bool)
deriving DecidableEq

/-- The handler of `POST /shipment` (lines 203-303); `optimizerUrl` is `OPTIMIZER_URL`
and `fetchOptimizer` the call of the optimizer service. -/
def shipmentHandler {β : Type} (optimizerUrl : String)
    (fetchOptimizer : OptimizerRequest → FetchOutcome β) (req : ShipmentRequest) :
    ShipmentResponse β :=
  match shipmentValidation req with
  | some error => ShipmentResponse.badRequest error
  | none =>
    match fetchOptimizer (optimizerRequestOf req) with
    | FetchOutcome.notOk status detail =>
      ShipmentResponse.optimizerError status
        (match detail with
         | some d => if d = "" then "Optimizer service returned an error" else d
         | none => "Optimizer service returned an error")
    | FetchOutcome.ok optimizedRoutes =>
      ShipmentResponse.success (optimizerRequestOf req) optimizedRoutes optimizedRoutes.length
    | FetchOutcome.failed _ =>
      ShipmentResponse.unavailable "Optimizer service is not available"
        ("Please ensure the FastAPI optimizer is running on " ++ optimizerUrl) false

/-! ## `calculateDistance` (lines 427-437) -/

/-- The double arithmetic and the `Math` functions `calculateDistance` uses.  A double is
the rational number it stands for; `fl x` is the double to which the exact result `x` of
an operation is rounded; `sqrt` is `none` (the JS `NaN`) on a negative argument.  Overflow
to `Infinity` and the sign of zero are not modelled. -/
structure JSMath where
  fl : ℚ → ℚ
  PI : ℚ
  sin : ℚ → ℚ
  cos : ℚ → ℚ
  sqrt : ℚ → Option ℚ
  atan2 : ℚ → ℚ → ℚ

/-- The function `calculateDistance` (lines 427-437), every operation rounded by `M.fl`
in the order JavaScript evaluates it; `none` is `NaN`. -/
def calculateDistance (M : JSMath) (lat1 lon1 lat2 lon2 : ℚ) : Option ℚ :=
  let R : ℚ := 6371
  let dLat := M.fl (M.fl (M.fl (lat2 - lat1) * M.PI) / 180)
  let dLon := M.fl (M.fl (M.fl (lon2 - lon1) * M.PI) / 180)
  let a :=
    M.fl (M.fl (M.sin (M.fl (dLat / 2)) * M.sin (M.fl (dLat / 2))) +
      M.fl (M.fl (M.fl (M.cos (M.fl (M.fl (lat1 * M.PI) / 180)) *
          M.cos (M.fl (M.fl (lat2 * M.PI) / 180))) *
        M.sin (M.fl (dLon / 2))) * M.sin (M.fl (dLon / 2))))
  match M.sqrt a, M.sqrt (M.fl (1 - a)) with
  | some y, some x => some (M.fl (R * M.fl (2 * M.atan2 y x)))
  | _, _ => none

/-! ## `decodePolyline` (client/src/pages/RoutePlanner.jsx, lines 14-55) -/

/-- The signed value of the 32-bit pattern `u` (the JS `ToInt32`). -/
def toInt32 (u : Nat) : Int :=
  if u % 2 ^ 32 < 2 ^ 31 then ((u % 2 ^ 32 : Nat) : Int) else ((u % 2 ^ 32 : Nat) : Int) - 2 ^ 32

/-- One `do { .. } while (b >= 0x20)` loop (lines 27-31 and 39-43) on the string from
`index` on, given as its char codes.  `result` is kept as the 32-bit pattern of the JS
int32.  At the end of the string `charCodeAt` is `NaN`: `NaN & 0x1f` is `0` and
`NaN >= 0x20` is false, so the loop ends with `result` unchanged.  Returns `result` and
the string from the new `index` on. -/
def readChunks : List Nat → Nat → Nat → Nat × List Nat
  | [], _, result => (result, [])
  | c :: rest, shift, result =>
    let b : Int := (c : Int) - 63
    let result' := result ||| ((b % 32).toNat * 2 ^ (shift % 32)) % 2 ^ 32
    if 32 ≤ b then readChunks rest (shift + 5) result' else (result', rest)

/-- The expression `(result & 1) ? ~(result >> 1) : (result >> 1)` (lines 33 and 45) on
the 32-bit pattern `result`. -/
def unzigzag (result : Nat) : Int :=
  if result % 2 = 1 then -(toInt32 result / 2) - 1 else toInt32 result / 2

/-- The loop `while (index < encoded.length)` (lines 22-52) on the string from `index`
on, run for at most `fuel` passes; `none` when it is still running after `fuel` passes.
The points pushed by this pass and the later ones are returned in order. -/
def decodeLoop : Nat → List Nat → Int → Int → Option (List Coord)
  | _, [], _, _ => some []
  | 0, _ :: _, _, _ => none
  | fuel + 1, c :: rest, lat, lng =>
    let r1 := readChunks (c :: rest) 0 0
    let lat' := lat + unzigzag r1.1
    let r2 := readChunks r1.2 0 0
    let lng' := lng + unzigzag r2.1
    (decodeLoop fuel r2.2 lat' lng').map fun points =>
      { lat := (lat' : ℚ) / 100000, lng := (lng' : ℚ) / 100000 } :: points

/-- The function `decodePolyline` (lines 14-55) on the char codes of `encoded`; `none`
as argument is a missing string (`undefined` or `null`), which like the empty string is
falsy. -/
def decodePolyline (fuel : Nat) (encoded : Option (List Nat)) : Option (List Coord) :=
  match encoded with
  | none => some []
  | some [] => some []
  | some (c :: rest) => decodeLoop fuel (c :: rest) 0 0

/-- The greedy property of a tour: every element after the first is new, is below `n`,
and is the first index at minimal finite distance from its predecessor among the
indices not used before it. -/
def GreedyTour (n : Nat) (matrix : Nat → Nat → Option ℚ) (route : List Nat) : Prop :=
  ∀ k p x, route[k]? = some p → route[k + 1]? = some x →
    x ∉ route.take (k + 1) ∧ x < n ∧
      ∃ d, matrix p x = some d ∧
        (∀ j, j < n → j ∉ route.take (k + 1) → ∀ e, matrix p j = some e → d ≤ e) ∧
        (∀ j, j < x → j ∉ route.take (k + 1) → ∀ e, matrix p j = some e → d < e)

/-- The invariant of the loop `while (visited.size < n)`. -/
structure NNInv (n : Nat) (matrix : Nat → Nat → Option ℚ) (s : NNState) : Prop where
  hvis : s.visited = s.route.toFinset
  hnodup : s.route.Nodup
  hlt : ∀ x ∈ s.route, x < n
  hhead : s.route.head? = some 0
  hlast : s.route.getLast? = some s.current
  htotal : s.totalDistance = calculateRouteDistance s.route matrix
  hgreedy : GreedyTour n matrix s.route

/-- Every cell `matrix[i][j]` with `i, j < n` is a finite number. -/
def FiniteMatrix (n : Nat) (matrix : Nat → Nat → Option ℚ) : Prop :=
  ∀ i j, i < n → j < n → ∃ d, matrix i j = some d

/-- Every pairwise haversine distance of the request is a finite number. -/
def FiniteDistances (calculateDistance : ℚ → ℚ → ℚ → ℚ → Option ℚ)
    (allLocations : List Coord) : Prop :=
  ∀ a ∈ allLocations, ∀ b ∈ allLocations,
    ∃ d, calculateDistance a.lat a.lng b.lat b.lng = some d

/-- The candidates of one scan of `solveVRPGreedy`: not yet visited and fitting the
remaining capacity, as the code tests it. -/
def vrpOk (fl : ℚ → ℚ) (demands : List ℚ) (capacity : Option ℚ) (s : VehState) (j : Nat) :
    Bool :=
  decide (j ∉ s.visited ∧
    fitsCapacity fl s.currentLoad (demandOr1 demands j) capacity = true)

/-- The number of indices below `n` that are not in `visited`. -/
def unvisitedCount (n : Nat) (visited : Finset Nat) : Nat :=
  (Finset.range n \ visited).card

/-- The state in which a vehicle's `while (true)` loop starts (lines 354-356). -/
def vehInit (depot : Nat) (visited : Finset Nat) : VehState :=
  { visited := visited, route := [depot], currentLoad := 0, currentNode := depot }

/-- The invariant of a vehicle's loop started with `visited0`: the route is the depot
followed by distinct stops below `n`, none of them in `visited0`, and `visited` is
`visited0` with those stops added. -/
structure VehInv (n depot : Nat) (visited0 : Finset Nat) (s : VehState) : Prop where
  hhead : s.route.head? = some depot
  hnodup : s.route.tail.Nodup
  hnew : ∀ x ∈ s.route.tail, x ∉ visited0 ∧ x < n
  hvis : s.visited = visited0 ∪ s.route.tail.toFinset

/-- The invariant of the loop over the vehicles: the depot is visited, every element of
every route is visited, every non-depot index occurs in the routes once if it is
visited and not at all otherwise, and no non-depot index of a route occurs in a later
route. -/
structure FleetInv (depot : Nat) (st : Finset Nat × List VehicleRoute) : Prop where
  hdepot : depot ∈ st.1
  hmem : ∀ r ∈ st.2, ∀ x ∈ r.route, x ∈ st.1
  hcount : ∀ j, j ≠ depot →
    (st.2.map fun r => r.route.count j).sum = if j ∈ st.1 then 1 else 0
  hpair : st.2.Pairwise fun earlier later =>
    ∀ j, j ≠ depot → j ∈ earlier.route → j ∉ later.route

/-- The invariant of one vehicle's loop when every stop has the demand `d`: after `t`
stops the load is `t * d`, at most `q` stops are taken, and each stop taken leaves one
unvisited index less than the `u0` the vehicle started with. -/
structure UniformInv (n depot : Nat) (d : ℚ) (q u0 t : Nat) (s : VehState) : Prop where
  hdepot : depot ∈ s.visited
  hcur : s.currentNode < n
  hload : s.currentLoad = (t : ℚ) * d
  hq : t ≤ q
  hcount : unvisitedCount n s.visited + t = u0

/-- The stops of one vehicle are chosen greedily: from the state `(visited, cur, load)`
each stop is below `n`, not yet visited, fits the capacity, and is at minimal distance
from the current position among the unvisited stops that fit; and after the last stop
no unvisited stop fits.  A stop `i` fits when the double `fl (load + dem i)` is at most
the capacity, and the load after it is that double. -/
def GreedyStops (fl : ℚ → ℚ) (n : Nat) (matrix : Nat → Nat → Option ℚ) (dem : Nat → ℚ)
    (capacity : ℚ) : Finset Nat → Nat → ℚ → List Nat → Prop
  | visited, _, load, [] => ∀ i, i < n → i ∉ visited → ¬ (fl (load + dem i) ≤ capacity)
  | visited, cur, load, x :: rest =>
    x < n ∧ x ∉ visited ∧ fl (load + dem x) ≤ capacity ∧
    (∃ dx, matrix cur x = some dx ∧
      ∀ i, i < n → i ∉ visited → fl (load + dem i) ≤ capacity →
        ∀ di, matrix cur i = some di → dx ≤ di) ∧
    GreedyStops fl n matrix dem capacity (insert x visited) x (fl (load + dem x)) rest

/-- Every route of the list is `[depot, stops.., depot]` with greedily chosen stops,
each vehicle starting from what the earlier vehicles have visited. -/
def GreedyFleet (fl : ℚ → ℚ) (n : Nat) (matrix : Nat → Nat → Option ℚ) (dem : Nat → ℚ)
    (cap : Nat → ℚ) (depot : Nat) : Finset Nat → List VehicleRoute → Prop
  | _, [] => True
  | visited, r :: rs =>
    ∃ stops, r.route = depot :: stops ++ [depot] ∧
      GreedyStops fl n matrix dem (cap r.vehicle) visited depot 0 stops ∧
      GreedyFleet fl n matrix dem cap depot (visited ∪ stops.toFinset) rs

/-- The length of a path: the sum of the distances of its consecutive pairs. -/
def pathLength (dist : ℚ → ℚ → ℚ → ℚ → ℚ) (l : List Coord) : ℚ :=
  ((l.zip l.tail).map fun p => dist p.1.lat p.1.lng p.2.lat p.2.lng).sum

/-- The number of stops selected by the vehicles' loops: a route `[depot, s1, .., sk, depot]`
stands for `k` selections. -/
def selections (routes : List VehicleRoute) : Nat :=
  (routes.map fun r => r.route.length - 2).sum

/-- What IEEE 754 arithmetic and the `Math` functions are taken to satisfy: rounding
keeps `0`, `1` and signs, at most doubles a magnitude, and rounds every magnitude up to
`2 ^ -1075` (half the smallest positive double) to `0`; `Math.PI` is between `0` and
`4`; `Math.sin` is odd with `|sin x| ≤ |x|`; `Math.sqrt` is exact at `0` and `1` and
never negative; `Math.atan2(0, 1)` is `0` and `Math.atan2` of non-negative arguments is
non-negative. -/
structure IEEEMath (M : JSMath) : Prop where
  fl_zero : M.fl 0 = 0
  fl_one : M.fl 1 = 1
  fl_neg : ∀ x, M.fl (-x) = -M.fl x
  fl_nonneg : ∀ x, 0 ≤ x → 0 ≤ M.fl x
  fl_abs_le : ∀ x, |M.fl x| ≤ 2 * |x|
  fl_underflow : ∀ x, |x| ≤ 1 / 2 ^ 1075 → M.fl x = 0
  PI_nonneg : 0 ≤ M.PI
  PI_le : M.PI ≤ 4
  sin_zero : M.sin 0 = 0
  sin_neg : ∀ x, M.sin (-x) = -M.sin x
  sin_abs_le : ∀ x, |M.sin x| ≤ |x|
  sqrt_zero : M.sqrt 0 = some 0
  sqrt_one : M.sqrt 1 = some 1
  sqrt_nonneg : ∀ x y, M.sqrt x = some y → 0 ≤ y
  atan2_zero_one : M.atan2 0 1 = 0
  atan2_nonneg : ∀ y x, 0 ≤ y → 0 ≤ x → 0 ≤ M.atan2 y x

/-- The zig-zag code of a signed delta: `2 v` for `v ≥ 0` and `-2 v - 1` for `v < 0`. -/
def zigzag (v : Int) : Nat :=
  if v < 0 then (-2 * v - 1).toNat else (2 * v).toNat

/-- The 5-bit chunks of `z`, least significant first, every chunk but the last with the
continuation bit `0x20`, each with the offset `63`; `fuel ≥ z` is enough. -/
def encodeChunks : Nat → Nat → List Nat
  | 0, z => [z + 63]
  | fuel + 1, z =>
    if 32 ≤ z then (z % 32 + 32 + 63) :: encodeChunks fuel (z / 32) else [z + 63]

/-- The Google encoding of one signed delta. -/
def encodeValue (v : Int) : List Nat :=
  encodeChunks (zigzag v) (zigzag v)

/-- The Google encoded-polyline encoding of points given in units of `1e-5` degrees, as
char codes: for each point the delta of its latitude and of its longitude from the
previous point `(lat, lng)`. -/
def encodeFrom : Int → Int → List (Int × Int) → List Nat
  | _, _, [] => []
  | lat, lng, p :: rest =>
    encodeValue (p.1 - lat) ++ (encodeValue (p.2 - lng) ++ encodeFrom p.1 p.2 rest)

/-- The encoding of a sequence of points; the deltas of the first point are taken from
`(0, 0)`. -/
def encodePolyline (points : List (Int × Int)) : List Nat :=
  encodeFrom 0 0 points

/-- The doubles met in `calculateDistance(8, 0, -8, 180)`: every operation is rounded to
the nearest double, `Math.PI` is the double nearest to pi, `Math.sin` and `Math.cos`
return the doubles nearest to the sine and cosine of 8 degrees at the double of
`8 * Math.PI / 180` (with the sign of the argument for the sine), `Math.sin` returns 1 at
the double of `Math.PI / 2`, and `Math.sqrt` of a negative number is `NaN`. -/
structure AntipodalDoubles (M : JSMath) : Prop where
  fl_eq : ∀ x, M.fl x = roundDouble x
  PI_eq : M.PI = 884279719003555 / 281474976710656
  sin_lat : M.sin (-(5030569068109113 / 36028797018963968))
    = -(5014239404989977 / 36028797018963968)
  cos_lat1 : M.cos (5030569068109113 / 36028797018963968)
    = 4459770905381437 / 4503599627370496
  cos_lat2 : M.cos (-(5030569068109113 / 36028797018963968))
    = 4459770905381437 / 4503599627370496
  sin_lon : M.sin (884279719003555 / 562949953421312) = 1
  sqrt_neg : ∀ x, x < 0 → M.sqrt x = none

/-! ## Example data -/

/-- A rational stand-in for the haversine distance, used to evaluate the handlers on
concrete requests: the sum of the absolute coordinate differences. -/
def gridDistance (lat1 lon1 lat2 lon2 : ℚ) : Option ℚ :=
  some (|lat1 - lat2| + |lon1 - lon2|)

/-- The origin of the example of the testable properties: (13.0827, 80.2707). -/
def exampleOrigin : Coord := { lat := 130827 / 10000, lng := 802707 / 10000 }

/-- The destinations of that example: (12.9716, 77.5946) and (17.3850, 78.4867). -/
def exampleDestinations : List Coord :=
  [{ lat := 129716 / 10000, lng := 775946 / 10000 },
   { lat := 173850 / 10000, lng := 784867 / 10000 }]

/-- The `n × n` matrix of the points `0, 1, .., n - 1` of a line: `matrix[i][j] = |i - j|`. -/
def lineMatrix (n : Nat) : List (List (Option ℚ)) :=
  (List.range n).map fun i => (List.range n).map fun j => some |(i : ℚ) - (j : ℚ)|

/-- The fleet example of the testable properties: a depot and five stops of demand 400,
two vehicles of capacity 1000. -/
def fleetInput : VRPInput :=
  { distance_matrix := lineMatrix 6
    demands := [0, 400, 400, 400, 400, 400]
    vehicle_capacities := [1000, 1000]
    num_vehicles := 2
    depot := 0 }

/-- A depot and two stops, the first stop heavier than the only vehicle's capacity. -/
def oversizedInput : VRPInput :=
  { distance_matrix := lineMatrix 3
    demands := [0, 10, 2]
    vehicle_capacities := [5]
    num_vehicles := 1
    depot := 0 }

/-- Two vehicles, the second of capacity `0`, and two stops of demand 5. -/
def zeroCapacityInput : VRPInput :=
  { distance_matrix := lineMatrix 3
    demands := [0, 5, 5]
    vehicle_capacities := [5, 0]
    num_vehicles := 2
    depot := 0 }

/-- Every demand `0`, one vehicle of capacity `1`, two stops. -/
def zeroDemandInput : VRPInput :=
  { distance_matrix := lineMatrix 3
    demands := [0, 0, 0]
    vehicle_capacities := [1]
    num_vehicles := 1
    depot := 0 }

/-- A ragged matrix: the row of the depot has no cell for stop 1, so
`distance_matrix[0][1]` is `undefined`; stop 1 has demand 1 and the vehicle capacity 5. -/
def raggedInput : VRPInput :=
  { distance_matrix := [[some 0], [some 1, some 0]]
    demands := [0, 1]
    vehicle_capacities := [5]
    num_vehicles := 1
    depot := 0 }

/-- A `/vrp` request with one location and the depot index 3. -/
def depotOutOfRangeRequest : VrpRequest :=
  { depot := some 3
    locations := some [{ lat := 0, lng := 0 }]
    demands := none
    vehicle_capacities := none
    distance_matrix := none
    num_vehicles := none }

/-- A `/vrp` request with three locations and no other field. -/
def plainVrpRequest : VrpRequest :=
  { depot := none
    locations := some [{ lat := 0, lng := 0 }, { lat := 1, lng := 0 }, { lat := 3, lng := 0 }]
    demands := none
    vehicle_capacities := none
    distance_matrix := none
    num_vehicles := none }

/-- An external solver that is not available: the promise rejects. -/
def solverUnavailable (_ : VRPInput) : Except String Unit :=
  Except.error "spawn python3 ENOENT"

/-- A `/shipment` request that passes the validation. -/
def validShipmentRequest : ShipmentRequest :=
  { origin := some { lat := some 13, lng := some 80 }
    destination := some { lat := some 17, lng := some 78 }
    product_type := some "medicine"
    urgency_multiplier := none
    shipments := some [{ id := some 1, weight_kg := some 10, weight := none }] }

/-- An optimizer service that is not reachable: `fetch` throws. -/
def optimizerUnreachable (_ : OptimizerRequest) : FetchOutcome Unit :=
  FetchOutcome.failed "fetch failed"

/-- A route from (0, 0) to (1, 1) with capacity 10. -/
def exampleMatchRoute : MatchRoute :=
  { origin := { lat := 0, lng := 0 }, destination := { lat := 1, lng := 1 },
    available_capacity := some 10 }

/-- A shipment with id 1 along the example route, of weight 1. -/
def lightShipment : MatchShipment :=
  { id := some 1, origin := { lat := 0, lng := 0 }, destination := { lat := 1, lng := 1 },
    weight := some 1 }

/-- A shipment with the same id 1, of weight 100. -/
def heavyShipment : MatchShipment :=
  { id := some 1, origin := { lat := 0, lng := 0 }, destination := { lat := 1, lng := 1 },
    weight := some 100 }

/-- A stop with a negative demand (a pick-up) before a stop of demand 5, one vehicle of
capacity 3. -/
def pickupInput : VRPInput :=
  { distance_matrix := lineMatrix 3
    demands := [0, -10, 5]
    vehicle_capacities := [3]
    num_vehicles := 1
    depot := 0 }

/-- Destinations A, B, C equally spaced on a line, in that order, and an origin next
to B. -/
def lineRequest : OrderRequest :=
  { origin := some { lat := 11 / 10, lng := 0 }
    destinations := some [{ lat := 0, lng := 0 }, { lat := 1, lng := 0 }, { lat := 2, lng := 0 }]
    return_to_origin := false }

/-- A `/vrp` request whose only vehicle has the capacity `-5`. -/
def negativeCapacityRequest : VrpRequest :=
  { depot := none
    locations := some [{ lat := 0, lng := 0 }, { lat := 1, lng := 0 }, { lat := 3, lng := 0 }]
    demands := none
    vehicle_capacities := some [-5]
    distance_matrix := none
    num_vehicles := none }

/-- A `/vrp` request with a supplied 2 x 2 matrix. -/
def suppliedMatrixRequest (locations : List Coord) : VrpRequest :=
  { depot := none
    locations := some locations
    demands := none
    vehicle_capacities := none
    distance_matrix := some [[some 0, some 7], [some 7, some 0]]
    num_vehicles := none }

/-- A small-angle stand-in for the double arithmetic: exact operations except that
magnitudes up to `2 ^ -1075` round to `0`, `sin x = x / (1 + x ^ 2)`, `cos x = 1`,
`sqrt x = x / 2` except at `1`, `atan2 y x = |y|`. -/
def smallAngleMath : JSMath :=
  { fl := fun x => if |x| ≤ 1 / 2 ^ 1075 then 0 else x
    PI := 355 / 113
    sin := fun x => x / (1 + x ^ 2)
    cos := fun _ => 1
    sqrt := fun x => if x < 0 then none else if x = 1 then some 1 else some (x / 2)
    atan2 := fun y _ => |y| }

/-- The char codes of the encoded polyline of Google's documentation. -/
def examplePolyline : List Nat :=
  "_p~iF~ps|U_ulLnnqC_mqNvxq`@".toList.map Char.toNat

/-- The points (38.5, -120.2), (40.7, -120.95), (43.252, -126.453) in units of `1e-5`. -/
def examplePoints : List (Int × Int) :=
  [(3850000, -12020000), (4070000, -12095000), (4325200, -12645300)]

/-- Three stops on a line with the demands 5 and -4 and the capacity 1, which is the sum
of the demands. -/
def deliveryPickupInput : VRPInput :=
  { distance_matrix := lineMatrix 3
    demands := [0, 5, -4]
    vehicle_capacities := [1]
    num_vehicles := 1
    depot := 0 }

/-- A depot at position 0 and stops at the positions 3, 2, 1 of a line, with the demands
2.4, 2.1, 2.2 and one vehicle of capacity 6.7 (the doubles of these literals; 6.7 is
exactly the sum of the three demands). -/
def roundedSumInput : VRPInput :=
  { distance_matrix :=
      [[some 0, some 3, some 2, some 1], [some 3, some 0, some 1, some 2],
       [some 2, some 1, some 0, some 1], [some 1, some 2, some 1, some 0]]
    demands := [0, 5404319552844595 / 2251799813685248, 4728779608739021 / 2251799813685248,
      2476979795053773 / 1125899906842624]
    vehicle_capacities := [7543529375845581 / 1125899906842624]
    num_vehicles := 1
    depot := 0 }

/-- Sixteen stops of demand 0.1 on a line and one vehicle of capacity 1.6 (the doubles
of these literals; 1.6 is exactly 16 times 0.1). -/
def tenthsInput : VRPInput :=
  { distance_matrix := lineMatrix 17
    demands := 0 :: List.replicate 16 (3602879701896397 / 36028797018963968)
    vehicle_capacities := [3602879701896397 / 2251799813685248]
    num_vehicles := 1
    depot := 0 }

/-- Six available routes for the light shipment, in no particular order: deviations of
20, 0, 0, 40, 2 and 5 km, the second one without the capacity for it. -/
def exampleRoutes : List MatchRoute :=
  [{ origin := { lat := 0, lng := 10 }, destination := { lat := 1, lng := 11 },
     available_capacity := some 10 },
   { origin := { lat := 0, lng := 0 }, destination := { lat := 1, lng := 1 },
     available_capacity := some (1 / 2) },
   { origin := { lat := 0, lng := 0 }, destination := { lat := 1, lng := 1 },
     available_capacity := some 10 },
   { origin := { lat := 0, lng := 20 }, destination := { lat := 1, lng := 21 },
     available_capacity := some 10 },
   { origin := { lat := 0, lng := 2 }, destination := { lat := 1, lng := 1 },
     available_capacity := some 10 },
   { origin := { lat := 0, lng := 5 }, destination := { lat := 1, lng := 1 },
     available_capacity := some 10 }]

/-- The values of `Math.sin` at the two non-negative arguments met in
`calculateDistance(8, 0, -8, 180)`, the doubles of `π / 2` and of `8 π / 180`; elsewhere
the small-angle stand-in. -/
def antipodalSin (x : ℚ) : ℚ :=
  if x = 884279719003555 / 562949953421312 then 1
  else if x = 5030569068109113 / 36028797018963968 then
    5014239404989977 / 36028797018963968
  else x / (1 + x ^ 2)

/-- The rounding of doubles and the double of `π`, with a table of the values of
`Math.sin` (extended as an odd function) and `Math.cos` at the arguments met in
`calculateDistance(8, 0, -8, 180)`; elsewhere the small-angle stand-in. -/
def antipodalMath : JSMath :=
  { fl := roundDouble
    PI := 884279719003555 / 281474976710656
    sin := fun x => if 0 ≤ x then antipodalSin x else -antipodalSin (-x)
    cos := fun x =>
      if |x| = 5030569068109113 / 36028797018963968 then 4459770905381437 / 4503599627370496
      else 1
    sqrt := fun x => if x < 0 then none else if x = 1 then some 1 else some (x / 2)
    atan2 := fun y _ => |y| }

/-- The points (8, 0) and (-8, 180), which are antipodal. -/
def antipodalPair : List Coord :=
  [{ lat := 8, lng := 0 }, { lat := -8, lng := 180 }]

/-! ## Theorems -/

theorem log2Fuel_spec (fuel n : Nat) (hn : 1 ≤ n) (hfuel : n ≤ fuel) :
    2 ^ log2Fuel fuel n ≤ n ∧ n < 2 ^ (log2Fuel fuel n + 1) := by
  induction fuel generalizing n with
  | zero => omega
  | succ fuel ih =>
    by_cases h2 : n < 2
    · have h1 : n = 1 := by omega
      subst h1
      simp [log2Fuel]
    · obtain ⟨ih1, ih2⟩ := ih (n / 2) (by omega) (by omega)
      simp only [log2Fuel, h2, if_false]
      rw [pow_succ, pow_succ]
      rw [pow_succ] at ih2
      constructor <;> omega

theorem binExp_spec (y : ℚ) (hy : 0 < y) :
    (2 : ℚ) ^ binExp y ≤ y ∧ y < (2 : ℚ) ^ (binExp y + 1) := by
  have hnum : 0 < y.num := Rat.num_pos.mpr hy
  have hN : 1 ≤ y.num.natAbs := by omega
  have hD : 1 ≤ y.den := y.den_pos
  obtain ⟨a1, a2⟩ := log2Fuel_spec y.num.natAbs y.num.natAbs hN (le_refl _)
  obtain ⟨b1, b2⟩ := log2Fuel_spec y.den y.den hD (le_refl _)
  generalize ha : log2Fuel y.num.natAbs y.num.natAbs = a at a1 a2
  generalize hb : log2Fuel y.den y.den = b at b1 b2
  have hyq : y = (y.num.natAbs : ℚ) / (y.den : ℚ) := by
    rw [Nat.cast_natAbs, abs_of_pos (by exact_mod_cast hnum)]
    exact (Rat.num_div_den y).symm
  have hDq : (0 : ℚ) < (y.den : ℚ) := by exact_mod_cast hD
  have a1q : (2 : ℚ) ^ a ≤ (y.num.natAbs : ℚ) := by exact_mod_cast a1
  have a2q : (y.num.natAbs : ℚ) < (2 : ℚ) ^ (a + 1) := by exact_mod_cast a2
  have b1q : (2 : ℚ) ^ b ≤ (y.den : ℚ) := by exact_mod_cast b1
  have b2q : (y.den : ℚ) < (2 : ℚ) ^ (b + 1) := by exact_mod_cast b2
  have hpa : (0 : ℚ) < 2 ^ a := by positivity
  have hpb : (0 : ℚ) < 2 ^ b := by positivity
  have hup : y < (2 : ℚ) ^ ((a : ℤ) - (b : ℤ) + 1) := by
    have : (2 : ℚ) ^ ((a : ℤ) - (b : ℤ) + 1) = 2 ^ (a + 1) / 2 ^ b := by
      rw [show (a : ℤ) - (b : ℤ) + 1 = ((a + 1 : ℕ) : ℤ) - ((b : ℕ) : ℤ) by push_cast; ring,
        zpow_sub₀ (by norm_num), zpow_natCast, zpow_natCast]
    rw [this, hyq, div_lt_div_iff₀ hDq hpb]
    calc (y.num.natAbs : ℚ) * 2 ^ b < 2 ^ (a + 1) * 2 ^ b := by
          exact mul_lt_mul_of_pos_right a2q hpb
      _ ≤ 2 ^ (a + 1) * (y.den : ℚ) := by
          exact mul_le_mul_of_nonneg_left b1q (by positivity)
  have hlow : (2 : ℚ) ^ ((a : ℤ) - (b : ℤ) - 1) ≤ y := by
    have : (2 : ℚ) ^ ((a : ℤ) - (b : ℤ) - 1) = 2 ^ a / 2 ^ (b + 1) := by
      rw [show (a : ℤ) - (b : ℤ) - 1 = ((a : ℕ) : ℤ) - ((b + 1 : ℕ) : ℤ) by push_cast; ring,
        zpow_sub₀ (by norm_num), zpow_natCast, zpow_natCast]
    rw [this, hyq, div_le_div_iff₀ (by positivity) hDq]
    calc (2 : ℚ) ^ a * (y.den : ℚ) ≤ 2 ^ a * 2 ^ (b + 1) := by
          exact mul_le_mul_of_nonneg_left (le_of_lt b2q) (by positivity)
      _ ≤ (y.num.natAbs : ℚ) * 2 ^ (b + 1) := by
          exact mul_le_mul_of_nonneg_right a1q (by positivity)
  simp only [binExp, ha, hb]
  split
  · rename_i h
    exact ⟨h, hup⟩
  · rename_i h
    refine ⟨hlow, ?_⟩
    rw [sub_add_cancel]
    exact not_le.mp h

theorem binExp_mono (x y : ℚ) (hx : 0 < x) (hxy : x ≤ y) : binExp x ≤ binExp y := by
  by_contra h
  push_neg at h
  obtain ⟨hx1, _⟩ := binExp_spec x hx
  obtain ⟨_, hy2⟩ := binExp_spec y (lt_of_lt_of_le hx hxy)
  have : (2 : ℚ) ^ (binExp y + 1) ≤ 2 ^ binExp x :=
    zpow_le_zpow_right₀ (by norm_num) (by omega)
  linarith

theorem roundHalfEven_mono (m m' : ℚ) (h : m ≤ m') : roundHalfEven m ≤ roundHalfEven m' := by
  have h1 := Int.floor_le m
  have h2 := Int.lt_floor_add_one m
  have h3 := Int.floor_le m'
  have h4 := Int.lt_floor_add_one m'
  rcases lt_or_eq_of_le (Int.floor_mono h) with hlt | heq
  · simp only [roundHalfEven]
    split_ifs <;> omega
  · simp only [roundHalfEven, ← heq]
    rw [← heq] at h3 h4
    split_ifs <;> first | omega | (exfalso; linarith)

theorem roundHalfEven_intCast (z : ℤ) : roundHalfEven (z : ℚ) = z := by
  simp [roundHalfEven]

theorem roundHalfEven_neg (m : ℚ) : roundHalfEven (-m) = -roundHalfEven m := by
  have h1 := Int.floor_le m
  have h2 := Int.lt_floor_add_one m
  by_cases hint : (⌊m⌋ : ℚ) = m
  · rw [← hint, ← Int.cast_neg, roundHalfEven_intCast, roundHalfEven_intCast]
  · have hlt : (⌊m⌋ : ℚ) < m := lt_of_le_of_ne h1 hint
    have hfl : ⌊-m⌋ = -⌊m⌋ - 1 := by
      rw [Int.floor_eq_iff]
      push_cast
      constructor <;> linarith
    simp only [roundHalfEven, hfl]
    push_cast
    split_ifs <;> first | omega | (exfalso; linarith)

theorem roundDouble_zero : roundDouble 0 = 0 := by
  simp [roundDouble]

theorem roundDouble_neg (x : ℚ) : roundDouble (-x) = -roundDouble x := by
  by_cases hx : x = 0
  · subst hx; simp [roundDouble]
  · have hnx : -x ≠ 0 := neg_ne_zero.mpr hx
    simp only [roundDouble, hx, hnx, if_false, abs_neg, neg_div, roundHalfEven_neg]
    push_cast
    ring

theorem roundDouble_nonneg (x : ℚ) (hx : 0 ≤ x) : 0 ≤ roundDouble x := by
  by_cases h0 : x = 0
  · subst h0; simp [roundDouble]
  · simp only [roundDouble, h0, if_false]
    apply mul_nonneg _ (by positivity)
    have : roundHalfEven 0 ≤ roundHalfEven (x / 2 ^ (max (binExp |x|) (-1022) - 52)) :=
      roundHalfEven_mono _ _ (by positivity)
    rw [show (0 : ℚ) = ((0 : ℤ) : ℚ) by simp, roundHalfEven_intCast] at this
    exact_mod_cast this

theorem roundDouble_mono_pos (x y : ℚ) (hx : 0 < x) (hxy : x ≤ y) :
    roundDouble x ≤ roundDouble y := by
  have hy : 0 < y := lt_of_lt_of_le hx hxy
  have hE : max (binExp |x|) (-1022) ≤ max (binExp |y|) (-1022) := by
    rw [abs_of_pos hx, abs_of_pos hy]
    exact max_le_max (binExp_mono x y hx hxy) (le_refl _)
  simp only [roundDouble, ne_of_gt hx, ne_of_gt hy, if_false]
  rcases lt_or_eq_of_le hE with hlt | heq
  · rw [abs_of_pos hx] at hlt ⊢
    rw [abs_of_pos hy] at hlt ⊢
    obtain ⟨_, hx2⟩ := binExp_spec x hx
    obtain ⟨hy1, _⟩ := binExp_spec y hy
    generalize hex : max (binExp x) (-1022) = ex at hlt
    generalize hey : max (binExp y) (-1022) = ey at hlt
    have hbx : binExp x ≤ ex := by rw [← hex]; exact le_max_left _ _
    have hby : ey = binExp y := by
      rw [← hey]
      apply max_eq_left
      have : (-1022 : ℤ) ≤ ex := by rw [← hex]; exact le_max_right _ _
      by_contra hcon
      push_neg at hcon
      have : max (binExp y) (-1022) = -1022 := max_eq_right (le_of_lt hcon)
      omega
    have hqx : (0 : ℚ) < 2 ^ (ex - 52) := by positivity
    have hqy : (0 : ℚ) < 2 ^ (ey - 52) := by positivity
    have hupx : (roundHalfEven (x / 2 ^ (ex - 52)) : ℚ) * 2 ^ (ex - 52) ≤ 2 ^ (ex + 1) := by
      have hm : x / 2 ^ (ex - 52) ≤ ((2 ^ 53 : ℤ) : ℚ) := by
        rw [div_le_iff₀ hqx]
        have : ((2 ^ 53 : ℤ) : ℚ) * 2 ^ (ex - 52) = 2 ^ (ex + 1) := by
          rw [show ex + 1 = 53 + (ex - 52) by ring, zpow_add₀ (by norm_num)]
          norm_num
        rw [this]
        have : (2 : ℚ) ^ (binExp x + 1) ≤ 2 ^ (ex + 1) :=
          zpow_le_zpow_right₀ (by norm_num) (by omega)
        linarith
      have hr := roundHalfEven_mono _ _ hm
      rw [roundHalfEven_intCast] at hr
      have hrq : (roundHalfEven (x / 2 ^ (ex - 52)) : ℚ) ≤ ((2 ^ 53 : ℤ) : ℚ) := by
        exact_mod_cast hr
      calc (roundHalfEven (x / 2 ^ (ex - 52)) : ℚ) * 2 ^ (ex - 52)
          ≤ ((2 ^ 53 : ℤ) : ℚ) * 2 ^ (ex - 52) := mul_le_mul_of_nonneg_right hrq (le_of_lt hqx)
        _ = 2 ^ (ex + 1) := by
          rw [show ex + 1 = 53 + (ex - 52) by ring, zpow_add₀ (by norm_num)]
          norm_num
    have hlowy : (2 : ℚ) ^ ey ≤ (roundHalfEven (y / 2 ^ (ey - 52)) : ℚ) * 2 ^ (ey - 52) := by
      have hm : ((2 ^ 52 : ℤ) : ℚ) ≤ y / 2 ^ (ey - 52) := by
        rw [le_div_iff₀ hqy]
        have : ((2 ^ 52 : ℤ) : ℚ) * 2 ^ (ey - 52) = 2 ^ ey := by
          rw [show ey = 52 + (ey - 52) by ring, zpow_add₀ (by norm_num)]
          norm_num
        rw [this, hby]
        exact hy1
      have hr := roundHalfEven_mono _ _ hm
      rw [roundHalfEven_intCast] at hr
      have hrq : ((2 ^ 52 : ℤ) : ℚ) ≤ (roundHalfEven (y / 2 ^ (ey - 52)) : ℚ) := by
        exact_mod_cast hr
      calc (2 : ℚ) ^ ey = ((2 ^ 52 : ℤ) : ℚ) * 2 ^ (ey - 52) := by
            rw [show ey = 52 + (ey - 52) by ring, zpow_add₀ (by norm_num)]
            norm_num
        _ ≤ (roundHalfEven (y / 2 ^ (ey - 52)) : ℚ) * 2 ^ (ey - 52) :=
            mul_le_mul_of_nonneg_right hrq (le_of_lt hqy)
    have hmid : (2 : ℚ) ^ (ex + 1) ≤ 2 ^ ey :=
      zpow_le_zpow_right₀ (by norm_num) (by omega)
    linarith
  · rw [heq]
    apply mul_le_mul_of_nonneg_right _ (by positivity)
    have := roundHalfEven_mono (x / 2 ^ (max (binExp |y|) (-1022) - 52))
      (y / 2 ^ (max (binExp |y|) (-1022) - 52))
      (div_le_div_of_nonneg_right hxy (by positivity))
    exact_mod_cast this

/-- Rounding to the nearest double is monotone. -/
theorem roundDouble_mono : Monotone roundDouble := by
  intro x y hxy
  rcases lt_trichotomy 0 x with hx | hx | hx
  · exact roundDouble_mono_pos x y hx hxy
  · rw [← hx, roundDouble_zero]
    exact roundDouble_nonneg y (by rw [← hx] at hxy; exact hxy)
  · rcases le_or_lt 0 y with hy | hy
    · have h1 := roundDouble_nonneg (-x) (by linarith)
      rw [roundDouble_neg] at h1
      have h2 := roundDouble_nonneg y hy
      linarith
    · have := roundDouble_mono_pos (-y) (-x) (by linarith) (by linarith)
      rw [roundDouble_neg, roundDouble_neg] at this
      linarith

/-- Every natural number up to `2 ^ 53` is a double. -/
theorem roundDouble_natCast (n : Nat) (hn : n ≤ 2 ^ 53) : roundDouble (n : ℚ) = n := by
  rcases Nat.eq_zero_or_pos n with h0 | hpos
  · subst h0; simp [roundDouble]
  rcases Nat.lt_or_ge n (2 ^ 53) with hlt | hge
  · have hq : (0 : ℚ) < (n : ℚ) := by exact_mod_cast hpos
    obtain ⟨h1, h2⟩ := binExp_spec (n : ℚ) hq
    have hlow : (0 : ℤ) ≤ binExp (n : ℚ) := by
      by_contra hcon
      push_neg at hcon
      have : (2 : ℚ) ^ (binExp (n : ℚ) + 1) ≤ 2 ^ (0 : ℤ) :=
        zpow_le_zpow_right₀ (by norm_num) (by omega)
      have h1n : (1 : ℚ) ≤ (n : ℚ) := by exact_mod_cast hpos
      simp only [zpow_zero] at this
      linarith
    have hup : binExp (n : ℚ) ≤ 52 := by
      by_contra hcon
      push_neg at hcon
      have : (2 : ℚ) ^ (53 : ℤ) ≤ 2 ^ binExp (n : ℚ) :=
        zpow_le_zpow_right₀ (by norm_num) (by omega)
      have hnq : (n : ℚ) < 2 ^ (53 : ℤ) := by
        have : ((n : ℕ) : ℚ) < ((2 ^ 53 : ℕ) : ℚ) := by exact_mod_cast hlt
        rw [show (53 : ℤ) = ((53 : ℕ) : ℤ) by rfl, zpow_natCast]
        exact_mod_cast this
      linarith
    obtain ⟨k, hk⟩ : ∃ k : ℕ, (k : ℤ) = 52 - binExp (n : ℚ) :=
      ⟨(52 - binExp (n : ℚ)).toNat, Int.toNat_of_nonneg (by omega)⟩
    have hE : max (binExp |(n : ℚ)|) (-1022) - 52 = -(k : ℤ) := by
      rw [abs_of_pos hq, max_eq_left (by omega), hk]
      ring
    simp only [roundDouble, ne_of_gt hq, if_false, hE]
    have hdiv : (n : ℚ) / 2 ^ (-(k : ℤ)) = (((n * 2 ^ k : ℕ) : ℤ) : ℚ) := by
      rw [zpow_neg, zpow_natCast, div_inv_eq_mul]
      push_cast
      ring
    rw [hdiv, roundHalfEven_intCast, zpow_neg, zpow_natCast]
    push_cast
    field_simp
  · have : n = 2 ^ 53 := le_antisymm hn hge
    subst this
    decide!


theorem roundHalfEven_small (m : ℚ) (h : |m| ≤ 1 / 2) : roundHalfEven m = 0 := by
  have key : ∀ y : ℚ, 0 ≤ y → y ≤ 1 / 2 → roundHalfEven y = 0 := by
    intro y h0 h1
    have hf : ⌊y⌋ = 0 := Int.floor_eq_zero_iff.mpr ⟨h0, by linarith⟩
    simp only [roundHalfEven, hf, Int.cast_zero, sub_zero]
    split_ifs with h2 h3 h4
    · rfl
    · exact absurd h3 (not_lt.mpr h1)
    · rfl
    · exact absurd (by decide) h4
  rcases le_total 0 m with h0 | h0
  · exact key m h0 (by rwa [abs_of_nonneg h0] at h)
  · have := key (-m) (by linarith) (by rwa [abs_of_nonpos h0] at h)
    rw [roundHalfEven_neg] at this
    omega

theorem roundHalfEven_le (m : ℚ) : (roundHalfEven m : ℚ) ≤ m + 1 / 2 := by
  have h1 := Int.floor_le m
  unfold roundHalfEven
  split_ifs with h2 h3 h4
  · linarith
  · push_cast; linarith [Int.lt_floor_add_one m]
  · linarith
  · push_cast; linarith

theorem roundHalfEven_abs_le (m : ℚ) : |(roundHalfEven m : ℚ)| ≤ 2 * |m| := by
  have key : ∀ y : ℚ, 0 ≤ y → |(roundHalfEven y : ℚ)| ≤ 2 * |y| := by
    intro y h0
    rcases le_total y (1 / 2) with h1 | h1
    · rw [roundHalfEven_small y (by rwa [abs_of_nonneg h0])]
      simp
    · have hnn : (0 : ℤ) ≤ roundHalfEven y := by
        have := roundHalfEven_mono 0 y h0
        rwa [show (0 : ℚ) = ((0 : ℤ) : ℚ) by simp, roundHalfEven_intCast] at this
      have hq : (0 : ℚ) ≤ (roundHalfEven y : ℚ) := by exact_mod_cast hnn
      rw [abs_of_nonneg hq, abs_of_nonneg h0]
      linarith [roundHalfEven_le y]
  rcases le_total 0 m with h0 | h0
  · exact key m h0
  · have := key (-m) (by linarith)
    rwa [roundHalfEven_neg, Int.cast_neg, abs_neg, abs_neg] at this

/-- Rounding to a double at most doubles a magnitude. -/
theorem roundDouble_abs_le (x : ℚ) : |roundDouble x| ≤ 2 * |x| := by
  by_cases hx : x = 0
  · subst hx; simp [roundDouble]
  · simp only [roundDouble, hx, if_false]
    have hp : (0 : ℚ) < 2 ^ (max (binExp |x|) (-1022) - 52) := by positivity
    rw [abs_mul, abs_of_pos hp]
    calc |(roundHalfEven (x / 2 ^ (max (binExp |x|) (-1022) - 52)) : ℚ)|
          * 2 ^ (max (binExp |x|) (-1022) - 52)
        ≤ 2 * |x / 2 ^ (max (binExp |x|) (-1022) - 52)|
          * 2 ^ (max (binExp |x|) (-1022) - 52) :=
          mul_le_mul_of_nonneg_right (roundHalfEven_abs_le _) (le_of_lt hp)
      _ = 2 * |x| := by
          rw [abs_div, abs_of_pos hp]
          field_simp

/-- A magnitude up to `2 ^ -1075`, half the smallest positive double, rounds to `0`. -/
theorem roundDouble_underflow (x : ℚ) (h : |x| ≤ 1 / 2 ^ 1075) : roundDouble x = 0 := by
  by_cases hx : x = 0
  · subst hx; simp [roundDouble]
  · have hpos : 0 < |x| := abs_pos.mpr hx
    have hz : (1 : ℚ) / 2 ^ 1075 = 2 ^ (-1075 : ℤ) := by
      rw [zpow_neg, show (1075 : ℤ) = ((1075 : ℕ) : ℤ) by rfl, zpow_natCast, one_div]
    rw [hz] at h
    obtain ⟨h1, _⟩ := binExp_spec |x| hpos
    have hexp : binExp |x| ≤ -1022 := by
      by_contra hcon
      push_neg at hcon
      have h2 : (2 : ℚ) ^ (-1021 : ℤ) ≤ 2 ^ binExp |x| :=
        zpow_le_zpow_right₀ (by norm_num) (by omega)
      have h3 : (2 : ℚ) ^ (-1075 : ℤ) < 2 ^ (-1021 : ℤ) :=
        zpow_lt_zpow_right₀ (by norm_num) (by norm_num)
      linarith
    have hmax : max (binExp |x|) (-1022) - 52 = -1074 := by
      rw [max_eq_right hexp]; norm_num
    simp only [roundDouble, hx, if_false, hmax]
    have hp : (0 : ℚ) < 2 ^ (-1074 : ℤ) := by positivity
    have hsmall : |x / 2 ^ (-1074 : ℤ)| ≤ 1 / 2 := by
      rw [abs_div, abs_of_pos hp, div_le_iff₀ hp]
      have h4 : (2 : ℚ) ^ (-1075 : ℤ) = 1 / 2 * 2 ^ (-1074 : ℤ) := by
        rw [show (-1075 : ℤ) = -1 + -1074 by norm_num, zpow_add₀ (by norm_num)]
        norm_num
      rw [h4] at h
      exact h
    rw [roundHalfEven_small _ hsmall]
    simp

theorem antipodalSin_abs_le (x : ℚ) (hx : 0 ≤ x) : |antipodalSin x| ≤ x := by
  unfold antipodalSin
  split_ifs with h1 h2
  · rw [h1]; norm_num
  · rw [h2]; norm_num [abs_of_pos]
  · have h1 : (0 : ℚ) < 1 + x ^ 2 := by positivity
    rw [abs_div, abs_of_pos h1, div_le_iff₀ h1, abs_of_nonneg hx]
    nlinarith [sq_nonneg x]

/-- The rounding of doubles, with the table of `antipodalMath`, satisfies the facts of
`IEEEMath`. -/
theorem antipodalMath_ieee : IEEEMath antipodalMath := by
  refine ⟨?_, ?_, ?_, ?_, ?_, ?_, ?_, ?_, ?_, ?_, ?_, ?_, ?_, ?_, ?_, ?_⟩
  · exact roundDouble_zero
  · exact roundDouble_natCast 1 (by norm_num)
  · exact roundDouble_neg
  · exact roundDouble_nonneg
  · exact roundDouble_abs_le
  · exact roundDouble_underflow
  · simp only [antipodalMath]; norm_num
  · simp only [antipodalMath]; norm_num
  · have h0 : antipodalSin 0 = 0 := by decide!
    simp [antipodalMath, h0]
  · intro x
    simp only [antipodalMath]
    rcases lt_trichotomy x 0 with h | h | h
    · have h1 : ¬ (0 ≤ x) := not_le.mpr h
      have h2 : (0 : ℚ) ≤ -x := by linarith
      simp only [h1, h2, if_true, if_false, neg_neg]
    · subst h
      have h0 : antipodalSin 0 = 0 := by decide!
      simp [h0]
    · have h1 : (0 : ℚ) ≤ x := le_of_lt h
      have h2 : ¬ ((0 : ℚ) ≤ -x) := by
        rw [not_le]; linarith
      simp only [h1, h2, if_true, if_false, neg_neg]
  · intro x
    simp only [antipodalMath]
    split_ifs with h
    · rw [abs_of_nonneg h]
      exact antipodalSin_abs_le x h
    · rw [abs_neg, abs_of_neg (not_le.mp h)]
      exact antipodalSin_abs_le (-x) (by linarith)
  · simp [antipodalMath]
  · simp [antipodalMath]
  · intro x y h
    simp only [antipodalMath] at h
    split at h
    · simp at h
    · split at h
      · simp only [Option.some.injEq] at h
        rw [← h]; norm_num
      · simp only [Option.some.injEq] at h
        rw [← h]
        linarith
  · simp [antipodalMath]
  · intro y x _ _
    simp only [antipodalMath]
    exact abs_nonneg y
theorem scanUpTo_succ (ok : Nat → Bool) (row : Nat → Option ℚ) (n : Nat) :
    scanUpTo ok row (n + 1) = scanStep ok row (scanUpTo ok row n) n := by
  simp [scanUpTo, List.range_succ, List.foldl_append]

theorem scanUpTo_spec (ok : Nat → Bool) (row : Nat → Option ℚ) (n : Nat) :
    ScanSpec ok row n (scanUpTo ok row n) := by
  induction n with
  | zero => simp [scanUpTo, ScanSpec]
  | succ n ih =>
    rw [scanUpTo_succ]
    generalize scanUpTo ok row n = acc at ih
    obtain ⟨bd, bj⟩ := acc
    cases bd with
    | none =>
      cases bj with
      | some j => simp [ScanSpec] at ih
      | none =>
        simp only [ScanSpec] at ih
        cases hr : row n with
        | none =>
          have : scanStep ok row (none, none) n = (none, none) := by
            simp [scanStep, hr, jsLt]
          rw [this]
          intro j hj hok
          rcases Nat.lt_succ_iff_lt_or_eq.mp hj with h | h
          · exact ih j h hok
          · rw [h]; exact hr
        | some d =>
          by_cases hok : ok n = true
          · have : scanStep ok row (none, none) n = (some d, some n) := by
              simp [scanStep, hr, jsLt, hok]
            rw [this]
            refine ⟨Nat.lt_succ_self n, hok, hr, ?_, ?_⟩
            · intro i hi hoki e he
              rcases Nat.lt_succ_iff_lt_or_eq.mp hi with h | h
              · rw [ih i h hoki] at he; cases he
              · rw [h, hr] at he; cases he; exact le_refl _
            · intro i hi hoki e he
              rw [ih i hi hoki] at he; cases he
          · have : scanStep ok row (none, none) n = (none, none) := by
              simp [scanStep, hok]
            rw [this]
            intro j hj hokj
            rcases Nat.lt_succ_iff_lt_or_eq.mp hj with h | h
            · exact ih j h hokj
            · rw [h] at hokj; exact absurd hokj hok
    | some d =>
      cases bj with
      | none => simp [ScanSpec] at ih
      | some j =>
        obtain ⟨hj, hokj, hrj, hmin, htie⟩ := ih
        by_cases hc : ok n = true ∧ jsLt (row n) (some d) = true
        · obtain ⟨hok, hlt⟩ := hc
          cases hr : row n with
          | none => rw [hr] at hlt; simp [jsLt] at hlt
          | some e =>
            rw [hr] at hlt
            have hlt' : e < d := by simpa [jsLt] using hlt
            have : scanStep ok row (some d, some j) n = (some e, some n) := by
              simp [scanStep, hr, jsLt, hok, hlt']
            rw [this]
            refine ⟨Nat.lt_succ_self n, hok, hr, ?_, ?_⟩
            · intro i hi hoki f hf
              rcases Nat.lt_succ_iff_lt_or_eq.mp hi with h | h
              · exact le_trans (le_of_lt hlt') (hmin i h hoki f hf)
              · rw [h, hr] at hf; cases hf; exact le_refl _
            · intro i hi hoki f hf
              exact lt_of_lt_of_le hlt' (hmin i hi hoki f hf)
        · have : scanStep ok row (some d, some j) n = (some d, some j) := by
            simp only [scanStep]; rw [if_neg hc]
          rw [this]
          refine ⟨Nat.lt_succ_of_lt hj, hokj, hrj, ?_, htie⟩
          intro i hi hoki f hf
          rcases Nat.lt_succ_iff_lt_or_eq.mp hi with h | h
          · exact hmin i h hoki f hf
          · subst h
            by_contra hcon
            apply hc
            refine ⟨hoki, ?_⟩
            rw [hf]; simp only [jsLt]
            exact decide_eq_true (lt_of_not_le hcon)

theorem nnScan_eq (n : Nat) (matrix : Nat → Nat → Option ℚ) (visited : Finset Nat)
    (current : Nat) :
    nnScan n matrix visited current
      = scanUpTo (fun j => decide (j ∉ visited)) (matrix current) n := by
  have : nnScanStep matrix visited current
      = scanStep (fun j => decide (j ∉ visited)) (matrix current) := by
    funext acc j
    simp [nnScanStep, scanStep]
  simp [nnScan, scanUpTo, this]

theorem zip_tail_append (a : Nat) (t : List Nat) (x : Nat) :
    List.zip (a :: t ++ [x]) (t ++ [x])
      = List.zip (a :: t) t ++ [((a :: t).getLast (List.cons_ne_nil a t), x)] := by
  induction t generalizing a with
  | nil => simp
  | cons b t ih =>
    have h := ih b
    simp only [List.cons_append, List.zip_cons_cons] at h ⊢
    rw [h]
    simp [List.getLast_cons]

theorem calculateRouteDistance_append (matrix : Nat → Nat → Option ℚ) (route : List Nat)
    (c x : Nat) (hlast : route.getLast? = some c) :
    calculateRouteDistance (route ++ [x]) matrix
      = jsAdd (calculateRouteDistance route matrix) (matrix c x) := by
  cases route with
  | nil => simp at hlast
  | cons a t =>
    have hc : (a :: t).getLast (List.cons_ne_nil a t) = c := by
      rw [List.getLast?_eq_getLast _ (List.cons_ne_nil a t)] at hlast
      exact Option.some.inj hlast
    simp only [calculateRouteDistance, List.cons_append, List.tail_cons]
    have h := zip_tail_append a t x
    simp only [List.cons_append] at h
    rw [h, List.foldl_append, hc]
    simp

theorem greedyTour_singleton (n : Nat) (matrix : Nat → Nat → Option ℚ) (a : Nat) :
    GreedyTour n matrix [a] := by
  intro k p x _ h2
  simp at h2

theorem greedyTour_append (n : Nat) (matrix : Nat → Nat → Option ℚ) (route : List Nat)
    (c x : Nat) (d : ℚ) (hg : GreedyTour n matrix route) (hlast : route.getLast? = some c)
    (hx : x ∉ route) (hxn : x < n) (hd : matrix c x = some d)
    (hmin : ∀ j, j < n → j ∉ route → ∀ e, matrix c j = some e → d ≤ e)
    (htie : ∀ j, j < x → j ∉ route → ∀ e, matrix c j = some e → d < e) :
    GreedyTour n matrix (route ++ [x]) := by
  intro k p y hk hk1
  have hne : route ≠ [] := by
    intro h; rw [h] at hlast; simp at hlast
  have hlen : 0 < route.length := List.length_pos.mpr hne
  rcases Nat.lt_trichotomy (k + 1) route.length with h | h | h
  · have e1 : (route ++ [x])[k]? = route[k]? := List.getElem?_append_left (by omega)
    have e2 : (route ++ [x])[k + 1]? = route[k + 1]? := List.getElem?_append_left h
    have e3 : (route ++ [x]).take (k + 1) = route.take (k + 1) :=
      List.take_append_of_le_length (le_of_lt h)
    rw [e1] at hk; rw [e2] at hk1; rw [e3]
    exact hg k p y hk hk1
  · have e1 : (route ++ [x])[k]? = route[k]? := List.getElem?_append_left (by omega)
    have e2 : (route ++ [x])[k + 1]? = some x := by
      rw [h]; simp
    have e3 : (route ++ [x]).take (k + 1) = route := by
      rw [h]; simp
    rw [e1] at hk; rw [e2] at hk1; rw [e3]
    have hy : y = x := (Option.some.inj hk1).symm
    have hp : p = c := by
      have : route.getLast? = route[k]? := by
        rw [List.getLast?_eq_getElem?]
        congr 1; omega
      rw [this, hk] at hlast
      exact Option.some.inj hlast
    subst hy; subst hp
    exact ⟨hx, hxn, d, hd, hmin, htie⟩
  · have : (route ++ [x])[k + 1]? = none := by
      apply List.getElem?_eq_none
      simp; omega
    rw [this] at hk1; cases hk1

theorem nnIter_inv (n : Nat) (matrix : Nat → Nat → Option ℚ) (hfin : FiniteMatrix n matrix)
    (s : NNState) (hinv : NNInv n matrix s) (hcard : s.visited.card < n) :
    NNInv n matrix (nnIter n matrix s) ∧
      (nnIter n matrix s).visited.card = s.visited.card + 1 := by
  have hmemv : ∀ y, y ∈ s.visited ↔ y ∈ s.route := by
    intro y; rw [hinv.hvis]; simp
  have hcur : s.current < n := hinv.hlt _ (List.mem_of_getLast?_eq_some hinv.hlast)
  have hsub : s.visited ⊆ Finset.range n := by
    intro y hy
    exact Finset.mem_range.mpr (hinv.hlt y ((hmemv y).mp hy))
  have hex : ∃ j ∈ Finset.range n, j ∉ s.visited := by
    apply Finset.exists_of_ssubset
    refine Finset.ssubset_iff_subset_ne.mpr ⟨hsub, ?_⟩
    intro h
    rw [h] at hcard
    simp at hcard
  obtain ⟨j, hjn, hjv⟩ := hex
  have hjn' : j < n := Finset.mem_range.mp hjn
  have hspec := scanUpTo_spec (fun j => decide (j ∉ s.visited)) (matrix s.current) n
  rw [← nnScan_eq] at hspec
  rcases hscan : nnScan n matrix s.visited s.current with ⟨bd, bj⟩
  rw [hscan] at hspec
  cases bd with
  | none =>
    cases bj with
    | some x => simp [ScanSpec] at hspec
    | none =>
      simp only [ScanSpec] at hspec
      obtain ⟨d, hd⟩ := hfin s.current j hcur hjn'
      have := hspec j hjn' (by simpa using hjv)
      rw [hd] at this; cases this
  | some d =>
    cases bj with
    | none => simp [ScanSpec] at hspec
    | some x =>
      simp only [ScanSpec] at hspec
      obtain ⟨hxn, hxok, hxd, hmin, htie⟩ := hspec
      have hxv : x ∉ s.visited := by simpa using hxok
      have hxr : x ∉ s.route := fun h => hxv ((hmemv x).mpr h)
      have hne : s.route ≠ [] := by
        intro h; have := hinv.hlast; rw [h] at this; simp at this
      have hiter : nnIter n matrix s =
          { visited := insert x s.visited, route := s.route ++ [x], current := x,
            totalDistance := jsAdd s.totalDistance (some d) } := by
        simp only [nnIter, hscan]
      rw [hiter]
      refine ⟨⟨?_, ?_, ?_, ?_, ?_, ?_, ?_⟩, ?_⟩
      · ext y
        simp [hinv.hvis]
        tauto
      · simp only [List.nodup_append]
        refine ⟨hinv.hnodup, List.nodup_singleton x, ?_⟩
        intro a ha hb
        simp only [List.mem_singleton] at hb
        subst hb
        exact hxr ha
      · intro y hy
        simp only [List.mem_append, List.mem_singleton] at hy
        rcases hy with hy | hy
        · exact hinv.hlt y hy
        · rw [hy]; exact hxn
      · simp only []
        rw [List.head?_append_of_ne_nil _ hne]
        exact hinv.hhead
      · simp
      · simp only []
        rw [calculateRouteDistance_append matrix s.route s.current x hinv.hlast, hxd,
          hinv.htotal]
      · apply greedyTour_append n matrix s.route s.current x d hinv.hgreedy hinv.hlast hxr
          hxn hxd
        · intro i hi hir e he
          exact hmin i hi (by simpa using fun h => hir ((hmemv i).mp h)) e he
        · intro i hi hir e he
          exact htie i hi (by simpa using fun h => hir ((hmemv i).mp h)) e he
      · simp only []
        exact Finset.card_insert_of_not_mem hxv

theorem nnLoop_run (n : Nat) (matrix : Nat → Nat → Option ℚ) (hfin : FiniteMatrix n matrix)
    (fuel : Nat) (s : NNState) (hinv : NNInv n matrix s) (hfuel : n ≤ s.visited.card + fuel) :
    ∃ s', nnLoop n matrix fuel s = some s' ∧ NNInv n matrix s' ∧ s'.route.length = n := by
  have hlen : ∀ t : NNState, NNInv n matrix t → t.route.length = t.visited.card := by
    intro t ht
    rw [ht.hvis, List.toFinset_card_of_nodup ht.hnodup]
  have hle : ∀ t : NNState, NNInv n matrix t → t.visited.card ≤ n := by
    intro t ht
    have : t.visited ⊆ Finset.range n := by
      intro y hy
      rw [ht.hvis] at hy
      exact Finset.mem_range.mpr (ht.hlt y (by simpa using hy))
    simpa using Finset.card_le_card this
  induction fuel generalizing s with
  | zero =>
    have h1 := hle s hinv
    have : ¬ s.visited.card < n := by omega
    refine ⟨s, ?_, hinv, ?_⟩
    · simp [nnLoop, this]
    · rw [hlen s hinv]; omega
  | succ fuel ih =>
    by_cases hc : s.visited.card < n
    · obtain ⟨hinv', hcard'⟩ := nnIter_inv n matrix hfin s hinv hc
      obtain ⟨s', hs', hi', hl'⟩ := ih (nnIter n matrix s) hinv' (by omega)
      refine ⟨s', ?_, hi', hl'⟩
      simp only [nnLoop, hc, if_true]
      exact hs'
    · have h1 := hle s hinv
      refine ⟨s, ?_, hinv, ?_⟩
      · simp [nnLoop, hc]
      · rw [hlen s hinv]; omega

theorem nnInit_inv (n : Nat) (matrix : Nat → Nat → Option ℚ) (hn : 0 < n) :
    NNInv n matrix nnInit := by
  refine ⟨?_, ?_, ?_, ?_, ?_, ?_, ?_⟩
  · simp [nnInit]
  · simp [nnInit]
  · intro x hx
    simp [nnInit] at hx
    omega
  · simp [nnInit]
  · simp [nnInit]
  · simp [nnInit, calculateRouteDistance]
  · exact greedyTour_singleton n matrix 0

theorem cellOf_buildMatrix (calculateDistance : ℚ → ℚ → ℚ → ℚ → Option ℚ)
    (allLocations : List Coord) (i j : Nat) (hi : i < allLocations.length)
    (hj : j < allLocations.length) :
    cellOf (buildMatrix calculateDistance allLocations) i j
      = if i = j then some 0
        else calculateDistance allLocations[i].lat allLocations[i].lng
          allLocations[j].lat allLocations[j].lng := by
  simp [cellOf, buildMatrix, List.getElem?_map, List.getElem?_range hi, List.getElem?_range hj,
    List.getElem?_eq_getElem hi, List.getElem?_eq_getElem hj]

theorem finiteMatrix_buildMatrix (calculateDistance : ℚ → ℚ → ℚ → ℚ → Option ℚ)
    (allLocations : List Coord) (hfin : FiniteDistances calculateDistance allLocations) :
    FiniteMatrix allLocations.length (cellOf (buildMatrix calculateDistance allLocations)) := by
  intro i j hi hj
  rw [cellOf_buildMatrix calculateDistance allLocations i j hi hj]
  by_cases h : i = j
  · exact ⟨0, by simp [h]⟩
  · simp only [h, if_false]
    exact hfin _ (List.getElem_mem hi) _ (List.getElem_mem hj)

theorem calculateRouteDistance_finite (n : Nat) (matrix : Nat → Nat → Option ℚ)
    (hfin : FiniteMatrix n matrix) (route : List Nat) (hlt : ∀ x ∈ route, x < n) :
    ∃ t, calculateRouteDistance route matrix = some t := by
  have key : ∀ (l : List (Nat × Nat)) (init : ℚ),
      (∀ p ∈ l, p.1 < n ∧ p.2 < n) →
      ∃ t, l.foldl (fun distance p => jsAdd distance (matrix p.1 p.2)) (some init) = some t := by
    intro l
    induction l with
    | nil => intro init _; exact ⟨init, rfl⟩
    | cons p l ih =>
      intro init hp
      obtain ⟨h1, h2⟩ := hp p (List.mem_cons_self p l)
      obtain ⟨d, hd⟩ := hfin p.1 p.2 h1 h2
      simp only [List.foldl_cons, hd, jsAdd]
      exact ih (init + d) (fun q hq => hp q (List.mem_cons_of_mem p hq))
  apply key
  intro p hp
  have := List.of_mem_zip hp
  exact ⟨hlt _ this.1, hlt _ (List.mem_of_mem_tail this.2)⟩

theorem perm_range_of_nodup (n : Nat) (l : List Nat) (hnd : l.Nodup) (hlt : ∀ x ∈ l, x < n)
    (hlen : l.length = n) : l.Perm (List.range n) := by
  apply List.perm_of_nodup_nodup_toFinset_eq hnd (List.nodup_range n)
  apply Finset.eq_of_subset_of_card_le
  · intro x hx
    simp only [List.mem_toFinset, List.mem_range] at hx ⊢
    exact hlt x hx
  · rw [List.toFinset_card_of_nodup hnd, List.toFinset_card_of_nodup (List.nodup_range n)]
    simp [hlen]

/-- The nearest-neighbour loop on a finite matrix returns, for every `fuel ≥ n - 1`, a
state satisfying the invariant whose route has length `n`. -/
theorem nearestNeighbour_run (n : Nat) (matrix : Nat → Nat → Option ℚ) (hn : 0 < n)
    (hfin : FiniteMatrix n matrix) (return_to_origin : Bool) (fuel : Nat) (hfuel : n ≤ fuel + 1) :
    ∃ s, NNInv n matrix s ∧ s.route.length = n ∧
      nearestNeighbour n matrix return_to_origin fuel
        = some (s.route ++ (if return_to_origin then [0] else []),
            if return_to_origin then jsAdd s.totalDistance (matrix s.current 0)
            else s.totalDistance) := by
  obtain ⟨s, hs, hinv, hlen⟩ :=
    nnLoop_run n matrix hfin fuel nnInit (nnInit_inv n matrix hn)
      (by simp [nnInit]; omega)
  refine ⟨s, hinv, hlen, ?_⟩
  simp only [nearestNeighbour, hs, Option.map_some', nnReturn]
  cases return_to_origin <;> simp

theorem orderRoute_run (calculateDistance : ℚ → ℚ → ℚ → ℚ → Option ℚ) (origin : Coord)
    (destinations : List Coord) (return_to_origin : Bool) (fuel : Nat)
    (hfin : FiniteDistances calculateDistance (origin :: destinations))
    (hfuel : destinations.length ≤ fuel) :
    ∃ s, NNInv (destinations.length + 1)
          (cellOf (buildMatrix calculateDistance (origin :: destinations))) s ∧
      s.route.length = destinations.length + 1 ∧
      orderRoute calculateDistance origin destinations return_to_origin fuel
        = some (s.route ++ (if return_to_origin then [0] else []),
            if return_to_origin then
              jsAdd s.totalDistance
                (cellOf (buildMatrix calculateDistance (origin :: destinations)) s.current 0)
            else s.totalDistance) := by
  have h := nearestNeighbour_run (origin :: destinations).length
    (cellOf (buildMatrix calculateDistance (origin :: destinations))) (by simp)
    (finiteMatrix_buildMatrix calculateDistance (origin :: destinations) hfin)
    return_to_origin fuel (by simpa using hfuel)
  simpa [orderRoute] using h

theorem round1_spec (t : ℚ) :
    ∃ q : ℚ, round1 (some t) = some q ∧ (∃ z : ℤ, q = (z : ℚ) / 10) ∧ |q - t| ≤ 1 / 20 := by
  refine ⟨(mathRound (t * 10) : ℚ) / 10, rfl, ⟨mathRound (t * 10), rfl⟩, ?_⟩
  have h1 : ((⌊t * 10 + 1 / 2⌋ : ℤ) : ℚ) ≤ t * 10 + 1 / 2 := Int.floor_le _
  have h2 : t * 10 + 1 / 2 < ((⌊t * 10 + 1 / 2⌋ : ℤ) : ℚ) + 1 := Int.lt_floor_add_one _
  rw [abs_le]
  simp only [mathRound]
  constructor <;> linarith

theorem optimizeOrder_ok (calculateDistance : ℚ → ℚ → ℚ → ℚ → Option ℚ) (origin : Coord)
    (destinations : List Coord) (return_to_origin : Bool) (fuel : Nat)
    (hm : 1 ≤ destinations.length) (order : List Nat) (total : Option ℚ)
    (hrun : orderRoute calculateDistance origin destinations return_to_origin fuel
      = some (order, total)) :
    ∃ body, optimizeOrder calculateDistance fuel
        { origin := some origin, destinations := some destinations,
          return_to_origin := return_to_origin } = some (OrderResponse.ok body) ∧
      body.total_distance_km = round1 total := by
  cases destinations with
  | nil => simp at hm
  | cons d ds =>
    simp only [optimizeOrder, hrun, Option.map_some']
    exact ⟨_, rfl, rfl⟩

/-- C1: for an optimize-order request with an origin and `m ≥ 1` destinations whose
pairwise distances are finite numbers, the order computed by the nearest-neighbour loop
(given at least `m` passes) begins with index `0`; its first `n = m + 1` elements are a
permutation of `0 .. n - 1`; and they are followed by exactly one more element, `0`,
when `return_to_origin` is true, and by nothing when it is false. -/
theorem optimizeOrder_order_permutation (calculateDistance : ℚ → ℚ → ℚ → ℚ → Option ℚ)
    (origin : Coord) (destinations : List Coord) (return_to_origin : Bool) (fuel : Nat)
    (hm : 1 ≤ destinations.length)
    (hfin : FiniteDistances calculateDistance (origin :: destinations))
    (hfuel : destinations.length ≤ fuel) :
    ∃ order total,
      orderRoute calculateDistance origin destinations return_to_origin fuel
        = some (order, total) ∧
      (∃ body, optimizeOrder calculateDistance fuel
        { origin := some origin, destinations := some destinations,
          return_to_origin := return_to_origin } = some (OrderResponse.ok body)) ∧
      order.head? = some 0 ∧
      (order.take (destinations.length + 1)).Perm (List.range (destinations.length + 1)) ∧
      order = order.take (destinations.length + 1)
        ++ (if return_to_origin then [0] else []) := by
  obtain ⟨s, hinv, hlen, hrun⟩ :=
    orderRoute_run calculateDistance origin destinations return_to_origin fuel hfin hfuel
  have hne : s.route ≠ [] := by
    intro h; have := hinv.hlast; rw [h] at this; simp at this
  have htake : (s.route ++ (if return_to_origin then [0] else [])).take
      (destinations.length + 1) = s.route := by
    rw [← hlen]; simp
  obtain ⟨body, hbody, _⟩ := optimizeOrder_ok calculateDistance origin destinations
    return_to_origin fuel hm _ _ hrun
  refine ⟨_, _, hrun, ⟨body, hbody⟩, ?_, ?_, ?_⟩
  · rw [List.head?_append_of_ne_nil _ hne]
    exact hinv.hhead
  · rw [htake]
    exact perm_range_of_nodup _ s.route hinv.hnodup hinv.hlt hlen
  · rw [htake]

/-- Witness for C1: the example request, with the round trip. -/
theorem optimizeOrder_order_permutation_witness :
    ∃ order total,
      orderRoute gridDistance exampleOrigin exampleDestinations true 2 = some (order, total) ∧
      (∃ body, optimizeOrder gridDistance 2
        { origin := some exampleOrigin, destinations := some exampleDestinations,
          return_to_origin := true } = some (OrderResponse.ok body)) ∧
      order.head? = some 0 ∧
      (order.take (exampleDestinations.length + 1)).Perm
        (List.range (exampleDestinations.length + 1)) ∧
      order = order.take (exampleDestinations.length + 1) ++ (if true = true then [0] else []) :=
  optimizeOrder_order_permutation gridDistance exampleOrigin exampleDestinations true 2
    (by decide) (fun _ _ _ _ => ⟨_, rfl⟩) (by decide)

/-- C2: in the optimize-order sequencer (finite distances, at least `m` passes), the
part of the order before the return leg is a greedy tour: each element after the first
is not among the earlier ones, its matrix distance from its predecessor is minimal over
all indices not among the earlier ones, and it is the lowest index attaining that
minimum.  In particular the second element is a destination whose `calculateDistance`
from the origin is smallest, the earliest such destination. -/
theorem optimizeOrder_greedy_choice (calculateDistance : ℚ → ℚ → ℚ → ℚ → Option ℚ)
    (origin : Coord) (destinations : List Coord) (return_to_origin : Bool) (fuel : Nat)
    (hm : 1 ≤ destinations.length)
    (hfin : FiniteDistances calculateDistance (origin :: destinations))
    (hfuel : destinations.length ≤ fuel) :
    ∃ order total,
      orderRoute calculateDistance origin destinations return_to_origin fuel
        = some (order, total) ∧
      GreedyTour (destinations.length + 1)
        (cellOf (buildMatrix calculateDistance (origin :: destinations)))
        (order.take (destinations.length + 1)) ∧
      ∃ y c d, order[1]? = some (y + 1) ∧ destinations[y]? = some c ∧
        calculateDistance origin.lat origin.lng c.lat c.lng = some d ∧
        (∀ c' ∈ destinations, ∀ e,
          calculateDistance origin.lat origin.lng c'.lat c'.lng = some e → d ≤ e) ∧
        (∀ i c', i < y → destinations[i]? = some c' → ∀ e,
          calculateDistance origin.lat origin.lng c'.lat c'.lng = some e → d < e) := by
  obtain ⟨s, hinv, hlen, hrun⟩ :=
    orderRoute_run calculateDistance origin destinations return_to_origin fuel hfin hfuel
  have htake : (s.route ++ (if return_to_origin then [0] else [])).take
      (destinations.length + 1) = s.route := by
    rw [← hlen]; simp
  refine ⟨_, _, hrun, ?_, ?_⟩
  · rw [htake]; exact hinv.hgreedy
  · have h0 : s.route[0]? = some 0 := by
      rw [← List.head?_eq_getElem?]; exact hinv.hhead
    have h1lt : 1 < s.route.length := by omega
    have h1 : s.route[1]? = some s.route[1] := List.getElem?_eq_getElem h1lt
    obtain ⟨hx, hxn, d, hd, hmin, htie⟩ := hinv.hgreedy 0 0 s.route[1] h0 h1
    have htk : s.route.take (0 + 1) = [0] := by
      rw [List.take_one, hinv.hhead]
      rfl
    rw [htk] at hx hmin htie
    have hx0 : s.route[1] ≠ 0 := by simpa using hx
    obtain ⟨y, hy⟩ := Nat.exists_eq_succ_of_ne_zero hx0
    rw [hy] at hxn hd htie
    have hyl : y < destinations.length := by omega
    have hcell : ∀ i (hi : i < destinations.length),
        cellOf (buildMatrix calculateDistance (origin :: destinations)) 0 (i + 1)
          = calculateDistance origin.lat origin.lng destinations[i].lat
              destinations[i].lng := by
      intro i hi
      rw [cellOf_buildMatrix calculateDistance (origin :: destinations) 0 (i + 1)
        (by simp) (by simpa using hi)]
      simp
    refine ⟨y, destinations[y], d, ?_, List.getElem?_eq_getElem hyl, ?_, ?_, ?_⟩
    · rw [List.getElem?_append_left h1lt, h1, hy]
    · rw [← hcell y hyl]; exact hd
    · intro c' hc' e he
      obtain ⟨i, hi, rfl⟩ := List.getElem_of_mem hc'
      apply hmin (i + 1) (by omega) (by simp) e
      rw [hcell i hi]; exact he
    · intro i c' hiy hc' e he
      have hi : i < destinations.length := by omega
      rw [List.getElem?_eq_getElem hi] at hc'
      have hc'' : destinations[i] = c' := Option.some.inj hc'
      apply htie (i + 1) (by omega) (by simp) e
      rw [hcell i hi, hc'']; exact he

/-- Witness for C2: origin (13.0827, 80.2707) with destinations (12.9716, 77.5946) and
(17.3850, 78.4867), on the rational stand-in for the haversine distance. -/
theorem optimizeOrder_greedy_choice_witness :
    ∃ order total,
      orderRoute gridDistance exampleOrigin exampleDestinations false 2 = some (order, total) ∧
      GreedyTour (exampleDestinations.length + 1)
        (cellOf (buildMatrix gridDistance (exampleOrigin :: exampleDestinations)))
        (order.take (exampleDestinations.length + 1)) ∧
      ∃ y c d, order[1]? = some (y + 1) ∧ exampleDestinations[y]? = some c ∧
        gridDistance exampleOrigin.lat exampleOrigin.lng c.lat c.lng = some d ∧
        (∀ c' ∈ exampleDestinations, ∀ e,
          gridDistance exampleOrigin.lat exampleOrigin.lng c'.lat c'.lng = some e → d ≤ e) ∧
        (∀ i c', i < y → exampleDestinations[i]? = some c' → ∀ e,
          gridDistance exampleOrigin.lat exampleOrigin.lng c'.lat c'.lng = some e → d < e) :=
  optimizeOrder_greedy_choice gridDistance exampleOrigin exampleDestinations false 2
    (by decide) (fun _ _ _ _ => ⟨_, rfl⟩) (by decide)

/-- C3: for an optimize-order request (finite distances, at least `m` passes) the
accumulated `totalDistance` is the sum of `matrix[order[i]][order[i + 1]]` over the
consecutive pairs of the returned order, the leg back to index `0` included when
`return_to_origin` is true, and the reported `total_distance_km` is
`Math.round(totalDistance * 10) / 10`: a multiple of one tenth within one twentieth of
that sum. -/
theorem optimizeOrder_total_distance (calculateDistance : ℚ → ℚ → ℚ → ℚ → Option ℚ)
    (origin : Coord) (destinations : List Coord) (return_to_origin : Bool) (fuel : Nat)
    (hm : 1 ≤ destinations.length)
    (hfin : FiniteDistances calculateDistance (origin :: destinations))
    (hfuel : destinations.length ≤ fuel) :
    ∃ order total body km,
      orderRoute calculateDistance origin destinations return_to_origin fuel
        = some (order, some total) ∧
      calculateRouteDistance order
        (cellOf (buildMatrix calculateDistance (origin :: destinations))) = some total ∧
      optimizeOrder calculateDistance fuel
        { origin := some origin, destinations := some destinations,
          return_to_origin := return_to_origin } = some (OrderResponse.ok body) ∧
      body.total_distance_km = some km ∧
      km = (mathRound (total * 10) : ℚ) / 10 ∧
      (∃ z : ℤ, km = (z : ℚ) / 10) ∧ |km - total| ≤ 1 / 20 := by
  obtain ⟨s, hinv, hlen, hrun⟩ :=
    orderRoute_run calculateDistance origin destinations return_to_origin fuel hfin hfuel
  have hmat := finiteMatrix_buildMatrix calculateDistance (origin :: destinations) hfin
  simp only [List.length_cons] at hmat
  have hsum : calculateRouteDistance (s.route ++ (if return_to_origin then [0] else []))
      (cellOf (buildMatrix calculateDistance (origin :: destinations)))
      = (if return_to_origin then
          jsAdd s.totalDistance
            (cellOf (buildMatrix calculateDistance (origin :: destinations)) s.current 0)
        else s.totalDistance) := by
    cases return_to_origin with
    | false => simpa using hinv.htotal.symm
    | true =>
      simp only [if_true]
      rw [calculateRouteDistance_append _ s.route s.current 0 hinv.hlast, hinv.htotal]
  obtain ⟨total, htotal⟩ := calculateRouteDistance_finite (destinations.length + 1) _ hmat
    (s.route ++ (if return_to_origin then [0] else [])) (by
      intro x hx
      rw [List.mem_append] at hx
      rcases hx with hx | hx
      · exact hinv.hlt x hx
      · cases return_to_origin <;> simp at hx
        omega)
  rw [← hsum, htotal] at hrun
  obtain ⟨body, hbody, hkm⟩ := optimizeOrder_ok calculateDistance origin destinations
    return_to_origin fuel hm _ _ hrun
  obtain ⟨q, hq, hz, habs⟩ := round1_spec total
  refine ⟨_, total, body, q, hrun, htotal, hbody, ?_, ?_, hz, habs⟩
  · rw [hkm, hq]
  · have : round1 (some total) = some ((mathRound (total * 10) : ℚ) / 10) := rfl
    rw [this] at hq
    exact (Option.some.inj hq).symm

/-- Witness for C3: the example request, one way. -/
theorem optimizeOrder_total_distance_witness :
    ∃ order total body km,
      orderRoute gridDistance exampleOrigin exampleDestinations false 2
        = some (order, some total) ∧
      calculateRouteDistance order
        (cellOf (buildMatrix gridDistance (exampleOrigin :: exampleDestinations)))
        = some total ∧
      optimizeOrder gridDistance 2
        { origin := some exampleOrigin, destinations := some exampleDestinations,
          return_to_origin := false } = some (OrderResponse.ok body) ∧
      body.total_distance_km = some km ∧
      km = (mathRound (total * 10) : ℚ) / 10 ∧
      (∃ z : ℤ, km = (z : ℚ) / 10) ∧ |km - total| ≤ 1 / 20 :=
  optimizeOrder_total_distance gridDistance exampleOrigin exampleDestinations false 2
    (by decide) (fun _ _ _ _ => ⟨_, rfl⟩) (by decide)

theorem nnLoop_done (n : Nat) (matrix : Nat → Nat → Option ℚ) (fuel : Nat) (s : NNState)
    (h : ¬ s.visited.card < n) : nnLoop n matrix fuel s = some s := by
  cases fuel <;> simp [nnLoop, h]

/-- C4 (counterexample): with no destination the handler answers with the 400 error,
not with a result; with the single destination (3, 4) from the origin (0, 0) it reports
the total distance 7, not 0. -/
theorem optimizeOrder_degenerate_counterexample :
    optimizeOrder gridDistance 1
        { origin := some ⟨0, 0⟩, destinations := some [], return_to_origin := false }
      = some (OrderResponse.badRequest "Origin and destinations are required") ∧
    optimizeOrder gridDistance 1
        { origin := some ⟨0, 0⟩, destinations := some [⟨3, 4⟩], return_to_origin := false }
      = some (OrderResponse.ok
          { optimized_route := [⟨0, 0, 0⟩, ⟨3, 4, 1⟩]
            total_distance_km := some 7
            estimated_time_hours := some (1 / 10)
            savings_percentage := some 0 }) := by
  decide!

/-- C4 (amended): with an empty or absent destination list the handler answers with
the 400 error "Origin and destinations are required"; with exactly one destination
at finite distance `d1` from the origin (and `d2` back) the order is `[0, 1]`, followed
by `0` when `return_to_origin`, the accumulated distance is `d1` (`d1 + d2` with the
return leg) and `total_distance_km` is that value rounded to one decimal. -/
theorem optimizeOrder_degenerate (calculateDistance : ℚ → ℚ → ℚ → ℚ → Option ℚ)
    (origin c : Coord) (return_to_origin : Bool) (fuel : Nat) (d1 d2 : ℚ)
    (h1 : calculateDistance origin.lat origin.lng c.lat c.lng = some d1)
    (h2 : calculateDistance c.lat c.lng origin.lat origin.lng = some d2)
    (hfuel : 1 ≤ fuel) :
    optimizeOrder calculateDistance fuel
        { origin := some origin, destinations := some [],
          return_to_origin := return_to_origin }
      = some (OrderResponse.badRequest "Origin and destinations are required") ∧
    optimizeOrder calculateDistance fuel
        { origin := some origin, destinations := none, return_to_origin := return_to_origin }
      = some (OrderResponse.badRequest "Origin and destinations are required") ∧
    orderRoute calculateDistance origin [c] return_to_origin fuel
      = some (if return_to_origin then [0, 1, 0] else [0, 1],
          some (if return_to_origin then d1 + d2 else d1)) ∧
    ∃ body, optimizeOrder calculateDistance fuel
        { origin := some origin, destinations := some [c],
          return_to_origin := return_to_origin } = some (OrderResponse.ok body) ∧
      body.total_distance_km = round1 (some (if return_to_origin then d1 + d2 else d1)) := by
  have hrun : orderRoute calculateDistance origin [c] return_to_origin fuel
      = some (if return_to_origin then [0, 1, 0] else [0, 1],
          some (if return_to_origin then d1 + d2 else d1)) := by
    obtain ⟨f, rfl⟩ : ∃ f, fuel = f + 1 := ⟨fuel - 1, by omega⟩
    have hc01 : cellOf (buildMatrix calculateDistance [origin, c]) 0 1 = some d1 := by
      rw [cellOf_buildMatrix calculateDistance [origin, c] 0 1 (by simp) (by simp)]
      simpa using h1
    have hc10 : cellOf (buildMatrix calculateDistance [origin, c]) 1 0 = some d2 := by
      rw [cellOf_buildMatrix calculateDistance [origin, c] 1 0 (by simp) (by simp)]
      simpa using h2
    have hscan : nnScan 2 (cellOf (buildMatrix calculateDistance [origin, c])) {0} 0
        = (some d1, some 1) := by
      simp [nnScan, nnScanStep, List.range_succ, hc01, jsLt]
    have hiter : nnIter 2 (cellOf (buildMatrix calculateDistance [origin, c])) nnInit
        = { visited := insert 1 {0}, route := [0, 1], current := 1,
            totalDistance := some (0 + d1) } := by
      simp only [nnIter, nnInit, hscan]
      simp [jsAdd]
    simp only [orderRoute, nearestNeighbour, List.length_cons, List.length_nil, nnLoop]
    have hcard : (nnInit.visited.card < 0 + 1 + 1) := by simp [nnInit]
    rw [if_pos hcard, hiter, nnLoop_done _ _ _ _ (by simp)]
    cases return_to_origin <;> simp [nnReturn, jsAdd, hc10]
  refine ⟨rfl, rfl, hrun, ?_⟩
  exact optimizeOrder_ok calculateDistance origin [c] return_to_origin fuel (by simp) _ _ hrun

/-- Witness for the amended C4: origin (0, 0), destination (3, 4), with the return. -/
theorem optimizeOrder_degenerate_witness :
    optimizeOrder gridDistance 1
        { origin := some ⟨0, 0⟩, destinations := some [], return_to_origin := true }
      = some (OrderResponse.badRequest "Origin and destinations are required") ∧
    optimizeOrder gridDistance 1
        { origin := some ⟨0, 0⟩, destinations := none, return_to_origin := true }
      = some (OrderResponse.badRequest "Origin and destinations are required") ∧
    orderRoute gridDistance ⟨0, 0⟩ [⟨3, 4⟩] true 1
      = some (if true = true then [0, 1, 0] else [0, 1],
          some (if true = true then 7 + 7 else 7)) ∧
    ∃ body, optimizeOrder gridDistance 1
        { origin := some ⟨0, 0⟩, destinations := some [⟨3, 4⟩],
          return_to_origin := true } = some (OrderResponse.ok body) ∧
      body.total_distance_km = round1 (some (if true = true then 7 + 7 else 7)) :=
  optimizeOrder_degenerate gridDistance ⟨0, 0⟩ ⟨3, 4⟩ true 1 7 7 (by decide!) (by decide!)
    (by decide)

theorem vrpScan_eq (fl : ℚ → ℚ) (n : Nat) (matrix : Nat → Nat → Option ℚ) (demands : List ℚ)
    (capacity : Option ℚ) (s : VehState) :
    vrpScan fl n matrix demands capacity s
      = scanUpTo (vrpOk fl demands capacity s) (matrix s.currentNode) n := by
  have : vrpScanStep fl matrix demands capacity s
      = scanStep (vrpOk fl demands capacity s) (matrix s.currentNode) := by
    funext acc j
    simp [vrpScanStep, scanStep, vrpOk, and_assoc]
  simp [vrpScan, scanUpTo, this]

theorem vrpScan_spec (fl : ℚ → ℚ) (n : Nat) (matrix : Nat → Nat → Option ℚ) (demands : List ℚ)
    (capacity : Option ℚ) (s : VehState) :
    ScanSpec (vrpOk fl demands capacity s) (matrix s.currentNode) n
      (vrpScan fl n matrix demands capacity s) := by
  rw [vrpScan_eq]
  exact scanUpTo_spec _ _ _

theorem vrpOk_iff (fl : ℚ → ℚ) (demands : List ℚ) (capacity : Option ℚ) (s : VehState) (j : Nat) :
    vrpOk fl demands capacity s j = true ↔
      j ∉ s.visited ∧ fitsCapacity fl s.currentLoad (demandOr1 demands j) capacity = true := by
  simp [vrpOk]

theorem unvisitedCount_insert (n : Nat) (visited : Finset Nat) (j : Nat) (hj : j < n)
    (hv : j ∉ visited) :
    unvisitedCount n (insert j visited) + 1 = unvisitedCount n visited := by
  unfold unvisitedCount
  have hmem : j ∈ Finset.range n \ visited := by
    simp [hj, hv]
  have : Finset.range n \ insert j visited = (Finset.range n \ visited).erase j := by
    ext x
    simp only [Finset.mem_sdiff, Finset.mem_insert, Finset.mem_erase, Finset.mem_range]
    tauto
  rw [this, Finset.card_erase_of_mem hmem]
  have : 0 < (Finset.range n \ visited).card := Finset.card_pos.mpr ⟨j, hmem⟩
  omega

theorem unvisitedCount_le (n : Nat) (visited : Finset Nat) : unvisitedCount n visited ≤ n := by
  unfold unvisitedCount
  calc (Finset.range n \ visited).card ≤ (Finset.range n).card :=
        Finset.card_le_card Finset.sdiff_subset
    _ = n := Finset.card_range n

/-- A vehicle's loop reaches `break` within `unvisitedCount + 1` passes, and every
property kept by each push holds at the end. -/
theorem vehicleLoop_run (fl : ℚ → ℚ) (n : Nat) (matrix : Nat → Nat → Option ℚ) (demands : List ℚ)
    (capacity : Option ℚ) (P : VehState → Prop)
    (hstep : ∀ s d j, P s → vrpScan fl n matrix demands capacity s = (some d, some j) →
      P (vrpPush fl demands s j))
    (fuel : Nat) (s : VehState) (hP : P s) (hfuel : unvisitedCount n s.visited < fuel) :
    ∃ s', vehicleLoop fl n matrix demands capacity fuel s = some s' ∧ P s' ∧
      vrpScan fl n matrix demands capacity s' = (none, none) := by
  induction fuel generalizing s with
  | zero => omega
  | succ fuel ih =>
    have hspec := vrpScan_spec fl n matrix demands capacity s
    rcases hscan : vrpScan fl n matrix demands capacity s with ⟨bd, bj⟩
    rw [hscan] at hspec
    cases bd with
    | none =>
      cases bj with
      | some x => simp [ScanSpec] at hspec
      | none =>
        refine ⟨s, ?_, hP, hscan⟩
        simp [vehicleLoop, hscan]
    | some d =>
      cases bj with
      | none => simp [ScanSpec] at hspec
      | some j =>
        simp only [ScanSpec] at hspec
        obtain ⟨hjn, hjok, _, _, _⟩ := hspec
        have hjv : j ∉ s.visited := ((vrpOk_iff fl demands capacity s j).mp hjok).1
        have hcount := unvisitedCount_insert n s.visited j hjn hjv
        obtain ⟨s', hs', hP', hend⟩ := ih (vrpPush fl demands s j) (hstep s d j hP hscan)
          (by simp only [vrpPush]; omega)
        refine ⟨s', ?_, hP', hend⟩
        simp only [vehicleLoop, hscan]
        exact hs'

theorem vehicleRun_run (fl : ℚ → ℚ) (input : VRPInput) (fuel : Nat) (visited : Finset Nat) (v : Nat)
    (P : VehState → Prop)
    (hstep : ∀ s d j, P s →
      vrpScan fl input.distance_matrix.length (vrpCell input.distance_matrix) input.demands
        (capacityOf input.vehicle_capacities v) s = (some d, some j) →
      P (vrpPush fl input.demands s j))
    (hP : P (vehInit input.depot visited))
    (hfuel : input.distance_matrix.length < fuel) :
    ∃ s', P s' ∧
      vrpScan fl input.distance_matrix.length (vrpCell input.distance_matrix) input.demands
        (capacityOf input.vehicle_capacities v) s' = (none, none) ∧
      vehicleRun fl input fuel visited v
        = some (s'.visited,
            { vehicle := v
              route := s'.route ++ [input.depot]
              load := s'.currentLoad
              distance := calculateRouteDistance (s'.route ++ [input.depot])
                (vrpCell input.distance_matrix) }) := by
  obtain ⟨s', hs', hP', hend⟩ := vehicleLoop_run fl input.distance_matrix.length
    (vrpCell input.distance_matrix) input.demands (capacityOf input.vehicle_capacities v) P
    hstep fuel (vehInit input.depot visited) hP
    (lt_of_le_of_lt (unvisitedCount_le _ _) hfuel)
  refine ⟨s', hP', hend, ?_⟩
  simp only [vehInit] at hs'
  simp only [vehicleRun, hs', Option.map_some']

theorem vehiclesLoop_run (fl : ℚ → ℚ) (input : VRPInput) (fuel : Nat)
    (Q : Finset Nat × List VehicleRoute → Prop) (vs : List Nat)
    (hstep : ∀ st v, v ∈ vs → Q st →
      ∃ vis r, vehicleRun fl input fuel st.1 v = some (vis, r) ∧ Q (vis, st.2 ++ [r]))
    (st : Finset Nat × List VehicleRoute) (hQ : Q st) :
    ∃ st', vehiclesLoop fl input fuel vs st = some st' ∧ Q st' ∧
      st'.2.length = st.2.length + vs.length := by
  induction vs generalizing st with
  | nil => exact ⟨st, rfl, hQ, by simp⟩
  | cons v vs ih =>
    obtain ⟨vis, r, hrun, hQ'⟩ := hstep st v (List.mem_cons_self v vs) hQ
    obtain ⟨st', hst', hQ'', hlen⟩ :=
      ih (fun st w hw => hstep st w (List.mem_cons_of_mem v hw)) (vis, st.2 ++ [r]) hQ'
    refine ⟨st', ?_, hQ'', ?_⟩
    · simp only [vehiclesLoop, hrun]
      exact hst'
    · rw [hlen]; simp; omega

theorem vehInv_init (n depot : Nat) (visited : Finset Nat) :
    VehInv n depot visited (vehInit depot visited) := by
  refine ⟨?_, ?_, ?_, ?_⟩ <;> simp [vehInit]

theorem vehInv_push (fl : ℚ → ℚ) (n depot : Nat) (visited0 : Finset Nat) (demands : List ℚ)
    (s : VehState) (j : Nat) (hinv : VehInv n depot visited0 s) (hjn : j < n)
    (hjv : j ∉ s.visited) : VehInv n depot visited0 (vrpPush fl demands s j) := by
  have hne : s.route ≠ [] := by
    intro h; have := hinv.hhead; rw [h] at this; simp at this
  have htail : (s.route ++ [j]).tail = s.route.tail ++ [j] := by
    cases hr : s.route with
    | nil => exact absurd hr hne
    | cons a t => simp
  have hj0 : j ∉ visited0 := by
    intro h; apply hjv; rw [hinv.hvis]; exact Finset.mem_union_left _ h
  have hjt : j ∉ s.route.tail := by
    intro h; apply hjv; rw [hinv.hvis]
    exact Finset.mem_union_right _ (List.mem_toFinset.mpr h)
  refine ⟨?_, ?_, ?_, ?_⟩
  · simp only [vrpPush]
    rw [List.head?_append_of_ne_nil _ hne]
    exact hinv.hhead
  · simp only [vrpPush, htail, List.nodup_append]
    refine ⟨hinv.hnodup, List.nodup_singleton j, ?_⟩
    intro a ha hb
    simp only [List.mem_singleton] at hb
    subst hb
    exact hjt ha
  · intro x hx
    simp only [vrpPush, htail, List.mem_append, List.mem_singleton] at hx
    rcases hx with hx | hx
    · exact hinv.hnew x hx
    · rw [hx]; exact ⟨hj0, hjn⟩
  · simp only [vrpPush, htail]
    rw [hinv.hvis]
    ext y
    simp
    tauto

theorem vehInv_step (fl : ℚ → ℚ) (n depot : Nat) (visited0 : Finset Nat) (matrix : Nat → Nat → Option ℚ)
    (demands : List ℚ) (capacity : Option ℚ) (s : VehState) (d : ℚ) (j : Nat)
    (hinv : VehInv n depot visited0 s)
    (hscan : vrpScan fl n matrix demands capacity s = (some d, some j)) :
    VehInv n depot visited0 (vrpPush fl demands s j) := by
  have hspec := vrpScan_spec fl n matrix demands capacity s
  rw [hscan] at hspec
  simp only [ScanSpec] at hspec
  exact vehInv_push fl n depot visited0 demands s j hinv hspec.1
    ((vrpOk_iff fl demands capacity s j).mp hspec.2.1).1

theorem count_route_closed (depot j : Nat) (route : List Nat) (hj : j ≠ depot)
    (hhead : route.head? = some depot) (hnodup : route.tail.Nodup) :
    (route ++ [depot]).count j = if j ∈ route.tail then 1 else 0 := by
  cases route with
  | nil => simp at hhead
  | cons a t =>
    have ha : a = depot := by simpa using hhead
    subst ha
    simp only [List.tail_cons] at hnodup ⊢
    rw [List.count_append, List.count_cons, List.count_singleton]
    have h1 : (a == j) = false := by simpa using fun h : a = j => hj h.symm
    simp only [h1]
    by_cases hm : j ∈ t
    · simp [hm, List.count_eq_one_of_mem hnodup hm]
    · simp [hm, List.count_eq_zero_of_not_mem hm]

theorem fleetInv_step (input : VRPInput) (st : Finset Nat × List VehicleRoute)
    (s' : VehState) (r : VehicleRoute) (hr : r.route = s'.route ++ [input.depot])
    (hQ : FleetInv input.depot st)
    (hinv : VehInv input.distance_matrix.length input.depot st.1 s') :
    FleetInv input.depot (s'.visited, st.2 ++ [r]) := by
  have hsub : ∀ x, x ∈ st.1 → x ∈ s'.visited := by
    intro x hx; rw [hinv.hvis]; exact Finset.mem_union_left _ hx
  have hroute : ∀ x ∈ r.route, x = input.depot ∨ x ∈ s'.route.tail := by
    intro x hx
    rw [hr, List.mem_append, List.mem_singleton] at hx
    rcases hx with hx | hx
    · cases hs : s'.route with
      | nil => rw [hs] at hx; simp at hx
      | cons a t =>
        have ha : a = input.depot := by
          have := hinv.hhead; rw [hs] at this; simpa using this
        rw [hs] at hx
        simp only [List.mem_cons] at hx
        rcases hx with hx | hx
        · left; rw [hx, ha]
        · right; simpa using hx
    · left; exact hx
  refine ⟨hsub _ hQ.hdepot, ?_, ?_, ?_⟩
  · intro q hq x hx
    simp only [List.mem_append, List.mem_singleton] at hq
    rcases hq with hq | hq
    · exact hsub x (hQ.hmem q hq x hx)
    · rw [hq] at hx
      rcases hroute x hx with h | h
      · rw [h]; exact hsub _ hQ.hdepot
      · rw [hinv.hvis]
        exact Finset.mem_union_right _ (List.mem_toFinset.mpr h)
  · intro j hj
    simp only [List.map_append, List.sum_append, List.map_cons, List.map_nil, List.sum_cons,
      List.sum_nil, add_zero]
    rw [hQ.hcount j hj, hr, count_route_closed input.depot j s'.route hj hinv.hhead
      hinv.hnodup]
    by_cases h0 : j ∈ st.1
    · have h1 : j ∉ s'.route.tail := fun h => (hinv.hnew j h).1 h0
      simp [h0, h1, hsub j h0]
    · by_cases h1 : j ∈ s'.route.tail
      · have : j ∈ s'.visited := by
          rw [hinv.hvis]; exact Finset.mem_union_right _ (List.mem_toFinset.mpr h1)
        simp [h0, h1, this]
      · have : j ∉ s'.visited := by
          rw [hinv.hvis]
          simp [h0, h1]
        simp [h0, h1, this]
  · simp only []
    rw [List.pairwise_append]
    refine ⟨hQ.hpair, List.pairwise_singleton _ _, ?_⟩
    intro a ha b hb j hj hja hjb
    simp only [List.mem_singleton] at hb
    rw [hb] at hjb
    rcases hroute j hjb with h | h
    · exact hj h
    · exact (hinv.hnew j h).1 (hQ.hmem a ha j hja)

theorem solveVRPGreedy_of_loop (fl : ℚ → ℚ) (input : VRPInput) (fuel : Nat)
    (st : Finset Nat × List VehicleRoute)
    (h : vehiclesLoop fl input fuel (List.range input.num_vehicles) ({input.depot}, []) = some st) :
    solveVRPGreedy fl fuel input
      = some { routes := st.2
               total_distance :=
                round1 (st.2.foldl (fun sum r => jsAdd sum r.distance) (some 0))
               solver := "greedy_fallback"
               unvisited :=
                (List.range input.distance_matrix.length).filter fun i =>
                  decide (i ∉ st.1 ∧ i ≠ input.depot) } := by
  simp only [solveVRPGreedy, h, Option.map_some']

/-- C6: for every input with `depot < n` (and fuel above `n`), `solveVRPGreedy` returns a
result in which every non-depot index below `n` either occurs exactly once in the
routes taken together and not in `unvisited`, or occurs in no route and is in
`unvisited`; and a non-depot stop of a route occurs in no later route.
This holds whatever the rounding `fl` of the additions of loads is, in particular for
the rounding to doubles. -/
theorem solveVRPGreedy_partition (fl : ℚ → ℚ) (input : VRPInput) (fuel : Nat)
    (hdepot : input.depot < input.distance_matrix.length)
    (hfuel : input.distance_matrix.length < fuel) :
    ∃ result, solveVRPGreedy fl fuel input = some result ∧
      (∀ j, j < input.distance_matrix.length → j ≠ input.depot →
        ((result.routes.map fun r => r.route.count j).sum = 1 ∧ j ∉ result.unvisited) ∨
        ((result.routes.map fun r => r.route.count j).sum = 0 ∧ j ∈ result.unvisited)) ∧
      result.routes.Pairwise (fun earlier later =>
        ∀ j, j ≠ input.depot → j ∈ earlier.route → j ∉ later.route) := by
  have h0 : FleetInv input.depot ({input.depot}, []) := by
    refine ⟨by simp, by simp, ?_, by simp⟩
    intro j hj
    simp [hj]
  obtain ⟨st', hst', hQ, _⟩ := vehiclesLoop_run fl input fuel (FleetInv input.depot)
    (List.range input.num_vehicles) (by
      intro st v _ hQ
      obtain ⟨s', hinv, _, hrun⟩ := vehicleRun_run fl input fuel st.1 v
        (VehInv input.distance_matrix.length input.depot st.1)
        (fun s d j hs hscan => vehInv_step fl _ _ _ _ _ _ s d j hs hscan)
        (vehInv_init _ _ _) hfuel
      exact ⟨_, _, hrun, fleetInv_step input st s' _ rfl hQ hinv⟩) _ h0
  refine ⟨_, solveVRPGreedy_of_loop fl input fuel st' hst', ?_, hQ.hpair⟩
  intro j hjn hj
  have hc := hQ.hcount j hj
  by_cases hv : j ∈ st'.1
  · left
    rw [if_pos hv] at hc
    refine ⟨hc, ?_⟩
    simp [hv]
  · right
    rw [if_neg hv] at hc
    refine ⟨hc, ?_⟩
    simp [hv, hj, hjn]

theorem capacityOf_mem (vehicle_capacities : List ℚ) (v : Nat) (c : ℚ)
    (h : capacityOf vehicle_capacities v = some c) : c ∈ vehicle_capacities := by
  unfold capacityOf at h
  cases hv : vehicle_capacities[v]? with
  | none =>
    rw [hv] at h
    exact List.getElem?_mem h
  | some c' =>
    rw [hv] at h
    by_cases hc : c' = 0
    · simp only [hc, if_true] at h
      exact List.getElem?_mem h
    · simp only [hc, if_false] at h
      rw [← Option.some.inj h]
      exact List.getElem?_mem hv

theorem demandOr1_nonneg (demands : List ℚ) (hnonneg : ∀ d ∈ demands, 0 ≤ d) (j : Nat) :
    0 ≤ demandOr1 demands j := by
  unfold demandOr1
  cases hj : demands[j]? with
  | none => simp
  | some d =>
    by_cases hd : d = 0
    · simp [hd]
    · simp only [hd, if_false]
      exact hnonneg d (List.getElem?_mem hj)

theorem demandOr1_ge (demands : List ℚ) (j : Nat) (d : ℚ) (hj : demands[j]? = some d) :
    d ≤ demandOr1 demands j := by
  unfold demandOr1
  rw [hj]
  by_cases h : d = 0
  · simp [h]
  · simp [h]

theorem fitsCapacity_iff (fl : ℚ → ℚ) (currentLoad d : ℚ) (capacity : Option ℚ) :
    fitsCapacity fl currentLoad d capacity = true ↔
      ∃ c, capacity = some c ∧ fl (currentLoad + d) ≤ c := by
  cases capacity with
  | none => simp [fitsCapacity]
  | some c => simp [fitsCapacity]

/-- C7 (amended): for every input with `depot < n` and non-negative demands, a non-depot
stop `s` whose demand is strictly greater than every vehicle capacity appears in no
route of the result and appears in `unvisited`.  The additions of loads are rounded by
any monotone `fl` that keeps `0` and the demand of `s`, as the rounding to doubles
does. -/
theorem solveVRPGreedy_oversized_unassigned (fl : ℚ → ℚ) (input : VRPInput) (fuel : Nat)
    (s : Nat) (d : ℚ) (hmono : Monotone fl) (hfl0 : fl 0 = 0) (hfld : fl d = d)
    (hdepot : input.depot < input.distance_matrix.length)
    (hnonneg : ∀ x ∈ input.demands, 0 ≤ x)
    (hs : s < input.distance_matrix.length) (hsd : s ≠ input.depot)
    (hdem : input.demands[s]? = some d)
    (hcap : ∀ c ∈ input.vehicle_capacities, c < d)
    (hfuel : input.distance_matrix.length < fuel) :
    ∃ result, solveVRPGreedy fl fuel input = some result ∧
      (∀ r ∈ result.routes, s ∉ r.route) ∧ s ∈ result.unvisited := by
  have h0 : FleetInv input.depot ({input.depot}, []) ∧
      s ∉ (({input.depot}, []) : Finset Nat × List VehicleRoute).1 := by
    refine ⟨⟨by simp, by simp, ?_, by simp⟩, by simpa using hsd⟩
    intro j hj
    simp [hj]
  obtain ⟨st', hst', ⟨hQ, hsv⟩, _⟩ := vehiclesLoop_run fl input fuel
    (fun st => FleetInv input.depot st ∧ s ∉ st.1)
    (List.range input.num_vehicles) (by
      intro st v _ hQ
      obtain ⟨s', hinv, _, hrun⟩ := vehicleRun_run fl input fuel st.1 v
        (fun t => VehInv input.distance_matrix.length input.depot st.1 t ∧
          0 ≤ t.currentLoad ∧ s ∉ t.visited)
        (by
          intro t e j ht hscan
          refine ⟨vehInv_step fl _ _ _ _ _ _ t e j ht.1 hscan, ?_, ?_⟩
          · simp only [vrpPush]
            rw [← hfl0]
            exact hmono (add_nonneg ht.2.1 (demandOr1_nonneg input.demands hnonneg j))
          · have hspec := vrpScan_spec fl input.distance_matrix.length
              (vrpCell input.distance_matrix) input.demands
              (capacityOf input.vehicle_capacities v) t
            rw [hscan] at hspec
            simp only [ScanSpec] at hspec
            have hok := (vrpOk_iff fl _ _ t j).mp hspec.2.1
            obtain ⟨c, hc, hle⟩ := (fitsCapacity_iff fl _ _ _).mp hok.2
            have hcd := hcap c (capacityOf_mem _ _ _ hc)
            simp only [vrpPush, Finset.mem_insert, not_or]
            refine ⟨?_, ht.2.2⟩
            intro hsj
            rw [← hsj] at hle
            have := demandOr1_ge input.demands s d hdem
            have hge : fl d ≤ fl (t.currentLoad + demandOr1 input.demands s) :=
              hmono (by linarith [ht.2.1])
            rw [hfld] at hge
            linarith)
        ⟨vehInv_init _ _ _, by simp [vehInit], by simpa [vehInit] using hQ.2⟩ hfuel
      exact ⟨_, _, hrun, fleetInv_step input st s' _ rfl hQ.1 hinv.1, hinv.2.2⟩) _ h0
  refine ⟨_, solveVRPGreedy_of_loop fl input fuel st' hst', ?_, ?_⟩
  · intro r hr hsr
    exact hsv (hQ.hmem r hr s hsr)
  · simp [hsv, hsd, hs]

theorem le_floor_toNat_iff (C d : ℚ) (hC : 0 < C) (hd : 0 < d) (t : Nat) :
    (t : ℚ) * d ≤ C ↔ t ≤ ⌊C / d⌋.toNat := by
  have h0 : (0 : ℤ) ≤ ⌊C / d⌋ := Int.floor_nonneg.mpr (le_of_lt (div_pos hC hd))
  rw [← le_div_iff₀ hd]
  have : (t : ℚ) = ((t : ℤ) : ℚ) := by simp
  rw [this, ← Int.le_floor]
  omega

theorem unvisited_length (n depot : Nat) (visited : Finset Nat) (hd : depot ∈ visited) :
    ((List.range n).filter fun i => decide (i ∉ visited ∧ i ≠ depot)).length
      = unvisitedCount n visited := by
  unfold unvisitedCount
  rw [← List.toFinset_card_of_nodup ((List.nodup_range n).filter _)]
  congr 1
  ext x
  simp only [List.mem_toFinset, List.mem_filter, List.mem_range, decide_eq_true_eq,
    Finset.mem_sdiff, Finset.mem_range]
  constructor
  · rintro ⟨h1, h2, _⟩; exact ⟨h1, h2⟩
  · rintro ⟨h1, h2⟩
    exact ⟨h1, h2, fun h => h2 (h ▸ hd)⟩

theorem unvisitedCount_singleton (n depot : Nat) (hd : depot < n) :
    unvisitedCount n {depot} = n - 1 := by
  unfold unvisitedCount
  rw [Finset.card_sdiff (by simpa using hd)]
  simp

theorem unvisitedCount_eq_zero (n : Nat) (visited : Finset Nat)
    (h : ∀ j, j < n → j ∈ visited) : unvisitedCount n visited = 0 := by
  unfold unvisitedCount
  rw [Finset.card_eq_zero, Finset.sdiff_eq_empty_iff_subset]
  intro x hx
  exact h x (Finset.mem_range.mp hx)

theorem demandOr1_uniform (n depot : Nat) (demands : List ℚ) (d : ℚ) (hd : 0 < d)
    (hdem : ∀ j, j < n → j ≠ depot → demands[j]? = some d) (j : Nat) (hj : j < n)
    (hjd : j ≠ depot) : demandOr1 demands j = d := by
  unfold demandOr1
  rw [hdem j hj hjd]
  simp [ne_of_gt hd]

theorem uniformInv_step (fl : ℚ → ℚ) (n depot : Nat) (matrix : Nat → Nat → Option ℚ)
    (demands : List ℚ) (C d : ℚ) (hC : 0 < C) (hd : 0 < d) (u0 : Nat)
    (hexact : ∀ t : ℕ, t ≤ ⌊C / d⌋.toNat → fl ((t : ℚ) * d + d) = (t : ℚ) * d + d)
    (hdem : ∀ j, j < n → j ≠ depot → demands[j]? = some d)
    (s : VehState) (e : ℚ) (j : Nat)
    (hinv : ∃ t, UniformInv n depot d ⌊C / d⌋.toNat u0 t s)
    (hscan : vrpScan fl n matrix demands (some C) s = (some e, some j)) :
    ∃ t, UniformInv n depot d ⌊C / d⌋.toNat u0 t (vrpPush fl demands s j) := by
  obtain ⟨t, ht⟩ := hinv
  have hspec := vrpScan_spec fl n matrix demands (some C) s
  rw [hscan] at hspec
  simp only [ScanSpec] at hspec
  obtain ⟨hjn, hjok, _, _, _⟩ := hspec
  obtain ⟨hjv, hfit⟩ := (vrpOk_iff fl demands (some C) s j).mp hjok
  have hjd : j ≠ depot := fun h => hjv (h ▸ ht.hdepot)
  have hdj := demandOr1_uniform n depot demands d hd hdem j hjn hjd
  rw [hdj, ht.hload] at hfit
  have hle : ((t + 1 : ℕ) : ℚ) * d ≤ C := by
    have : fl ((t : ℚ) * d + d) ≤ C := by simpa [fitsCapacity] using hfit
    rw [hexact t ht.hq] at this
    push_cast
    linarith
  refine ⟨t + 1, ?_, ?_, ?_, ?_, ?_⟩
  · simp only [vrpPush]
    exact Finset.mem_insert_of_mem ht.hdepot
  · simpa [vrpPush] using hjn
  · simp only [vrpPush]
    rw [hdj, ht.hload, hexact t ht.hq]
    push_cast
    ring
  · exact (le_floor_toNat_iff C d hC hd (t + 1)).mp hle
  · have h1 := unvisitedCount_insert n s.visited j hjn hjv
    have h2 := ht.hcount
    simp only [vrpPush]
    omega

theorem uniformInv_end (fl : ℚ → ℚ) (n depot : Nat) (matrix : Nat → Nat → Option ℚ)
    (demands : List ℚ) (C d : ℚ) (hC : 0 < C) (hd : 0 < d) (u0 : Nat)
    (hexact : ∀ t : ℕ, t ≤ ⌊C / d⌋.toNat → fl ((t : ℚ) * d + d) = (t : ℚ) * d + d)
    (hdem : ∀ j, j < n → j ≠ depot → demands[j]? = some d)
    (hfin : FiniteMatrix n matrix) (s : VehState)
    (hinv : ∃ t, UniformInv n depot d ⌊C / d⌋.toNat u0 t s)
    (hend : vrpScan fl n matrix demands (some C) s = (none, none)) :
    unvisitedCount n s.visited = u0 - ⌊C / d⌋.toNat := by
  obtain ⟨t, ht⟩ := hinv
  have hspec := vrpScan_spec fl n matrix demands (some C) s
  rw [hend] at hspec
  simp only [ScanSpec] at hspec
  by_cases hall : ∀ j, j < n → j ∈ s.visited
  · have h0 := unvisitedCount_eq_zero n s.visited hall
    have h1 := ht.hcount
    have h2 := ht.hq
    omega
  · push_neg at hall
    obtain ⟨j, hjn, hjv⟩ := hall
    have hjd : j ≠ depot := fun h => hjv (h ▸ ht.hdepot)
    have hdj := demandOr1_uniform n depot demands d hd hdem j hjn hjd
    obtain ⟨e, he⟩ := hfin s.currentNode j ht.hcur hjn
    have hnot : ¬ vrpOk fl demands (some C) s j = true := by
      intro hok
      have := hspec j hjn hok
      rw [he] at this
      cases this
    have hnfit : ¬ ((t + 1 : ℕ) : ℚ) * d ≤ C := by
      intro hle
      apply hnot
      rw [vrpOk_iff]
      refine ⟨hjv, ?_⟩
      rw [hdj, ht.hload]
      simp only [fitsCapacity, decide_eq_true_eq]
      rw [hexact t ht.hq]
      push_cast at hle
      linarith
    rw [le_floor_toNat_iff C d hC hd (t + 1)] at hnfit
    have h1 := ht.hcount
    have h2 := ht.hq
    omega

theorem capacityOf_replicate (k : Nat) (C : ℚ) (hC : 0 < C) (v : Nat) (hv : v < k) :
    capacityOf (List.replicate k C) v = some C := by
  unfold capacityOf
  have : (List.replicate k C)[v]? = some C := by
    rw [List.getElem?_replicate]
    simp [hv]
  rw [this]
  simp [ne_of_gt hC]

theorem finiteMatrix_of_isSome (distance_matrix : List (List (Option ℚ)))
    (h : ∀ i, i < distance_matrix.length → ∀ j, j < distance_matrix.length →
      (vrpCell distance_matrix i j).isSome = true) :
    FiniteMatrix distance_matrix.length (vrpCell distance_matrix) := by
  intro i j hi hj
  exact Option.isSome_iff_exists.mp (h i hi j hj)

/-- C9 (amended): with `k` vehicles each of capacity `C > 0` and `m` non-depot stops each
of demand `d > 0` such that the loads `d, 2 d, .., (floor(C / d) + 1) d` are added without
rounding error (`fl (t d + d) = t d + d` for `t ≤ floor(C / d)`, as for integers below
2^53), over a matrix whose `n × n` cells are finite distances, the number of stops in
`unvisited` is exactly `max(0, m - k * floor(C / d))`. -/
theorem solveVRPGreedy_uniform_unvisited (fl : ℚ → ℚ) (input : VRPInput) (fuel k m : Nat)
    (C d : ℚ) (hC : 0 < C) (hd : 0 < d)
    (hexact : ∀ t : ℕ, t ≤ ⌊C / d⌋.toNat → fl ((t : ℚ) * d + d) = (t : ℚ) * d + d)
    (hn : input.distance_matrix.length = m + 1)
    (hfin : FiniteMatrix input.distance_matrix.length (vrpCell input.distance_matrix))
    (hdepot : input.depot < input.distance_matrix.length)
    (hcaps : input.vehicle_capacities = List.replicate k C)
    (hnum : input.num_vehicles = k)
    (hdem : ∀ j, j < input.distance_matrix.length → j ≠ input.depot →
      input.demands[j]? = some d)
    (hfuel : input.distance_matrix.length < fuel) :
    ∃ result, solveVRPGreedy fl fuel input = some result ∧
      (result.unvisited.length : ℤ) = max 0 ((m : ℤ) - (k : ℤ) * ⌊C / d⌋) := by
  obtain ⟨st', hst', ⟨hQd, hQc⟩, hlen⟩ := vehiclesLoop_run fl input fuel
    (fun st => input.depot ∈ st.1 ∧
      unvisitedCount input.distance_matrix.length st.1 = m - st.2.length * ⌊C / d⌋.toNat)
    (List.range input.num_vehicles) (by
      intro st v hv hQ
      have hvk : v < k := by
        rw [hnum] at hv; exact List.mem_range.mp hv
      have hcap : capacityOf input.vehicle_capacities v = some C := by
        rw [hcaps]; exact capacityOf_replicate k C hC v hvk
      obtain ⟨s', hinv, hend, hrun⟩ := vehicleRun_run fl input fuel st.1 v
        (fun s => ∃ t, UniformInv input.distance_matrix.length input.depot d ⌊C / d⌋.toNat
          (unvisitedCount input.distance_matrix.length st.1) t s)
        (by
          intro s e j hs hscan
          rw [hcap] at hscan
          exact uniformInv_step fl _ _ _ _ C d hC hd _ hexact hdem s e j hs hscan)
        ⟨0, by simpa [vehInit] using hQ.1, by simpa [vehInit] using hdepot,
          by simp [vehInit], Nat.zero_le _, by simp [vehInit]⟩ hfuel
      rw [hcap] at hend
      have hu := uniformInv_end fl _ _ _ _ C d hC hd _ hexact hdem hfin s' hinv hend
      obtain ⟨t, ht⟩ := hinv
      refine ⟨_, _, hrun, ht.hdepot, ?_⟩
      simp only [List.length_append, List.length_singleton]
      rw [hu, hQ.2, Nat.sub_sub, Nat.add_mul, Nat.one_mul]) ({input.depot}, [])
    ⟨by simp, by
      simp only [List.length_nil, Nat.zero_mul, Nat.sub_zero]
      rw [unvisitedCount_singleton _ _ hdepot, hn]
      simp⟩
  refine ⟨_, solveVRPGreedy_of_loop fl input fuel st' hst', ?_⟩
  have hk : st'.2.length = k := by simpa [hnum] using hlen
  have h0 : (0 : ℤ) ≤ ⌊C / d⌋ := Int.floor_nonneg.mpr (le_of_lt (div_pos hC hd))
  obtain ⟨q, hq⟩ : ∃ q : ℕ, ⌊C / d⌋ = (q : ℤ) :=
    ⟨⌊C / d⌋.toNat, (Int.toNat_of_nonneg h0).symm⟩
  have hlenu := unvisited_length input.distance_matrix.length input.depot st'.1 hQd
  rw [hQc, hk, hq, Int.toNat_ofNat] at hlenu
  simp only []
  rw [hlenu, hq]
  have hprod : (k : ℤ) * (q : ℤ) = ((k * q : ℕ) : ℤ) := by push_cast; ring
  rw [hprod]
  generalize k * q = p
  omega

/-- C5 (the code at the failing input): with capacities `[5, 0]` the second vehicle,
whose own capacity is `0`, is given the capacity of vehicle 0 by
`vehicle_capacities[v] || vehicle_capacities[0]` and carries the load 5. -/
theorem solveVRPGreedy_zero_capacity_overload :
    zeroCapacityInput.vehicle_capacities[1]? = some 0 ∧
    solveVRPGreedy roundDouble 4 zeroCapacityInput
      = some { routes := [{ vehicle := 0, route := [0, 1, 0], load := 5, distance := some 2 },
                          { vehicle := 1, route := [0, 2, 0], load := 5, distance := some 4 }]
               total_distance := some 6
               solver := "greedy_fallback"
               unvisited := [] } := by
  decide!

/-- Witness for C6: the fleet example. -/
theorem solveVRPGreedy_partition_witness :
    ∃ result, solveVRPGreedy roundDouble 7 fleetInput = some result ∧
      (∀ j, j < fleetInput.distance_matrix.length → j ≠ fleetInput.depot →
        ((result.routes.map fun r => r.route.count j).sum = 1 ∧ j ∉ result.unvisited) ∨
        ((result.routes.map fun r => r.route.count j).sum = 0 ∧ j ∈ result.unvisited)) ∧
      result.routes.Pairwise (fun earlier later =>
        ∀ j, j ≠ fleetInput.depot → j ∈ earlier.route → j ∉ later.route) :=
  solveVRPGreedy_partition roundDouble fleetInput 7 (by decide!) (by decide!)

/-- C7 (counterexample): stop 2 has the demand 5, greater than the only capacity 3, yet
it is in the route, because stop 1 with the demand -10 is taken first and the test
`currentLoad + demand <= capacity` reads `-10 + 5 <= 3`. -/
theorem solveVRPGreedy_oversized_counterexample :
    pickupInput.demands[2]? = some 5 ∧ (∀ c ∈ pickupInput.vehicle_capacities, c < 5) ∧
    solveVRPGreedy roundDouble 4 pickupInput
      = some { routes := [{ vehicle := 0, route := [0, 1, 2, 0], load := -5,
                            distance := some 4 }]
               total_distance := some 4
               solver := "greedy_fallback"
               unvisited := [] } := by
  decide!

/-- Witness for the amended C7: stop 1 of demand 10 with the only capacity 5. -/
theorem solveVRPGreedy_oversized_unassigned_witness :
    ∃ result, solveVRPGreedy roundDouble 4 oversizedInput = some result ∧
      (∀ r ∈ result.routes, 1 ∉ r.route) ∧ 1 ∈ result.unvisited :=
  solveVRPGreedy_oversized_unassigned roundDouble oversizedInput 4 1 10 roundDouble_mono
    roundDouble_zero (by decide!) (by decide!) (by decide!) (by decide!) (by decide!)
    (by decide!) (by decide!) (by decide!)

/-- C8 (the code at the failing input): every demand is `0`, yet each stop is counted
as `demands[j] || 1 = 1`, so the vehicle of capacity 1 takes one stop and stop 2 is
left in `unvisited`. -/
theorem solveVRPGreedy_zero_demand_unassigned :
    solveVRPGreedy roundDouble 4 zeroDemandInput
      = some { routes := [{ vehicle := 0, route := [0, 1, 0], load := 1, distance := some 2 }]
               total_distance := some 2
               solver := "greedy_fallback"
               unvisited := [2] } := by
  decide!

/-- C9 (counterexample): one vehicle of capacity 1.6 and 16 stops of demand 0.1 (the
doubles of these literals, `1.6 = 16 * 0.1` exactly, so `floor(C / d) = 16` and the
formula gives `max(0, 16 - 1 * 16) = 0`).  The load after 15 stops is the double
1.5000000000000002, `1.5000000000000002 + 0.1 <= 1.6` is false, and stop 16 is left in
`unvisited`. -/
theorem solveVRPGreedy_uniform_counterexample :
    tenthsInput.demands = 0 :: List.replicate 16 ((3602879701896397 : ℚ) / 36028797018963968) ∧
    tenthsInput.vehicle_capacities = [(3602879701896397 : ℚ) / 2251799813685248] ∧
    max 0 ((16 : ℤ) - (1 : ℤ) *
      ⌊((3602879701896397 : ℚ) / 2251799813685248) / (3602879701896397 / 36028797018963968)⌋) = 0 ∧
    solveVRPGreedy roundDouble 18 tenthsInput
      = some { routes := [{ vehicle := 0
                            route := [0, 1, 2, 3, 4, 5, 6, 7, 8, 9, 10, 11, 12, 13, 14, 15, 0]
                            load := (6755399441055745 : ℚ) / 4503599627370496
                            distance := some 30 }]
               total_distance := some 30
               solver := "greedy_fallback"
               unvisited := [16] } := by
  decide!

/-- Witness for the amended C9: capacities `[1000, 1000]` and five stops of demand 400
leave exactly one stop unassigned. -/
theorem solveVRPGreedy_uniform_unvisited_witness :
    (∃ result, solveVRPGreedy roundDouble 7 fleetInput = some result ∧
      (result.unvisited.length : ℤ) = max 0 ((5 : ℤ) - (2 : ℤ) * ⌊(1000 : ℚ) / 400⌋)) ∧
    max 0 ((5 : ℤ) - (2 : ℤ) * ⌊(1000 : ℚ) / 400⌋) = 1 :=
  ⟨solveVRPGreedy_uniform_unvisited roundDouble fleetInput 7 2 5 1000 400 (by decide!)
    (by decide!) (by decide!) (by decide!) (finiteMatrix_of_isSome _ (by decide!))
    (by decide!) (by decide!) (by decide!) (by decide!) (by decide!), by decide!⟩

theorem vehicleLoop_greedy (fl : ℚ → ℚ) (n depot : Nat) (matrix : Nat → Nat → Option ℚ) (demands : List ℚ)
    (dem : Nat → ℚ) (c : ℚ)
    (hdem : ∀ j, j < n → j ≠ depot → demandOr1 demands j = dem j)
    (hfin : FiniteMatrix n matrix) (fuel : Nat) (s : VehState)
    (hdepot : depot ∈ s.visited) (hcur : s.currentNode < n)
    (hfuel : unvisitedCount n s.visited < fuel) :
    ∃ stops s', vehicleLoop fl n matrix demands (some c) fuel s = some s' ∧
      s'.visited = s.visited ∪ stops.toFinset ∧ s'.route = s.route ++ stops ∧
      GreedyStops fl n matrix dem c s.visited s.currentNode s.currentLoad stops := by
  induction fuel generalizing s with
  | zero => omega
  | succ fuel ih =>
    have hspec := vrpScan_spec fl n matrix demands (some c) s
    have hfit : ∀ i, i < n → i ∉ s.visited →
        (vrpOk fl demands (some c) s i = true ↔ fl (s.currentLoad + dem i) ≤ c) := by
      intro i hi hiv
      have hid : i ≠ depot := fun h => hiv (h ▸ hdepot)
      rw [vrpOk_iff, hdem i hi hid]
      simp [fitsCapacity, hiv]
    rcases hscan : vrpScan fl n matrix demands (some c) s with ⟨bd, bj⟩
    rw [hscan] at hspec
    cases bd with
    | none =>
      cases bj with
      | some x => simp [ScanSpec] at hspec
      | none =>
        simp only [ScanSpec] at hspec
        refine ⟨[], s, ?_, by simp, by simp, ?_⟩
        · simp [vehicleLoop, hscan]
        · intro i hi hiv hle
          obtain ⟨e, he⟩ := hfin s.currentNode i hcur hi
          have := hspec i hi ((hfit i hi hiv).mpr hle)
          rw [he] at this
          cases this
    | some d =>
      cases bj with
      | none => simp [ScanSpec] at hspec
      | some j =>
        simp only [ScanSpec] at hspec
        obtain ⟨hjn, hjok, hjd, hmin, _⟩ := hspec
        have hjv : j ∉ s.visited := ((vrpOk_iff fl demands (some c) s j).mp hjok).1
        have hjdep : j ≠ depot := fun h => hjv (h ▸ hdepot)
        have hcount := unvisitedCount_insert n s.visited j hjn hjv
        obtain ⟨stops, s', hs', hvis, hroute, hgreedy⟩ := ih (vrpPush fl demands s j)
          (by simp only [vrpPush]; exact Finset.mem_insert_of_mem hdepot)
          (by simpa [vrpPush] using hjn)
          (by simp only [vrpPush]; omega)
        refine ⟨j :: stops, s', ?_, ?_, ?_, ?_⟩
        · simp only [vehicleLoop, hscan]
          exact hs'
        · rw [hvis]
          simp only [vrpPush]
          ext y
          simp only [Finset.mem_union, Finset.mem_insert, List.toFinset_cons]
          tauto
        · rw [hroute]
          simp [vrpPush]
        · refine ⟨hjn, hjv, (hfit j hjn hjv).mp hjok, ⟨d, hjd, ?_⟩, ?_⟩
          · intro i hi hiv hle di hdi
            exact hmin i hi ((hfit i hi hiv).mpr hle) di hdi
          · simpa [vrpPush, hdem j hjn hjdep] using hgreedy

theorem vehiclesLoop_greedy (fl : ℚ → ℚ) (input : VRPInput) (fuel : Nat) (dem : Nat → ℚ) (cap : Nat → ℚ)
    (hdem : ∀ j, j < input.distance_matrix.length → j ≠ input.depot →
      demandOr1 input.demands j = dem j)
    (hfin : FiniteMatrix input.distance_matrix.length (vrpCell input.distance_matrix))
    (hdepot : input.depot < input.distance_matrix.length)
    (hfuel : input.distance_matrix.length < fuel) (vs : List Nat)
    (hcap : ∀ v ∈ vs, capacityOf input.vehicle_capacities v = some (cap v))
    (st : Finset Nat × List VehicleRoute) (hst : input.depot ∈ st.1) :
    ∃ rs visited, vehiclesLoop fl input fuel vs st = some (visited, st.2 ++ rs) ∧
      GreedyFleet fl input.distance_matrix.length (vrpCell input.distance_matrix) dem cap
        input.depot st.1 rs := by
  induction vs generalizing st with
  | nil => exact ⟨[], st.1, by simp [vehiclesLoop], trivial⟩
  | cons v vs ih =>
    obtain ⟨stops, s', hs', hvis, hroute, hgreedy⟩ :=
      vehicleLoop_greedy fl input.distance_matrix.length input.depot
        (vrpCell input.distance_matrix) input.demands dem (cap v) hdem hfin fuel
        (vehInit input.depot st.1) hst hdepot
        (lt_of_le_of_lt (unvisitedCount_le _ _) hfuel)
    simp only [vehInit] at hs' hvis hroute hgreedy
    have hrun : vehicleRun fl input fuel st.1 v
        = some (s'.visited,
            { vehicle := v
              route := s'.route ++ [input.depot]
              load := s'.currentLoad
              distance := calculateRouteDistance (s'.route ++ [input.depot])
                (vrpCell input.distance_matrix) }) := by
      simp only [vehicleRun, hcap v (List.mem_cons_self v vs), hs', Option.map_some']
    obtain ⟨rs, visited, hloop, hfleet⟩ := ih
      (fun w hw => hcap w (List.mem_cons_of_mem v hw))
      (s'.visited, st.2 ++ [{ vehicle := v
                              route := s'.route ++ [input.depot]
                              load := s'.currentLoad
                              distance := calculateRouteDistance (s'.route ++ [input.depot])
                                (vrpCell input.distance_matrix) }])
      (by rw [hvis]; exact Finset.mem_union_left _ hst)
    refine ⟨{ vehicle := v
              route := s'.route ++ [input.depot]
              load := s'.currentLoad
              distance := calculateRouteDistance (s'.route ++ [input.depot])
                (vrpCell input.distance_matrix) } :: rs, visited, ?_, ?_⟩
    · simp only [vehiclesLoop, hrun]
      rw [hloop]
      simp
    · refine ⟨stops, ?_, hgreedy, ?_⟩
      · simp [hroute]
      · rw [← hvis]; exact hfleet

/-- C10 (counterexample): stop 1 is unvisited and its demand 1 fits the capacity 5, yet
the vehicle's route ends without it, because `distance_matrix[0][1]` is `undefined` and
`undefined < bestDist` is false. -/
theorem solveVRPGreedy_greedy_counterexample :
    raggedInput.demands[1]? = some 1 ∧ raggedInput.vehicle_capacities[0]? = some 5 ∧
    (0 : ℚ) + 1 ≤ 5 ∧
    solveVRPGreedy roundDouble 3 raggedInput
      = some { routes := [{ vehicle := 0, route := [0, 0], load := 0, distance := some 0 }]
               total_distance := some 0
               solver := "greedy_fallback"
               unvisited := [1] } := by
  decide!

/-- C10 (amended): over a matrix of finite distances with `depot < n`, when every non-depot demand and
every vehicle's capacity is present and non-zero, every route of the result is
`[depot, stops.., depot]` where each stop was, when chosen, not yet visited by any
vehicle, fitted the remaining capacity, and was at minimal distance from the current
position among the unvisited stops that fitted; and after the last stop of a route no
unvisited stop fits.
This holds whatever the rounding `fl` of the additions of loads is, in particular for
the rounding to doubles. -/
theorem solveVRPGreedy_greedy_routes (fl : ℚ → ℚ) (input : VRPInput) (fuel : Nat)
    (hfin : FiniteMatrix input.distance_matrix.length (vrpCell input.distance_matrix))
    (hdepot : input.depot < input.distance_matrix.length)
    (hdem : ∀ j, j < input.distance_matrix.length → j ≠ input.depot →
      ∃ d, input.demands[j]? = some d ∧ d ≠ 0)
    (hcap : ∀ v, v < input.num_vehicles → ∃ c, input.vehicle_capacities[v]? = some c ∧ c ≠ 0)
    (hfuel : input.distance_matrix.length < fuel) :
    ∃ result, solveVRPGreedy fl fuel input = some result ∧
      GreedyFleet fl input.distance_matrix.length (vrpCell input.distance_matrix)
        (fun j => input.demands.getD j 0) (fun v => input.vehicle_capacities.getD v 0)
        input.depot {input.depot} result.routes := by
  obtain ⟨rs, visited, hloop, hfleet⟩ := vehiclesLoop_greedy fl input fuel
    (fun j => input.demands.getD j 0) (fun v => input.vehicle_capacities.getD v 0)
    (by
      intro j hj hjd
      obtain ⟨d, hd, hd0⟩ := hdem j hj hjd
      simp [demandOr1, hd, hd0, List.getD_eq_getElem?_getD])
    hfin hdepot hfuel
    (List.range input.num_vehicles)
    (by
      intro v hv
      obtain ⟨c, hc, hc0⟩ := hcap v (List.mem_range.mp hv)
      simp [capacityOf, hc, hc0, List.getD_eq_getElem?_getD])
    ({input.depot}, []) (by simp)
  refine ⟨_, solveVRPGreedy_of_loop fl input fuel _ hloop, ?_⟩
  simpa using hfleet

/-- Witness for the amended C10: the fleet example. -/
theorem solveVRPGreedy_greedy_routes_witness :
    ∃ result, solveVRPGreedy roundDouble 7 fleetInput = some result ∧
      GreedyFleet roundDouble fleetInput.distance_matrix.length (vrpCell fleetInput.distance_matrix)
        (fun j => fleetInput.demands.getD j 0)
        (fun v => fleetInput.vehicle_capacities.getD v 0)
        fleetInput.depot {fleetInput.depot} result.routes :=
  solveVRPGreedy_greedy_routes roundDouble fleetInput 7 (finiteMatrix_of_isSome _ (by decide!))
    (by decide!) (by decide!) (by decide!) (by decide!)

theorem foldl_jsAdd_some (vals : List ℚ) (init : ℚ) :
    (vals.map some).foldl jsAdd (some init) = some (init + vals.sum) := by
  induction vals generalizing init with
  | nil => simp
  | cons v vals ih =>
    simp only [List.map_cons, List.foldl_cons, jsAdd, List.sum_cons]
    rw [ih (init + v), add_assoc]

theorem calculateRouteDistance_eq_sum (route : List Nat) (matrix : Nat → Nat → Option ℚ)
    (vals : List ℚ)
    (h : (route.zip route.tail).map (fun p => matrix p.1 p.2) = vals.map some) :
    calculateRouteDistance route matrix = some vals.sum := by
  have : calculateRouteDistance route matrix
      = ((route.zip route.tail).map fun p => matrix p.1 p.2).foldl jsAdd (some 0) := by
    simp only [calculateRouteDistance, List.foldl_map]
  rw [this, h, foldl_jsAdd_some, zero_add]

theorem not_throws_of_depot_lt (input : VRPInput)
    (hdepot : input.depot < input.distance_matrix.length) : ¬ solveVRPGreedyThrows input := by
  intro h
  exact absurd hdepot (not_lt.mpr h.2)

/-- C11: on every input on which `solveVRPGreedy` does not throw, every route of the
result is `[depot, s1, .., sk, depot]` with `k ≥ 0` non-depot stops; its `distance` is
`calculateRouteDistance(route, matrix)`, which is the sum of the cells
`matrix[route[i]][route[i + 1]]` of its consecutive pairs whenever these are finite; and
a vehicle that takes no stop has the route `[depot, depot]` and the distance
`matrix[depot][depot]`.
This holds whatever the rounding `fl` of the additions of loads is, in particular for
the rounding to doubles. -/
theorem solveVRPGreedy_route_shape (fl : ℚ → ℚ) (input : VRPInput) (fuel : Nat)
    (hthrow : ¬ solveVRPGreedyThrows input)
    (hfuel : input.distance_matrix.length < fuel) :
    ∃ result, solveVRPGreedy fl fuel input = some result ∧
      ∀ r ∈ result.routes, ∃ stops,
        r.route = input.depot :: stops ++ [input.depot] ∧ input.depot ∉ stops ∧
        r.distance = calculateRouteDistance r.route (vrpCell input.distance_matrix) ∧
        (∀ vals : List ℚ,
          (r.route.zip r.route.tail).map (fun p => vrpCell input.distance_matrix p.1 p.2)
            = vals.map some → r.distance = some vals.sum) ∧
        (stops = [] → r.route = [input.depot, input.depot] ∧
          r.distance = vrpCell input.distance_matrix input.depot input.depot) := by
  obtain ⟨st', hst', ⟨_, hQ⟩, _⟩ := vehiclesLoop_run fl input fuel
    (fun st => input.depot ∈ st.1 ∧ ∀ r ∈ st.2, ∃ stops,
      r.route = input.depot :: stops ++ [input.depot] ∧ input.depot ∉ stops ∧
      r.distance = calculateRouteDistance r.route (vrpCell input.distance_matrix))
    (List.range input.num_vehicles) (by
      intro st v _ hQ
      obtain ⟨s', hinv, _, hrun⟩ := vehicleRun_run fl input fuel st.1 v
        (VehInv input.distance_matrix.length input.depot st.1)
        (fun s d j hs hscan => vehInv_step fl _ _ _ _ _ _ s d j hs hscan)
        (vehInv_init _ _ _) hfuel
      refine ⟨_, _, hrun, ?_, ?_⟩
      · simp only []
        rw [hinv.hvis]
        exact Finset.mem_union_left _ hQ.1
      · intro r hr
        simp only [List.mem_append, List.mem_singleton] at hr
        rcases hr with hr | hr
        · exact hQ.2 r hr
        · refine ⟨s'.route.tail, ?_, ?_, ?_⟩
          · rw [hr]
            simp only []
            cases hs : s'.route with
            | nil => have := hinv.hhead; rw [hs] at this; simp at this
            | cons a t =>
              have ha : a = input.depot := by
                have := hinv.hhead; rw [hs] at this; simpa using this
              simp [ha]
          · intro hmem
            exact (hinv.hnew _ hmem).1 hQ.1
          · rw [hr]) ({input.depot}, []) ⟨by simp, by simp⟩
  refine ⟨_, solveVRPGreedy_of_loop fl input fuel st' hst', ?_⟩
  intro r hr
  obtain ⟨stops, hroute, hnd, hdist⟩ := hQ r hr
  refine ⟨stops, hroute, hnd, hdist, ?_, ?_⟩
  · intro vals hvals
    rw [hdist]
    exact calculateRouteDistance_eq_sum _ _ vals hvals
  · intro hs
    rw [hs] at hroute
    refine ⟨by simpa using hroute, ?_⟩
    rw [hdist, hroute]
    have hcalc : calculateRouteDistance ([input.depot] ++ [input.depot])
        (vrpCell input.distance_matrix)
        = jsAdd (some 0) (vrpCell input.distance_matrix input.depot input.depot) := rfl
    rw [hcalc]
    generalize vrpCell input.distance_matrix input.depot input.depot = c
    cases c <;> simp [jsAdd]

/-- Witness for C11: the fleet example. -/
theorem solveVRPGreedy_route_shape_witness :
    ∃ result, solveVRPGreedy roundDouble 7 fleetInput = some result ∧
      ∀ r ∈ result.routes, ∃ stops,
        r.route = fleetInput.depot :: stops ++ [fleetInput.depot] ∧
        fleetInput.depot ∉ stops ∧
        r.distance = calculateRouteDistance r.route (vrpCell fleetInput.distance_matrix) ∧
        (∀ vals : List ℚ,
          (r.route.zip r.route.tail).map
              (fun p => vrpCell fleetInput.distance_matrix p.1 p.2)
            = vals.map some → r.distance = some vals.sum) ∧
        (stops = [] → r.route = [fleetInput.depot, fleetInput.depot] ∧
          r.distance = vrpCell fleetInput.distance_matrix fleetInput.depot fleetInput.depot) :=
  solveVRPGreedy_route_shape roundDouble fleetInput 7 (by decide!) (by decide!)

/-- C12 (counterexample): on the fleet example the result names its solver
`"greedy_fallback"`, which is not `"local_fallback"`. -/
theorem solveVRPGreedy_solver_counterexample :
    (solveVRPGreedy roundDouble 7 fleetInput).map (fun r => r.solver) = some "greedy_fallback" ∧
    (solveVRPGreedy roundDouble 7 fleetInput).map (fun r => r.solver) ≠ some "local_fallback" := by
  decide!

/-- C12 (amended): on every input on which `solveVRPGreedy` does not throw, the result
identifies its solver as `"greedy_fallback"`.
This holds whatever the rounding `fl` of the additions of loads is, in particular for
the rounding to doubles. -/
theorem solveVRPGreedy_solver_name (fl : ℚ → ℚ) (input : VRPInput) (fuel : Nat)
    (hthrow : ¬ solveVRPGreedyThrows input)
    (hfuel : input.distance_matrix.length < fuel) :
    ∃ result, solveVRPGreedy fl fuel input = some result ∧ result.solver = "greedy_fallback" := by
  obtain ⟨st', hst', _, _⟩ := vehiclesLoop_run fl input fuel (fun _ => True)
    (List.range input.num_vehicles) (by
      intro st v _ _
      obtain ⟨s', _, _, hrun⟩ := vehicleRun_run fl input fuel st.1 v (fun _ => True)
        (fun _ _ _ _ _ => trivial) trivial hfuel
      exact ⟨_, _, hrun, trivial⟩) ({input.depot}, []) trivial
  exact ⟨_, solveVRPGreedy_of_loop fl input fuel st' hst', rfl⟩

/-- Witness for the amended C12: the fleet example. -/
theorem solveVRPGreedy_solver_name_witness :
    ∃ result, solveVRPGreedy roundDouble 7 fleetInput = some result ∧ result.solver = "greedy_fallback" :=
  solveVRPGreedy_solver_name roundDouble fleetInput 7 (by decide!) (by decide!)

theorem solveVRPGreedy_terminates (fl : ℚ → ℚ) (input : VRPInput) (fuel : Nat)
    (hfuel : input.distance_matrix.length < fuel) :
    ∃ result, solveVRPGreedy fl fuel input = some result := by
  obtain ⟨st', hst', _, _⟩ := vehiclesLoop_run fl input fuel (fun _ => True)
    (List.range input.num_vehicles) (by
      intro st v _ _
      obtain ⟨s', _, _, hrun⟩ := vehicleRun_run fl input fuel st.1 v (fun _ => True)
        (fun _ _ _ _ _ => trivial) trivial hfuel
      exact ⟨_, _, hrun, trivial⟩) ({input.depot}, []) trivial
  exact ⟨_, solveVRPGreedy_of_loop fl input fuel st' hst'⟩

theorem prepareVrpInput_num_vehicles_pos (calculateDistance : ℚ → ℚ → ℚ → ℚ → Option ℚ)
    (req : VrpRequest) (locations : List Coord) :
    0 < (prepareVrpInput calculateDistance req locations).num_vehicles := by
  simp only [prepareVrpInput]
  cases req.num_vehicles with
  | none => simp
  | some k =>
    by_cases hk : k = 0
    · simp [hk]
    · simp only [hk, if_false]; omega

/-- C13 (counterexample): one location, depot index 3, external solver unavailable: the
fallback reads `distance_matrix[3]` of a 1 x 1 matrix, throws, and the response is the
500 error, not a success. -/
theorem vrpHandler_fallback_counterexample :
    vrpHandler roundDouble gridDistance solverUnavailable 2 depotOutOfRangeRequest
      = some VrpResponse.serverError := by
  decide!

/-- C13 (amended): for a `/vrp` request with a non-empty `locations` list, the prepared
input has the supplied matrix or the built one, the supplied demands or all 1, the
supplied capacities or `[locations.length]`, `num_vehicles || 1` and `depot || 0`; when
the external call succeeds the response is its result unchanged; when it fails and the
prepared depot is a row of the prepared matrix the response is the success
`solveVRPGreedy(vrpInput)`; when it fails and the depot is not a row, the fallback throws
and the response is the 500 error.
This holds whatever the rounding `fl` of the additions of loads is, in particular for
the rounding to doubles. -/
theorem vrpHandler_fallback (fl : ℚ → ℚ) {β : Type} (calculateDistance : ℚ → ℚ → ℚ → ℚ → Option ℚ)
    (runVRPSolver : VRPInput → Except String β) (fuel : Nat) (req : VrpRequest)
    (l : Coord) (ls : List Coord) (hloc : req.locations = some (l :: ls)) :
    (prepareVrpInput calculateDistance req (l :: ls)).distance_matrix
        = req.distance_matrix.getD (createSimpleDistanceMatrix calculateDistance (l :: ls)) ∧
    (prepareVrpInput calculateDistance req (l :: ls)).demands
        = req.demands.getD (List.replicate (l :: ls).length 1) ∧
    (prepareVrpInput calculateDistance req (l :: ls)).vehicle_capacities
        = req.vehicle_capacities.getD [((l :: ls).length : ℚ)] ∧
    (prepareVrpInput calculateDistance req (l :: ls)).num_vehicles
        = (if req.num_vehicles.getD 0 = 0 then 1 else req.num_vehicles.getD 0) ∧
    (prepareVrpInput calculateDistance req (l :: ls)).depot = req.depot.getD 0 ∧
    (∀ result, runVRPSolver (prepareVrpInput calculateDistance req (l :: ls)) = Except.ok result →
      vrpHandler fl calculateDistance runVRPSolver fuel req = some (VrpResponse.external result)) ∧
    (∀ e, runVRPSolver (prepareVrpInput calculateDistance req (l :: ls)) = Except.error e →
      (prepareVrpInput calculateDistance req (l :: ls)).depot
        < (prepareVrpInput calculateDistance req (l :: ls)).distance_matrix.length →
      (prepareVrpInput calculateDistance req (l :: ls)).distance_matrix.length < fuel →
      ∃ result,
        solveVRPGreedy fl fuel (prepareVrpInput calculateDistance req (l :: ls)) = some result ∧
        vrpHandler fl calculateDistance runVRPSolver fuel req
          = some (VrpResponse.fallback result)) ∧
    (∀ e, runVRPSolver (prepareVrpInput calculateDistance req (l :: ls)) = Except.error e →
      (prepareVrpInput calculateDistance req (l :: ls)).distance_matrix.length
        ≤ (prepareVrpInput calculateDistance req (l :: ls)).depot →
      vrpHandler fl calculateDistance runVRPSolver fuel req = some VrpResponse.serverError) := by
  refine ⟨?_, ?_, ?_, ?_, ?_, ?_, ?_, ?_⟩
  · cases h : req.distance_matrix <;> simp [prepareVrpInput, h]
  · cases h : req.demands with
    | none =>
      simp only [prepareVrpInput, h, Option.getD_none]
      exact List.map_const' _ _
    | some d => simp [prepareVrpInput, h]
  · cases h : req.vehicle_capacities <;> simp [prepareVrpInput, h]
  · cases h : req.num_vehicles <;> simp [prepareVrpInput, h]
  · cases h : req.depot <;> simp [prepareVrpInput, h]
  · intro result hrun
    simp only [vrpHandler, hloc, hrun]
  · intro e hrun hdepot hfuel
    obtain ⟨result, hres⟩ := solveVRPGreedy_terminates fl _ fuel hfuel
    refine ⟨result, hres, ?_⟩
    simp only [vrpHandler, hloc, hrun, if_neg (not_throws_of_depot_lt _ hdepot), hres,
      Option.map_some']
  · intro e hrun hdepot
    have hthrow : solveVRPGreedyThrows (prepareVrpInput calculateDistance req (l :: ls)) :=
      ⟨prepareVrpInput_num_vehicles_pos calculateDistance req (l :: ls), hdepot⟩
    simp only [vrpHandler, hloc, hrun, if_pos hthrow]

/-- Witness for the amended C13: three locations, every other field absent, external
solver unavailable. -/
theorem vrpHandler_fallback_witness :
    ∃ result,
      solveVRPGreedy roundDouble 4
          (prepareVrpInput gridDistance plainVrpRequest
            [{ lat := 0, lng := 0 }, { lat := 1, lng := 0 }, { lat := 3, lng := 0 }])
        = some result ∧
      vrpHandler roundDouble gridDistance solverUnavailable 4 plainVrpRequest
        = some (VrpResponse.fallback result) :=
  (vrpHandler_fallback roundDouble gridDistance solverUnavailable 4 plainVrpRequest
    { lat := 0, lng := 0 } [{ lat := 1, lng := 0 }, { lat := 3, lng := 0 }] rfl).2.2.2.2.2.2.1
    "spawn python3 ENOENT" rfl (by decide!) (by decide!)

/-- C14 (counterexample): a valid `/shipment` request whose optimizer call fails is
answered with the 503 body, `fallback_available: false`, not with a fallback result. -/
theorem shipmentHandler_unavailable_counterexample :
    shipmentHandler "http://localhost:8000" optimizerUnreachable validShipmentRequest
      = ShipmentResponse.unavailable "Optimizer service is not available"
          "Please ensure the FastAPI optimizer is running on http://localhost:8000" false := by
  decide!

/-- C14 (amended): for every `/shipment` request that passes the validation, when the
call of the optimizer service fails the handler answers with the 503 body: error
"Optimizer service is not available", the message naming `OPTIMIZER_URL`, and
`fallback_available: false`. -/
theorem shipmentHandler_unavailable {β : Type} (optimizerUrl : String)
    (fetchOptimizer : OptimizerRequest → FetchOutcome β) (req : ShipmentRequest)
    (message : String) (hvalid : shipmentValidation req = none)
    (hfail : fetchOptimizer (optimizerRequestOf req) = FetchOutcome.failed message) :
    shipmentHandler optimizerUrl fetchOptimizer req
      = ShipmentResponse.unavailable "Optimizer service is not available"
          ("Please ensure the FastAPI optimizer is running on " ++ optimizerUrl) false := by
  simp only [shipmentHandler, hvalid, hfail]

/-- Witness for the amended C14: the valid example request. -/
theorem shipmentHandler_unavailable_witness :
    shipmentHandler "http://localhost:8000" optimizerUnreachable validShipmentRequest
      = ShipmentResponse.unavailable "Optimizer service is not available"
          ("Please ensure the FastAPI optimizer is running on " ++ "http://localhost:8000")
          false :=
  shipmentHandler_unavailable "http://localhost:8000" optimizerUnreachable
    validShipmentRequest "fetch failed" (by decide!) rfl

theorem hasCapacity_iff (available_capacity weight : Option ℚ) :
    hasCapacity available_capacity weight = true ↔
      ∃ a w, available_capacity = some a ∧ weight = some w ∧ w ≤ a := by
  cases available_capacity <;> cases weight <;> simp [hasCapacity]

/-- C15: for a shipment and a candidate route at finite deviations
`o = distance(shipment.origin, route.origin)` and
`d = distance(shipment.destination, route.destination)`, the scorer returns
`has_capacity = (route.available_capacity >= shipment.weight)`,
`compatibility_score = round(max(0, 100 - ((o + d) / 50) * 100))` if it has capacity and
`0` otherwise, and `is_compatible = has_capacity and max(0, ..) > 30`; the deviations
are reported rounded to one decimal. -/
theorem scoreRoute_fields (calculateDistance : ℚ → ℚ → ℚ → ℚ → Option ℚ)
    (shipment : MatchShipment) (route : MatchRoute) (o d : ℚ)
    (ho : calculateDistance shipment.origin.lat shipment.origin.lng route.origin.lat
      route.origin.lng = some o)
    (hd : calculateDistance shipment.destination.lat shipment.destination.lng
      route.destination.lat route.destination.lng = some d) :
    (scoreRoute calculateDistance shipment route).route = route ∧
    (scoreRoute calculateDistance shipment route).shipment_id = shipment.id ∧
    (scoreRoute calculateDistance shipment route).origin_deviation_km
      = some ((mathRound (o * 10) : ℚ) / 10) ∧
    (scoreRoute calculateDistance shipment route).destination_deviation_km
      = some ((mathRound (d * 10) : ℚ) / 10) ∧
    ((scoreRoute calculateDistance shipment route).has_capacity = true ↔
      ∃ a w, route.available_capacity = some a ∧ shipment.weight = some w ∧ w ≤ a) ∧
    (scoreRoute calculateDistance shipment route).compatibility_score
      = some (if (scoreRoute calculateDistance shipment route).has_capacity = true then
          mathRound (max 0 (100 - ((o + d) / 50) * 100)) else 0) ∧
    ((scoreRoute calculateDistance shipment route).is_compatible = true ↔
      (scoreRoute calculateDistance shipment route).has_capacity = true ∧
        30 < max 0 (100 - ((o + d) / 50) * 100)) := by
  refine ⟨rfl, rfl, ?_, ?_, ?_, ?_, ?_⟩
  · simp [scoreRoute, ho, round1]
  · simp [scoreRoute, hd, round1]
  · simp only [scoreRoute]
    exact hasCapacity_iff _ _
  · simp only [scoreRoute, ho, hd, deviationScore]
    by_cases h : hasCapacity route.available_capacity shipment.weight = true
    · simp [h]
    · simp [h]
  · simp only [scoreRoute, ho, hd, deviationScore, above30, Bool.and_eq_true,
      decide_eq_true_eq]

/-- Witness for C15: the light shipment on the example route. -/
theorem scoreRoute_fields_witness :
    (scoreRoute gridDistance lightShipment exampleMatchRoute).route = exampleMatchRoute ∧
    (scoreRoute gridDistance lightShipment exampleMatchRoute).shipment_id = lightShipment.id ∧
    (scoreRoute gridDistance lightShipment exampleMatchRoute).origin_deviation_km
      = some ((mathRound ((0 : ℚ) * 10) : ℚ) / 10) ∧
    (scoreRoute gridDistance lightShipment exampleMatchRoute).destination_deviation_km
      = some ((mathRound ((0 : ℚ) * 10) : ℚ) / 10) ∧
    ((scoreRoute gridDistance lightShipment exampleMatchRoute).has_capacity = true ↔
      ∃ a w, exampleMatchRoute.available_capacity = some a ∧
        lightShipment.weight = some w ∧ w ≤ a) ∧
    (scoreRoute gridDistance lightShipment exampleMatchRoute).compatibility_score
      = some (if (scoreRoute gridDistance lightShipment exampleMatchRoute).has_capacity = true
          then mathRound (max 0 (100 - (((0 : ℚ) + 0) / 50) * 100)) else 0) ∧
    ((scoreRoute gridDistance lightShipment exampleMatchRoute).is_compatible = true ↔
      (scoreRoute gridDistance lightShipment exampleMatchRoute).has_capacity = true ∧
        30 < max 0 (100 - (((0 : ℚ) + 0) / 50) * 100)) :=
  scoreRoute_fields gridDistance lightShipment exampleMatchRoute 0 0 (by decide!) (by decide!)

theorem mathRound_range (x : ℚ) (h0 : 0 ≤ x) (h1 : x ≤ 100) :
    0 ≤ mathRound x ∧ mathRound x ≤ 100 := by
  unfold mathRound
  constructor
  · apply Int.floor_nonneg.mpr
    linarith
  · have : ⌊x + 1 / 2⌋ < 101 := by
      rw [Int.floor_lt]
      push_cast
      linarith
    omega

/-- C16: for a shipment and a candidate route at finite non-negative deviations, the
`compatibility_score` is an integer of the closed interval `[0, 100]`. -/
theorem scoreRoute_score_range (calculateDistance : ℚ → ℚ → ℚ → ℚ → Option ℚ)
    (shipment : MatchShipment) (route : MatchRoute) (o d : ℚ)
    (ho : calculateDistance shipment.origin.lat shipment.origin.lng route.origin.lat
      route.origin.lng = some o)
    (hd : calculateDistance shipment.destination.lat shipment.destination.lng
      route.destination.lat route.destination.lng = some d)
    (ho0 : 0 ≤ o) (hd0 : 0 ≤ d) :
    ∃ z : ℤ, (scoreRoute calculateDistance shipment route).compatibility_score = some z ∧
      0 ≤ z ∧ z ≤ 100 := by
  have hdev0 : (0 : ℚ) ≤ max 0 (100 - ((o + d) / 50) * 100) := le_max_left _ _
  have hdev1 : max 0 (100 - ((o + d) / 50) * 100) ≤ (100 : ℚ) := by
    apply max_le (by norm_num)
    have : 0 ≤ (o + d) / 50 * 100 := by positivity
    linarith
  by_cases h : hasCapacity route.available_capacity shipment.weight = true
  · refine ⟨mathRound (max 0 (100 - ((o + d) / 50) * 100)), ?_,
      mathRound_range _ hdev0 hdev1⟩
    simp [scoreRoute, ho, hd, deviationScore, h]
  · refine ⟨0, ?_, le_refl _, by norm_num⟩
    simp [scoreRoute, h]

/-- Witness for C16: the light shipment on the example route. -/
theorem scoreRoute_score_range_witness :
    ∃ z : ℤ, (scoreRoute gridDistance lightShipment exampleMatchRoute).compatibility_score
        = some z ∧ 0 ≤ z ∧ z ≤ 100 :=
  scoreRoute_score_range gridDistance lightShipment exampleMatchRoute 0 0 (by decide!)
    (by decide!) (by decide!) (by decide!)

theorem compatibleRoutes_perm (calculateDistance : ℚ → ℚ → ℚ → ℚ → Option ℚ)
    (shipment : MatchShipment) (available_routes : List MatchRoute) :
    (compatibleRoutes calculateDistance shipment available_routes).Perm
      (compatibleCandidates calculateDistance shipment available_routes) :=
  List.perm_insertionSort _ _

theorem compatibleRoutes_sorted (calculateDistance : ℚ → ℚ → ℚ → ℚ → Option ℚ)
    (shipment : MatchShipment) (available_routes : List MatchRoute) :
    (compatibleRoutes calculateDistance shipment available_routes).Sorted
      (fun a b => scoreKey b ≤ scoreKey a) := by
  haveI : IsTotal MatchCandidate (fun a b => scoreKey b ≤ scoreKey a) :=
    ⟨fun a b => le_total (scoreKey b) (scoreKey a)⟩
  haveI : IsTrans MatchCandidate (fun a b => scoreKey b ≤ scoreKey a) :=
    ⟨fun a b c hab hbc => le_trans hbc hab⟩
  exact List.sorted_insertionSort _ _

theorem compatibleRoutes_eq_nil_iff (calculateDistance : ℚ → ℚ → ℚ → ℚ → Option ℚ)
    (shipment : MatchShipment) (available_routes : List MatchRoute) :
    compatibleRoutes calculateDistance shipment available_routes = [] ↔
      compatibleCandidates calculateDistance shipment available_routes = [] := by
  constructor
  · intro h
    have := compatibleRoutes_perm calculateDistance shipment available_routes
    rw [h] at this
    exact List.Perm.nil_eq this |>.symm
  · intro h
    have := compatibleRoutes_perm calculateDistance shipment available_routes
    rw [h] at this
    exact List.Perm.eq_nil this

theorem compatibleCandidates_spec (calculateDistance : ℚ → ℚ → ℚ → ℚ → Option ℚ)
    (shipment : MatchShipment) (available_routes : List MatchRoute) (c : MatchCandidate)
    (hc : c ∈ compatibleCandidates calculateDistance shipment available_routes) :
    c.is_compatible = true ∧ c.compatibility_score = some (scoreKey c) := by
  simp only [compatibleCandidates, List.mem_filter, List.mem_map] at hc
  obtain ⟨⟨r, _, hr⟩, hcomp⟩ := hc
  refine ⟨hcomp, ?_⟩
  rw [← hr] at hcomp ⊢
  simp only [scoreRoute, Bool.and_eq_true] at hcomp
  obtain ⟨hcap, habove⟩ := hcomp
  cases hdev : deviationScore
      (calculateDistance shipment.origin.lat shipment.origin.lng r.origin.lat r.origin.lng)
      (calculateDistance shipment.destination.lat shipment.destination.lng
        r.destination.lat r.destination.lng) with
  | none => rw [hdev] at habove; simp [above30] at habove
  | some x => simp [scoreRoute, scoreKey, hcap, hdev]

theorem mem_matchesOf (calculateDistance : ℚ → ℚ → ℚ → ℚ → Option ℚ)
    (shipments : List MatchShipment) (available_routes : List MatchRoute) (entry : MatchEntry) :
    entry ∈ matchesOf calculateDistance shipments available_routes ↔
      ∃ s ∈ shipments, ∃ best rest,
        compatibleRoutes calculateDistance s available_routes = best :: rest ∧
        entry = { shipment := s, best_match := best, alternatives := rest.take 2 } := by
  simp only [matchesOf, List.mem_filterMap]
  constructor
  · rintro ⟨s, hs, hentry⟩
    cases hL : compatibleRoutes calculateDistance s available_routes with
    | nil => rw [hL] at hentry; simp at hentry
    | cons best rest =>
      rw [hL] at hentry
      simp only [Option.some.injEq] at hentry
      exact ⟨s, hs, best, rest, hL, hentry.symm⟩
  · rintro ⟨s, hs, best, rest, hL, hentry⟩
    refine ⟨s, hs, ?_⟩
    rw [hL, hentry]

theorem matchRoutes_ok (calculateDistance : ℚ → ℚ → ℚ → ℚ → Option ℚ)
    (shipments : List MatchShipment) (available_routes : List MatchRoute)
    (hs : shipments ≠ []) (hr : available_routes ≠ []) :
    matchRoutes calculateDistance (some shipments) (some available_routes)
      = MatchResponse.ok
          { matchEntries := matchesOf calculateDistance shipments available_routes
            unmatched_shipments :=
              unmatchedOf shipments (matchesOf calculateDistance shipments available_routes) } := by
  cases shipments with
  | nil => exact absurd rfl hs
  | cons s ss =>
    cases available_routes with
    | nil => exact absurd rfl hr
    | cons r rs => rfl

/-- C17: for a shipment of a match-routes request that has a compatible candidate, the
response has an entry for it whose `best_match` is a compatible candidate of maximal
`compatibility_score`; `best_match` followed by `alternatives` (at most two) are the
first three of the compatible candidates sorted by decreasing score, in non-increasing
order of score; and every candidate reported for any shipment is compatible. -/
theorem matchRoutes_best_match (calculateDistance : ℚ → ℚ → ℚ → ℚ → Option ℚ)
    (shipments : List MatchShipment) (available_routes : List MatchRoute)
    (s : MatchShipment) (hs : s ∈ shipments) (hr : available_routes ≠ [])
    (hne : compatibleCandidates calculateDistance s available_routes ≠ []) :
    ∃ body, matchRoutes calculateDistance (some shipments) (some available_routes)
        = MatchResponse.ok body ∧
      (∃ entry ∈ body.matchEntries, entry.shipment = s ∧
        entry.best_match ∈ compatibleCandidates calculateDistance s available_routes ∧
        (∀ c ∈ compatibleCandidates calculateDistance s available_routes,
          scoreKey c ≤ scoreKey entry.best_match) ∧
        entry.alternatives.length ≤ 2 ∧
        entry.best_match :: entry.alternatives
          = (compatibleRoutes calculateDistance s available_routes).take 3 ∧
        (compatibleRoutes calculateDistance s available_routes).Perm
          (compatibleCandidates calculateDistance s available_routes) ∧
        (entry.best_match :: entry.alternatives).Sorted
          (fun a b => scoreKey b ≤ scoreKey a)) ∧
      (∀ entry ∈ body.matchEntries, ∀ c ∈ entry.best_match :: entry.alternatives,
        c.is_compatible = true ∧ c.compatibility_score = some (scoreKey c)) := by
  refine ⟨_, matchRoutes_ok calculateDistance shipments available_routes
    (List.ne_nil_of_mem hs) hr, ?_, ?_⟩
  · have hperm := compatibleRoutes_perm calculateDistance s available_routes
    have hsorted := compatibleRoutes_sorted calculateDistance s available_routes
    cases hL : compatibleRoutes calculateDistance s available_routes with
    | nil =>
      exact absurd ((compatibleRoutes_eq_nil_iff calculateDistance s available_routes).mp hL)
        hne
    | cons best rest =>
      rw [hL] at hperm hsorted
      refine ⟨{ shipment := s, best_match := best, alternatives := rest.take 2 }, ?_, rfl,
        ?_, ?_, ?_, ?_, hperm, ?_⟩
      · exact (mem_matchesOf calculateDistance shipments available_routes _).mpr
          ⟨s, hs, best, rest, hL, rfl⟩
      · exact hperm.mem_iff.mp (List.mem_cons_self best rest)
      · intro c hc
        have hcL := hperm.mem_iff.mpr hc
        rcases List.mem_cons.mp hcL with h | h
        · rw [h]
        · exact List.rel_of_sorted_cons hsorted c h
      · exact List.length_take_le 2 rest
      · simp
      · have : (best :: rest.take 2) = (best :: rest).take 3 := by simp
        simp only []
        rw [this]
        exact hsorted.sublist (List.take_sublist 3 _)
  · intro entry hentry c hc
    obtain ⟨a, _, best, rest, hL, rfl⟩ :=
      (mem_matchesOf calculateDistance shipments available_routes entry).mp hentry
    have hperm := compatibleRoutes_perm calculateDistance a available_routes
    rw [hL] at hperm
    have hcL : c ∈ best :: rest := by
      simp only [List.mem_cons] at hc ⊢
      rcases hc with h | h
      · exact Or.inl h
      · exact Or.inr (List.mem_of_mem_take h)
    exact compatibleCandidates_spec calculateDistance a available_routes c
      (hperm.mem_iff.mp hcL)

/-- Witness for C17: the light shipment, a heavy one, and six routes given out of order.
Four routes are compatible, with the scores 60, 100, 96 and 90; the route without
capacity (score 0) and the route with score 20 are left out; `best_match` has the score
100 and the two alternatives the scores 96 and 90, the candidate of score 60 being
dropped. -/
theorem matchRoutes_best_match_witness :
    (∃ body, matchRoutes gridDistance (some [heavyShipment, lightShipment]) (some exampleRoutes)
        = MatchResponse.ok body ∧
      (∃ entry ∈ body.matchEntries, entry.shipment = lightShipment ∧
        entry.best_match ∈ compatibleCandidates gridDistance lightShipment exampleRoutes ∧
        (∀ c ∈ compatibleCandidates gridDistance lightShipment exampleRoutes,
          scoreKey c ≤ scoreKey entry.best_match) ∧
        entry.alternatives.length ≤ 2 ∧
        entry.best_match :: entry.alternatives
          = (compatibleRoutes gridDistance lightShipment exampleRoutes).take 3 ∧
        (compatibleRoutes gridDistance lightShipment exampleRoutes).Perm
          (compatibleCandidates gridDistance lightShipment exampleRoutes) ∧
        (entry.best_match :: entry.alternatives).Sorted
          (fun a b => scoreKey b ≤ scoreKey a)) ∧
      (∀ entry ∈ body.matchEntries, ∀ c ∈ entry.best_match :: entry.alternatives,
        c.is_compatible = true ∧ c.compatibility_score = some (scoreKey c))) ∧
    (exampleRoutes.map fun r => (scoreRoute gridDistance lightShipment r).compatibility_score)
      = [some 60, some 0, some 100, some 20, some 96, some 90] ∧
    (compatibleCandidates gridDistance lightShipment exampleRoutes).map scoreKey
      = [60, 100, 96, 90] ∧
    (matchesOf gridDistance [heavyShipment, lightShipment] exampleRoutes).map
        (fun e => (e.shipment.weight, scoreKey e.best_match, e.alternatives.map scoreKey))
      = [(some 1, 100, [96, 90])] :=
  ⟨matchRoutes_best_match gridDistance [heavyShipment, lightShipment] exampleRoutes
    lightShipment (by decide!) (by decide!) (by decide!), by decide!, by decide!, by decide!⟩

theorem mem_unmatchedOf (calculateDistance : ℚ → ℚ → ℚ → ℚ → Option ℚ)
    (shipments : List MatchShipment) (available_routes : List MatchRoute) (s : MatchShipment) :
    s ∈ unmatchedOf shipments (matchesOf calculateDistance shipments available_routes) ↔
      s ∈ shipments ∧ ∀ a ∈ shipments, a.id = s.id →
        compatibleCandidates calculateDistance a available_routes = [] := by
  simp only [unmatchedOf, List.mem_filter, Bool.not_eq_true', List.any_eq_false,
    decide_eq_true_eq]
  constructor
  · rintro ⟨hs, hno⟩
    refine ⟨hs, ?_⟩
    intro a ha hid
    by_contra hne
    cases hL : compatibleRoutes calculateDistance a available_routes with
    | nil =>
      exact hne ((compatibleRoutes_eq_nil_iff calculateDistance a available_routes).mp hL)
    | cons best rest =>
      exact hno { shipment := a, best_match := best, alternatives := rest.take 2 }
        ((mem_matchesOf calculateDistance shipments available_routes _).mpr
          ⟨a, ha, best, rest, hL, rfl⟩) hid
  · rintro ⟨hs, hall⟩
    refine ⟨hs, ?_⟩
    intro entry hentry hid
    obtain ⟨a, ha, best, rest, hL, rfl⟩ :=
      (mem_matchesOf calculateDistance shipments available_routes entry).mp hentry
    have := (compatibleRoutes_eq_nil_iff calculateDistance a available_routes).mpr
      (hall a ha hid)
    rw [hL] at this
    cases this

/-- C18 (the code at the failing input): two shipments carry the id 1; the light one has
a compatible route, the heavy one has none, yet the heavy one is not in
`unmatched_shipments`, because `matches.find(m => m.shipment.id === s.id)` finds the
entry of the light one. -/
theorem matchRoutes_unmatched_same_id :
    compatibleCandidates gridDistance heavyShipment [exampleMatchRoute] = [] ∧
    ∃ body, matchRoutes gridDistance (some [lightShipment, heavyShipment])
        (some [exampleMatchRoute]) = MatchResponse.ok body ∧
      heavyShipment ∉ body.unmatched_shipments := by
  refine ⟨by decide!, _, rfl, by decide!⟩

/-- For a match-routes request whose shipments carry pairwise distinct ids (an absent id
counting as one value), a shipment appears in `unmatched_shipments` if and only if it is
a shipment of the request with zero compatible candidate routes. -/
theorem matchRoutes_unmatched_iff (calculateDistance : ℚ → ℚ → ℚ → ℚ → Option ℚ)
    (shipments : List MatchShipment) (available_routes : List MatchRoute)
    (hs : shipments ≠ []) (hr : available_routes ≠ [])
    (hdistinct : ∀ a ∈ shipments, ∀ b ∈ shipments, a.id = b.id → a = b) :
    ∃ body, matchRoutes calculateDistance (some shipments) (some available_routes)
        = MatchResponse.ok body ∧
      ∀ s, s ∈ body.unmatched_shipments ↔
        s ∈ shipments ∧ compatibleCandidates calculateDistance s available_routes = [] := by
  refine ⟨_, matchRoutes_ok calculateDistance shipments available_routes hs hr, ?_⟩
  intro s
  simp only []
  rw [mem_unmatchedOf]
  constructor
  · rintro ⟨hmem, hall⟩
    exact ⟨hmem, hall s hmem rfl⟩
  · rintro ⟨hmem, hnil⟩
    refine ⟨hmem, ?_⟩
    intro a ha hid
    rw [hdistinct a ha s hmem hid]
    exact hnil

theorem legs_eq_pathLength (dist : ℚ → ℚ → ℚ → ℚ → ℚ) (l : List Coord) :
    (List.zip l l.tail).foldl
        (fun d p => jsAdd d (some (dist p.1.lat p.1.lng p.2.lat p.2.lng))) (some 0)
      = some (pathLength dist l) := by
  have h := foldl_jsAdd_some
    ((l.zip l.tail).map fun p => dist p.1.lat p.1.lng p.2.lat p.2.lng) 0
  rw [List.map_map, List.foldl_map, zero_add] at h
  exact h

theorem pathLength_short (dist : ℚ → ℚ → ℚ → ℚ → ℚ) (l : List Coord) (h : l.length ≤ 1) :
    pathLength dist l = 0 := by
  cases l with
  | nil => simp [pathLength]
  | cons a t =>
    cases t with
    | nil => simp [pathLength]
    | cons b t => simp at h

theorem calculateSavings_eq (dist : ℚ → ℚ → ℚ → ℚ → ℚ) (original optimized : List Coord) :
    calculateSavings (fun a b c d => some (dist a b c d)) original optimized
      = some (if pathLength dist original = 0 then 0
          else mathRound ((1 - pathLength dist optimized / pathLength dist original) * 100)) := by
  by_cases hlen : original.length ≤ 1
  · simp [calculateSavings, hlen, pathLength_short dist original hlen]
  · simp only [calculateSavings, hlen, if_false, legs_eq_pathLength]
    by_cases h0 : pathLength dist original = 0
    · simp [h0]
    · simp [h0]

/-- C19: with finite distances, `calculateSavings(original, optimized)` is determined by
the sums of the distances of the consecutive pairs of each list: it returns `0` when the
sum of `original` is `0`, which includes every `original` of length at most 1, and
`round((1 - optimizedDistance / originalDistance) * 100)` otherwise. -/
theorem calculateSavings_spec (dist : ℚ → ℚ → ℚ → ℚ → ℚ) (original optimized : List Coord) :
    (pathLength dist original = 0 →
      calculateSavings (fun a b c d => some (dist a b c d)) original optimized = some 0) ∧
    (original.length ≤ 1 → pathLength dist original = 0) ∧
    (pathLength dist original ≠ 0 →
      calculateSavings (fun a b c d => some (dist a b c d)) original optimized
        = some (mathRound
            ((1 - pathLength dist optimized / pathLength dist original) * 100))) := by
  refine ⟨?_, pathLength_short dist original, ?_⟩
  · intro h
    rw [calculateSavings_eq, if_pos h]
  · intro h
    rw [calculateSavings_eq, if_neg h]

/-- Witness for C19: the example destinations against their reverse, on the grid
distance, where the original sum is not 0. -/
theorem calculateSavings_spec_witness :
    calculateSavings (fun a b c d => some (|a - c| + |b - d|)) exampleDestinations
        exampleDestinations.reverse
      = some (mathRound
          ((1 - pathLength (fun a b c d => |a - c| + |b - d|) exampleDestinations.reverse
              / pathLength (fun a b c d => |a - c| + |b - d|) exampleDestinations) * 100)) :=
  (calculateSavings_spec (fun a b c d => |a - c| + |b - d|) exampleDestinations
    exampleDestinations.reverse).2.2 (by decide!)

/-- C21: the savings percentage is not clamped at zero.  For the destinations A = (0, 0),
B = (1, 0), C = (2, 0) in that order and the origin (1.1, 0), the nearest-neighbour
order visits B, A, C; its length 3 exceeds the length 2 of the input order, and the
reported `savings_percentage` is -50. -/
theorem optimizeOrder_negative_savings :
    optimizeOrder gridDistance 3 lineRequest
      = some (OrderResponse.ok
          { optimized_route := [⟨11 / 10, 0, 0⟩, ⟨1, 0, 1⟩, ⟨0, 0, 2⟩, ⟨2, 0, 3⟩]
            total_distance_km := some (31 / 10)
            estimated_time_hours := some (1 / 10)
            savings_percentage := some (-50) }) ∧
    pathLength (fun a b c d => |a - c| + |b - d|)
        [{ lat := 0, lng := 0 }, { lat := 1, lng := 0 }, { lat := 2, lng := 0 }] = 2 ∧
    pathLength (fun a b c d => |a - c| + |b - d|)
        [{ lat := 1, lng := 0 }, { lat := 0, lng := 0 }, { lat := 2, lng := 0 }] = 3 := by
  decide!

/-- C25: two `/vrp` requests that supply the same `distance_matrix` and have the same
demands, capacities, number of vehicles, depot and number of locations get the same
prepared input, the same local solver result and the same response, whatever the
coordinates of their locations and whatever the distance function.
This holds whatever the rounding `fl` of the additions of loads is, in particular for
the rounding to doubles. -/
theorem vrpHandler_matrix_bypass (fl : ℚ → ℚ) {β : Type}
    (calculateDistance1 calculateDistance2 : ℚ → ℚ → ℚ → ℚ → Option ℚ)
    (runVRPSolver : VRPInput → Except String β)
    (req1 req2 : VrpRequest) (l1 l2 : Coord) (ls1 ls2 : List Coord)
    (m : List (List (Option ℚ)))
    (hloc1 : req1.locations = some (l1 :: ls1)) (hloc2 : req2.locations = some (l2 :: ls2))
    (hlen : ls1.length = ls2.length)
    (hm1 : req1.distance_matrix = some m) (hm2 : req2.distance_matrix = some m)
    (hdem : req1.demands = req2.demands)
    (hcap : req1.vehicle_capacities = req2.vehicle_capacities)
    (hnum : req1.num_vehicles = req2.num_vehicles) (hdepot : req1.depot = req2.depot) :
    prepareVrpInput calculateDistance1 req1 (l1 :: ls1)
      = prepareVrpInput calculateDistance2 req2 (l2 :: ls2) ∧
    (prepareVrpInput calculateDistance1 req1 (l1 :: ls1)).distance_matrix = m ∧
    (∀ fuel, solveVRPGreedy fl fuel (prepareVrpInput calculateDistance1 req1 (l1 :: ls1))
      = solveVRPGreedy fl fuel (prepareVrpInput calculateDistance2 req2 (l2 :: ls2))) ∧
    (∀ fuel, vrpHandler fl calculateDistance1 runVRPSolver fuel req1
      = vrpHandler fl calculateDistance2 runVRPSolver fuel req2) := by
  have hprep : prepareVrpInput calculateDistance1 req1 (l1 :: ls1)
      = prepareVrpInput calculateDistance2 req2 (l2 :: ls2) := by
    have hmap : (l1 :: ls1).map (fun _ => (1 : ℚ)) = (l2 :: ls2).map (fun _ => (1 : ℚ)) := by
      rw [List.map_const', List.map_const']
      simp [hlen]
    simp only [prepareVrpInput, hm1, hm2, hdem, hcap, hnum, hdepot, hmap, List.length_cons,
      hlen]
  refine ⟨hprep, by simp [prepareVrpInput, hm1], fun fuel => by rw [hprep], ?_⟩
  intro fuel
  simp only [vrpHandler, hloc1, hloc2, hprep]

/-- Witness for C25: the same supplied matrix with two different pairs of locations. -/
theorem vrpHandler_matrix_bypass_witness :
    prepareVrpInput gridDistance
        (suppliedMatrixRequest [{ lat := 0, lng := 0 }, { lat := 1, lng := 0 }])
        [{ lat := 0, lng := 0 }, { lat := 1, lng := 0 }]
      = prepareVrpInput gridDistance
        (suppliedMatrixRequest [{ lat := 5, lng := 5 }, { lat := 9, lng := 2 }])
        [{ lat := 5, lng := 5 }, { lat := 9, lng := 2 }] :=
  (vrpHandler_matrix_bypass roundDouble gridDistance gridDistance solverUnavailable
    (suppliedMatrixRequest [{ lat := 0, lng := 0 }, { lat := 1, lng := 0 }])
    (suppliedMatrixRequest [{ lat := 5, lng := 5 }, { lat := 9, lng := 2 }])
    { lat := 0, lng := 0 } { lat := 5, lng := 5 } [{ lat := 1, lng := 0 }]
    [{ lat := 9, lng := 2 }] [[some 0, some 7], [some 7, some 0]] rfl rfl rfl rfl rfl rfl rfl
    rfl rfl).1

/-- C26 (counterexample): a `/vrp` request with the capacity `-5` is not rejected: with
the external solver unavailable it is answered with the result of `solveVRPGreedy`. -/
theorem vrpHandler_capacity_counterexample :
    negativeCapacityRequest.vehicle_capacities = some [-5] ∧
    vrpHandler roundDouble gridDistance solverUnavailable 4 negativeCapacityRequest
      = some (VrpResponse.fallback
          { routes := [{ vehicle := 0, route := [0, 0], load := 0, distance := some 0 }]
            total_distance := some 0
            solver := "greedy_fallback"
            unvisited := [1, 2] }) := by
  decide!

/-- C26 (amended): the `/vrp` handler validates only the locations.  A request whose
`locations` is missing or empty is answered with the 400 error "Locations are required".
A request with a non-empty `locations` list and any `vehicle_capacities`, non-positive
ones included, is never answered with the 400 error: the capacities are passed unchanged
in the prepared input; when the external solver succeeds its result is the response; when
it fails the prepared input goes to `solveVRPGreedy`, whose result is the response, or
the response is the 500 error when `solveVRPGreedy` throws. -/
theorem vrpHandler_no_capacity_check (fl : ℚ → ℚ) {β : Type}
    (calculateDistance : ℚ → ℚ → ℚ → ℚ → Option ℚ)
    (runVRPSolver : VRPInput → Except String β) (fuel : Nat) (req : VrpRequest) :
    (req.locations = none ∨ req.locations = some [] →
      vrpHandler fl calculateDistance runVRPSolver fuel req
        = some (VrpResponse.badRequest "Locations are required")) ∧
    (∀ (l : Coord) (ls : List Coord) (capacities : List ℚ),
      req.locations = some (l :: ls) → req.vehicle_capacities = some capacities →
      (prepareVrpInput calculateDistance req (l :: ls)).vehicle_capacities = capacities ∧
      (∀ error, vrpHandler fl calculateDistance runVRPSolver fuel req
        ≠ some (VrpResponse.badRequest error)) ∧
      (∀ result,
        runVRPSolver (prepareVrpInput calculateDistance req (l :: ls)) = Except.ok result →
        vrpHandler fl calculateDistance runVRPSolver fuel req
          = some (VrpResponse.external result)) ∧
      (∀ e, runVRPSolver (prepareVrpInput calculateDistance req (l :: ls)) = Except.error e →
        ¬ solveVRPGreedyThrows (prepareVrpInput calculateDistance req (l :: ls)) →
        (prepareVrpInput calculateDistance req (l :: ls)).distance_matrix.length < fuel →
        ∃ result,
          solveVRPGreedy fl fuel (prepareVrpInput calculateDistance req (l :: ls))
            = some result ∧
          vrpHandler fl calculateDistance runVRPSolver fuel req
            = some (VrpResponse.fallback result)) ∧
      (∀ e, runVRPSolver (prepareVrpInput calculateDistance req (l :: ls)) = Except.error e →
        solveVRPGreedyThrows (prepareVrpInput calculateDistance req (l :: ls)) →
        vrpHandler fl calculateDistance runVRPSolver fuel req
          = some VrpResponse.serverError)) := by
  refine ⟨?_, ?_⟩
  · rintro (h | h) <;> simp only [vrpHandler, h]
  · intro l ls capacities hloc hcap
    refine ⟨by simp [prepareVrpInput, hcap], ?_, ?_, ?_, ?_⟩
    · intro error
      simp only [vrpHandler, hloc]
      cases runVRPSolver (prepareVrpInput calculateDistance req (l :: ls)) with
      | ok result => simp
      | error e =>
        simp only []
        split
        · simp
        · cases solveVRPGreedy fl fuel (prepareVrpInput calculateDistance req (l :: ls)) <;>
            simp
    · intro result hrun
      simp only [vrpHandler, hloc, hrun]
    · intro e hrun hthrow hfuel
      obtain ⟨result, hres⟩ := solveVRPGreedy_terminates fl _ fuel hfuel
      refine ⟨result, hres, ?_⟩
      simp only [vrpHandler, hloc, hrun, if_neg hthrow, hres, Option.map_some']
    · intro e hrun hthrow
      simp only [vrpHandler, hloc, hrun, if_pos hthrow]

/-- Witness for the amended C26: the request with the capacity `-5` and the external
solver unavailable is answered with the result of `solveVRPGreedy`; the same request
without locations is answered with the 400 error. -/
theorem vrpHandler_no_capacity_check_witness :
    (∃ result,
      solveVRPGreedy roundDouble 4 (prepareVrpInput gridDistance negativeCapacityRequest
        [{ lat := 0, lng := 0 }, { lat := 1, lng := 0 }, { lat := 3, lng := 0 }])
        = some result ∧
      vrpHandler roundDouble gridDistance solverUnavailable 4 negativeCapacityRequest
        = some (VrpResponse.fallback result)) ∧
    vrpHandler roundDouble gridDistance solverUnavailable 4
        { negativeCapacityRequest with locations := some [] }
      = some (VrpResponse.badRequest "Locations are required") ∧
    vrpHandler roundDouble gridDistance solverUnavailable 4
        { negativeCapacityRequest with locations := none }
      = some (VrpResponse.badRequest "Locations are required") :=
  ⟨((vrpHandler_no_capacity_check roundDouble gridDistance solverUnavailable 4
      negativeCapacityRequest).2 { lat := 0, lng := 0 }
      [{ lat := 1, lng := 0 }, { lat := 3, lng := 0 }] [-5] rfl rfl).2.2.2.1
      "spawn python3 ENOENT" rfl (by decide!) (by decide!),
   (vrpHandler_no_capacity_check roundDouble gridDistance solverUnavailable 4
      { negativeCapacityRequest with locations := some [] }).1 (Or.inr rfl),
   (vrpHandler_no_capacity_check roundDouble gridDistance solverUnavailable 4
      { negativeCapacityRequest with locations := none }).1 (Or.inl rfl)⟩

theorem filterMap_getElem?_of_isSome {α β : Type} (F : α → Option β) (l : List α)
    (h : ∀ x ∈ l, (F x).isSome = true) :
    (l.filterMap F).length = l.length ∧
      ∀ k : Nat, (l.filterMap F)[k]? = (l[k]?).bind F := by
  induction l with
  | nil => simp
  | cons a t ih =>
    obtain ⟨b, hb⟩ := Option.isSome_iff_exists.mp (h a (List.mem_cons_self a t))
    obtain ⟨ihl, ihk⟩ := ih (fun x hx => h x (List.mem_cons_of_mem a hx))
    rw [List.filterMap_cons_some hb]
    refine ⟨by simp [ihl], ?_⟩
    intro k
    cases k with
    | zero => simp [hb]
    | succ k => simpa using ihk k

theorem optimizeOrder_route (calculateDistance : ℚ → ℚ → ℚ → ℚ → Option ℚ) (origin d : Coord)
    (ds : List Coord) (return_to_origin : Bool) (fuel : Nat) (order : List Nat)
    (total : Option ℚ)
    (hrun : orderRoute calculateDistance origin (d :: ds) return_to_origin fuel
      = some (order, total)) :
    ∃ body, optimizeOrder calculateDistance fuel
        { origin := some origin, destinations := some (d :: ds),
          return_to_origin := return_to_origin } = some (OrderResponse.ok body) ∧
      body.optimized_route = order.filterMap fun idx =>
        (origin :: d :: ds)[idx]?.map fun c =>
          ({ lat := c.lat, lng := c.lng, order := order.indexOf idx } : OrderedLoc) := by
  simp only [optimizeOrder, hrun, Option.map_some']
  exact ⟨_, rfl, rfl⟩

/-- C29: in the optimize-order response (finite distances, at least one destination),
the element at position `k < n` of `optimized_route` is the location at index `route[k]`
and carries `order = k`; with `return_to_origin` the route has one more element, at
position `n`, which is the origin with `order = 0`. -/
theorem optimizeOrder_route_mapping (calculateDistance : ℚ → ℚ → ℚ → ℚ → Option ℚ)
    (origin : Coord) (destinations : List Coord) (return_to_origin : Bool) (fuel : Nat)
    (hm : 1 ≤ destinations.length)
    (hfin : FiniteDistances calculateDistance (origin :: destinations))
    (hfuel : destinations.length ≤ fuel) :
    ∃ order total body,
      orderRoute calculateDistance origin destinations return_to_origin fuel
        = some (order, total) ∧
      optimizeOrder calculateDistance fuel
        { origin := some origin, destinations := some destinations,
          return_to_origin := return_to_origin } = some (OrderResponse.ok body) ∧
      body.optimized_route.length = order.length ∧
      (∀ k, k < destinations.length + 1 → ∃ idx c,
        order[k]? = some idx ∧ (origin :: destinations)[idx]? = some c ∧
        body.optimized_route[k]? = some { lat := c.lat, lng := c.lng, order := k }) ∧
      (return_to_origin = true →
        body.optimized_route.length = destinations.length + 2 ∧
        order[destinations.length + 1]? = some 0 ∧
        body.optimized_route[destinations.length + 1]?
          = some { lat := origin.lat, lng := origin.lng, order := 0 }) := by
  obtain ⟨s, hinv, hlen, hrun⟩ :=
    orderRoute_run calculateDistance origin destinations return_to_origin fuel hfin hfuel
  cases destinations with
  | nil => simp at hm
  | cons d ds =>
    have hhead0 : ∃ rest, s.route = 0 :: rest := by
      have := hinv.hhead
      cases hr : s.route with
      | nil => rw [hr] at this; simp at this
      | cons a t =>
        rw [hr] at this
        simp only [List.head?_cons, Option.some.injEq] at this
        exact ⟨t, by rw [this]⟩
    have hidx0 : ∀ tl : List Nat, List.indexOf 0 (s.route ++ tl) = 0 := by
      intro tl
      obtain ⟨rest, hrest⟩ := hhead0
      rw [hrest, List.cons_append, List.indexOf_cons_self]
    have hltall : ∀ x ∈ s.route ++ (if return_to_origin then [0] else []),
        x < (origin :: d :: ds).length := by
      intro x hx
      rw [List.mem_append] at hx
      rcases hx with hx | hx
      · have := hinv.hlt x hx
        simpa using this
      · cases return_to_origin <;> simp at hx
        subst hx
        simp
    have hF := filterMap_getElem?_of_isSome
      (fun idx => (origin :: d :: ds)[idx]?.map fun c =>
        ({ lat := c.lat, lng := c.lng,
           order := (s.route ++ (if return_to_origin then [0] else [])).indexOf idx }
          : OrderedLoc))
      (s.route ++ (if return_to_origin then [0] else []))
      (by
        intro x hx
        have hx' := hltall x hx
        simp only [Option.isSome_map']
        rw [List.getElem?_eq_getElem hx']
        rfl)
    obtain ⟨body, hbody, hopt⟩ := optimizeOrder_route calculateDistance origin d ds
      return_to_origin fuel _ _ hrun
    rw [← hopt] at hF
    obtain ⟨hFlen, hFk⟩ := hF
    refine ⟨_, _, body, hrun, hbody, hFlen, ?_, ?_⟩
    · intro k hk
      have hk' : k < s.route.length := by rw [hlen]; exact hk
      have hmem : s.route[k] ∈ s.route := List.getElem_mem hk'
      have hlt : s.route[k] < (origin :: d :: ds).length := by
        have := hinv.hlt _ hmem
        simpa using this
      have hord : (s.route ++ (if return_to_origin then [0] else []))[k]? = some s.route[k] := by
        rw [List.getElem?_append_left hk', List.getElem?_eq_getElem hk']
      refine ⟨s.route[k], (origin :: d :: ds)[s.route[k]], hord,
        List.getElem?_eq_getElem hlt, ?_⟩
      rw [hFk k, hord]
      simp only [Option.some_bind, List.getElem?_eq_getElem hlt, Option.map_some']
      rw [List.indexOf_append_of_mem hmem, List.indexOf_getElem hinv.hnodup k hk']
    · intro hret
      subst hret
      have hord : (s.route ++ (if true = true then [0] else []))[(d :: ds).length + 1]?
          = some 0 := by
        rw [if_pos rfl, List.getElem?_append_right (by rw [hlen])]
        simp [hlen]
      refine ⟨?_, hord, ?_⟩
      · rw [hFlen]; simp [hlen]
      · rw [hFk _, hord]
        simp only [Option.some_bind, hidx0]
        rfl

/-- Witness for C29: the example request, with the round trip. -/
theorem optimizeOrder_route_mapping_witness :
    ∃ order total body,
      orderRoute gridDistance exampleOrigin exampleDestinations true 3 = some (order, total) ∧
      optimizeOrder gridDistance 3
        { origin := some exampleOrigin, destinations := some exampleDestinations,
          return_to_origin := true } = some (OrderResponse.ok body) ∧
      body.optimized_route.length = order.length ∧
      (∀ k, k < exampleDestinations.length + 1 → ∃ idx c,
        order[k]? = some idx ∧ (exampleOrigin :: exampleDestinations)[idx]? = some c ∧
        body.optimized_route[k]? = some { lat := c.lat, lng := c.lng, order := k }) ∧
      (true = true →
        body.optimized_route.length = exampleDestinations.length + 2 ∧
        order[exampleDestinations.length + 1]? = some 0 ∧
        body.optimized_route[exampleDestinations.length + 1]?
          = some { lat := exampleOrigin.lat, lng := exampleOrigin.lng, order := 0 }) :=
  optimizeOrder_route_mapping gridDistance exampleOrigin exampleDestinations true 3
    (by decide) (fun _ _ _ _ => ⟨_, rfl⟩) (by decide)

theorem nnLoop_exact (n : Nat) (matrix : Nat → Nat → Option ℚ) (hfin : FiniteMatrix n matrix)
    (k : Nat) (s : NNState) (hinv : NNInv n matrix s) (hcard : s.visited.card + k = n) :
    (∀ fuel, fuel < k → nnLoop n matrix fuel s = none) ∧
    (∀ fuel, k ≤ fuel → nnLoop n matrix fuel s = some ((nnIter n matrix)^[k] s)) ∧
    (∀ i, i < k → ((nnIter n matrix)^[i] s).visited.card = s.visited.card + i ∧
      ∃ d j, nnScan n matrix ((nnIter n matrix)^[i] s).visited
        ((nnIter n matrix)^[i] s).current = (d, some j)) ∧
    ((nnIter n matrix)^[k] s).visited.card = n := by
  induction k generalizing s with
  | zero =>
    refine ⟨fun fuel h => absurd h (Nat.not_lt_zero fuel), ?_, ?_, by simpa using hcard⟩
    · intro fuel _
      rw [Function.iterate_zero, id]
      exact nnLoop_done n matrix fuel s (by omega)
    · intro i h
      exact absurd h (Nat.not_lt_zero i)
  | succ k ih =>
    have hlt : s.visited.card < n := by omega
    obtain ⟨hinv', hcard'⟩ := nnIter_inv n matrix hfin s hinv hlt
    obtain ⟨ih1, ih2, ih3, ih4⟩ := ih (nnIter n matrix s) hinv' (by omega)
    refine ⟨?_, ?_, ?_, ?_⟩
    · intro fuel hf
      cases fuel with
      | zero => simp [nnLoop, hlt]
      | succ f =>
        simp only [nnLoop, hlt, if_true]
        exact ih1 f (by omega)
    · intro fuel hf
      cases fuel with
      | zero => omega
      | succ f =>
        simp only [nnLoop, hlt, if_true, Function.iterate_succ_apply]
        exact ih2 f (by omega)
    · intro i hi
      cases i with
      | zero =>
        refine ⟨by simp, ?_⟩
        simp only [Function.iterate_zero, id]
        rcases hscan : nnScan n matrix s.visited s.current with ⟨d, j⟩
        cases j with
        | some j => exact ⟨d, j, rfl⟩
        | none =>
          have : nnIter n matrix s = s := by simp only [nnIter, hscan]
          rw [this] at hcard'
          omega
      | succ i =>
        simp only [Function.iterate_succ_apply]
        obtain ⟨h1, h2⟩ := ih3 i (by omega)
        exact ⟨by rw [h1, hcard']; omega, h2⟩
    · simp only [Function.iterate_succ_apply]
      exact ih4

theorem selections_append (routes : List VehicleRoute) (r : VehicleRoute) :
    selections (routes ++ [r]) = selections routes + (r.route.length - 2) := by
  simp [selections]

theorem vehInv_card (n depot : Nat) (visited0 : Finset Nat) (s : VehState)
    (hinv : VehInv n depot visited0 s) :
    s.visited.card = visited0.card + (s.route.length - 1) ∧ 1 ≤ s.route.length := by
  have hne : s.route ≠ [] := by
    intro h; have := hinv.hhead; rw [h] at this; simp at this
  have hdisj : Disjoint visited0 s.route.tail.toFinset := by
    rw [Finset.disjoint_left]
    intro x hx hx'
    exact (hinv.hnew x (List.mem_toFinset.mp hx')).1 hx
  refine ⟨?_, List.length_pos.mpr hne⟩
  rw [hinv.hvis, Finset.card_union_of_disjoint hdisj, List.toFinset_card_of_nodup hinv.hnodup,
    List.length_tail]

theorem solveVRPGreedy_selections (fl : ℚ → ℚ) (input : VRPInput) (fuel : Nat)
    (hfuel : input.distance_matrix.length < fuel) :
    ∃ result, solveVRPGreedy fl fuel input = some result ∧
      (¬ solveVRPGreedyThrows input →
        selections result.routes ≤ input.distance_matrix.length - 1) := by
  obtain ⟨st', hst', ⟨hQ1, hQ2⟩, hlen⟩ := vehiclesLoop_run fl input fuel
    (fun st => (∀ x ∈ st.1, x = input.depot ∨ x < input.distance_matrix.length) ∧
      selections st.2 + 1 = st.1.card)
    (List.range input.num_vehicles) (by
      intro st v _ hQ
      obtain ⟨s', hinv, _, hrun⟩ := vehicleRun_run fl input fuel st.1 v
        (VehInv input.distance_matrix.length input.depot st.1)
        (fun s d j hs hscan => vehInv_step fl _ _ _ _ _ _ s d j hs hscan)
        (vehInv_init _ _ _) hfuel
      refine ⟨_, _, hrun, ?_, ?_⟩
      · intro x hx
        simp only [hinv.hvis, Finset.mem_union, List.mem_toFinset] at hx
        rcases hx with hx | hx
        · exact hQ.1 x hx
        · exact Or.inr (hinv.hnew x hx).2
      · obtain ⟨hc, h1⟩ := vehInv_card _ _ _ _ hinv
        simp only [selections_append, List.length_append, List.length_singleton]
        rw [hc, ← hQ.2]
        omega) ({input.depot}, []) ⟨by simp, by simp [selections]⟩
  refine ⟨_, solveVRPGreedy_of_loop fl input fuel st' hst', ?_⟩
  intro hthrow
  simp only []
  by_cases hd : input.depot < input.distance_matrix.length
  · have hsub : st'.1 ⊆ Finset.range input.distance_matrix.length := by
      intro x hx
      rcases hQ1 x hx with h | h
      · rw [h]; exact Finset.mem_range.mpr hd
      · exact Finset.mem_range.mpr h
    have := Finset.card_le_card hsub
    rw [Finset.card_range] at this
    omega
  · have hnv : input.num_vehicles = 0 := by
      by_contra h
      exact hthrow ⟨Nat.pos_of_ne_zero h, not_lt.mp hd⟩
    rw [hnv] at hlen
    have : st'.2 = [] := List.length_eq_zero.mp (by simpa using hlen)
    rw [this]
    simp [selections]

/-- C28: for an optimize-order request with `n ≥ 2` locations whose pairwise distances
are finite numbers, the loop `while (visited.size < n)` is still running after fewer than
`n - 1` passes and has ended after `n - 1` passes; each of these passes starts with
`visited.size < n` and its scan ends with `nearest ≠ -1`, so it selects a stop.
`solveVRPGreedy` ends on every input (each vehicle's loop within `n + 1` passes), and when
it does not throw the vehicles select at most `n - 1` stops in total.
This holds whatever the rounding `fl` of the additions of loads is, in particular for
the rounding to doubles. -/
theorem optimizeOrder_terminates (fl : ℚ → ℚ) (calculateDistance : ℚ → ℚ → ℚ → ℚ → Option ℚ)
    (origin : Coord) (destinations : List Coord) (hm : 1 ≤ destinations.length)
    (hfin : FiniteDistances calculateDistance (origin :: destinations)) :
    (∀ fuel, fuel < destinations.length →
      nnLoop (destinations.length + 1)
        (cellOf (buildMatrix calculateDistance (origin :: destinations))) fuel nnInit = none) ∧
    (∀ fuel, destinations.length ≤ fuel →
      nnLoop (destinations.length + 1)
        (cellOf (buildMatrix calculateDistance (origin :: destinations))) fuel nnInit
        = some ((nnIter (destinations.length + 1)
            (cellOf (buildMatrix calculateDistance (origin :: destinations))))^[destinations.length]
              nnInit)) ∧
    (∀ i, i < destinations.length →
      ((nnIter (destinations.length + 1)
        (cellOf (buildMatrix calculateDistance (origin :: destinations))))^[i]
          nnInit).visited.card = i + 1 ∧
      ∃ d j, nnScan (destinations.length + 1)
        (cellOf (buildMatrix calculateDistance (origin :: destinations)))
        ((nnIter (destinations.length + 1)
          (cellOf (buildMatrix calculateDistance (origin :: destinations))))^[i] nnInit).visited
        ((nnIter (destinations.length + 1)
          (cellOf (buildMatrix calculateDistance (origin :: destinations))))^[i] nnInit).current
        = (d, some j)) ∧
    ((nnIter (destinations.length + 1)
      (cellOf (buildMatrix calculateDistance (origin :: destinations))))^[destinations.length]
        nnInit).visited.card = destinations.length + 1 ∧
    (∀ (input : VRPInput) (fuel : Nat), input.distance_matrix.length < fuel →
      ∃ result, solveVRPGreedy fl fuel input = some result ∧
        (¬ solveVRPGreedyThrows input →
          selections result.routes ≤ input.distance_matrix.length - 1)) := by
  have hfinM := finiteMatrix_buildMatrix calculateDistance (origin :: destinations) hfin
  simp only [List.length_cons] at hfinM
  obtain ⟨h1, h2, h3, h4⟩ := nnLoop_exact (destinations.length + 1)
    (cellOf (buildMatrix calculateDistance (origin :: destinations))) hfinM
    destinations.length nnInit (nnInit_inv _ _ (by omega)) (by simp [nnInit]; omega)
  refine ⟨h1, h2, ?_, h4, solveVRPGreedy_selections fl⟩
  intro i hi
  obtain ⟨hc, hs⟩ := h3 i hi
  refine ⟨?_, hs⟩
  rw [hc]
  simp [nnInit]
  omega

/-- Witness for C28: the example request with two destinations: no result with one pass,
a result with two. -/
theorem optimizeOrder_terminates_witness :
    nnLoop (exampleDestinations.length + 1)
      (cellOf (buildMatrix gridDistance (exampleOrigin :: exampleDestinations))) 1 nnInit
      = none ∧
    nnLoop (exampleDestinations.length + 1)
      (cellOf (buildMatrix gridDistance (exampleOrigin :: exampleDestinations))) 2 nnInit
      = some ((nnIter (exampleDestinations.length + 1)
          (cellOf (buildMatrix gridDistance (exampleOrigin :: exampleDestinations))))^[2]
            nnInit) :=
  ⟨(optimizeOrder_terminates roundDouble gridDistance exampleOrigin exampleDestinations (by decide)
      (fun _ _ _ _ => ⟨_, rfl⟩)).1 1 (by decide),
   (optimizeOrder_terminates roundDouble gridDistance exampleOrigin exampleDestinations (by decide)
      (fun _ _ _ _ => ⟨_, rfl⟩)).2.1 2 (by decide)⟩

theorem vrpCell_eq_cellOf : vrpCell = cellOf := rfl

theorem scanUpTo_congr (ok ok' : Nat → Bool) (row : Nat → Option ℚ) (n : Nat)
    (h : ∀ j, j < n → ok j = ok' j) : scanUpTo ok row n = scanUpTo ok' row n := by
  simp only [scanUpTo]
  apply List.foldl_ext
  intro acc j hj
  simp only [scanStep, h j (List.mem_range.mp hj)]

/-- When the capacity test succeeds for every unvisited stop, the vehicle's scan is the
nearest-neighbour scan. -/
theorem vrpScan_eq_nnScan (fl : ℚ → ℚ) (n : Nat) (matrix : Nat → Nat → Option ℚ)
    (demands : List ℚ) (capacity : ℚ) (s : VehState)
    (hfit : ∀ j, j < n → j ∉ s.visited →
      fl (s.currentLoad + demandOr1 demands j) ≤ capacity) :
    vrpScan fl n matrix demands (some capacity) s
      = nnScan n matrix s.visited s.currentNode := by
  rw [vrpScan_eq, nnScan_eq]
  apply scanUpTo_congr
  intro j hj
  by_cases hv : j ∈ s.visited
  · simp [vrpOk, hv]
  · simp [vrpOk, hv, fitsCapacity, hfit j hj hv]

theorem nnIter_of_scan (n : Nat) (matrix : Nat → Nat → Option ℚ) (s : NNState) (d : Option ℚ)
    (j : Nat) (hscan : nnScan n matrix s.visited s.current = (d, some j)) :
    nnIter n matrix s
      = { visited := insert j s.visited, route := s.route ++ [j], current := j,
          totalDistance := jsAdd s.totalDistance d } := by
  simp only [nnIter, hscan]

theorem nnInv_full (n : Nat) (matrix : Nat → Nat → Option ℚ) (s : NNState)
    (hinv : NNInv n matrix s) (hcard : s.visited.card = n) : s.visited = Finset.range n := by
  apply Finset.eq_of_subset_of_card_le
  · intro x hx
    rw [hinv.hvis] at hx
    exact Finset.mem_range.mpr (hinv.hlt x (List.mem_toFinset.mp hx))
  · simp [hcard]

/-- The vehicle's loop follows the nearest-neighbour loop pass by pass. -/
theorem vehicleLoop_sim (fl : ℚ → ℚ) (n : Nat) (matrix : Nat → Nat → Option ℚ)
    (demands : List ℚ) (capacity : ℚ) (hfin : FiniteMatrix n matrix)
    (hnonneg : ∀ j, 0 ≤ demandOr1 demands j)
    (hsums : ∀ S ∈ (Finset.range n \ {0}).powerset, ∀ j ∈ (Finset.range n \ {0}) \ S,
      fl (∑ i ∈ S, demandOr1 demands i + demandOr1 demands j)
        = ∑ i ∈ S, demandOr1 demands i + demandOr1 demands j)
    (k : Nat) (sn : NNState) (sv : VehState) (hinv : NNInv n matrix sn)
    (hsl : sv.currentLoad = ∑ i ∈ sn.visited.erase 0, demandOr1 demands i)
    (hvis : sv.visited = sn.visited) (hroute : sv.route = sn.route)
    (hcur : sv.currentNode = sn.current)
    (hload : sv.currentLoad + ∑ j ∈ Finset.range n \ sn.visited, demandOr1 demands j
      ≤ capacity)
    (hcard : sn.visited.card + k = n) (fuel : Nat) (hfuel : k < fuel) :
    ∃ sv', vehicleLoop fl n matrix demands (some capacity) fuel sv = some sv' ∧
      sv'.route = ((nnIter n matrix)^[k] sn).route ∧
      sv'.visited = Finset.range n := by
  induction k generalizing sn sv fuel with
  | zero =>
    cases fuel with
    | zero => omega
    | succ fuel =>
      have hfull := nnInv_full n matrix sn hinv (by omega)
      have hspec := vrpScan_spec fl n matrix demands (some capacity) sv
      have hnone : (vrpScan fl n matrix demands (some capacity) sv).2 = none := by
        rcases hscan : vrpScan fl n matrix demands (some capacity) sv with ⟨bd, bj⟩
        rw [hscan] at hspec
        cases bj with
        | none => rfl
        | some j =>
          cases bd with
          | none => simp [ScanSpec] at hspec
          | some d =>
            simp only [ScanSpec] at hspec
            have hjv := ((vrpOk_iff fl demands (some capacity) sv j).mp hspec.2.1).1
            rw [hvis, hfull] at hjv
            exact absurd (Finset.mem_range.mpr hspec.1) hjv
      refine ⟨sv, by simp only [vehicleLoop, hnone], by simpa using hroute, ?_⟩
      rw [hvis, hfull]
  | succ k ih =>
    cases fuel with
    | zero => omega
    | succ fuel =>
      have hlt : sn.visited.card < n := by omega
      obtain ⟨hinv', hcard'⟩ := nnIter_inv n matrix hfin sn hinv hlt
      rcases hscan : nnScan n matrix sn.visited sn.current with ⟨d, j⟩
      cases j with
      | none =>
        have : nnIter n matrix sn = sn := by simp only [nnIter, hscan]
        rw [this] at hcard'
        omega
      | some j =>
        have hiter := nnIter_of_scan n matrix sn d j hscan
        have h0v : (0 : ℕ) ∈ sn.visited := by
          rw [hinv.hvis, List.mem_toFinset]
          have hh := hinv.hhead
          cases hr : sn.route with
          | nil => rw [hr] at hh; simp at hh
          | cons a t =>
            rw [hr] at hh
            simp only [List.head?_cons, Option.some.injEq] at hh
            rw [hh]
            exact List.mem_cons_self 0 t
        have hkey : ∀ i, i < n → i ∉ sn.visited →
            fl (sv.currentLoad + demandOr1 demands i)
              = sv.currentLoad + demandOr1 demands i := by
          intro i hi hiv
          rw [hsl]
          apply hsums
          · rw [Finset.mem_powerset]
            intro x hx
            rw [Finset.mem_erase, hinv.hvis, List.mem_toFinset] at hx
            simp only [Finset.mem_sdiff, Finset.mem_range, Finset.mem_singleton]
            exact ⟨hinv.hlt x hx.2, hx.1⟩
          · simp only [Finset.mem_sdiff, Finset.mem_range, Finset.mem_singleton,
              Finset.mem_erase, not_and]
            exact ⟨⟨hi, fun h => hiv (h ▸ h0v)⟩, fun _ => hiv⟩
        have hvscan : vrpScan fl n matrix demands (some capacity) sv = (d, some j) := by
          rw [vrpScan_eq_nnScan fl n matrix demands capacity sv (by
              intro i hi hiv
              rw [hvis] at hiv
              rw [hkey i hi hiv]
              have hmem : i ∈ Finset.range n \ sn.visited := by simp [hi, hiv]
              have hle : demandOr1 demands i
                  ≤ ∑ x ∈ Finset.range n \ sn.visited, demandOr1 demands x :=
                Finset.single_le_sum (fun x _ => hnonneg x) hmem
              linarith),
            hvis, hcur, hscan]
        have hjmem : j ∈ (nnIter n matrix sn).route := by rw [hiter]; simp
        have hjn : j < n := hinv'.hlt j hjmem
        have hjv : j ∉ sn.visited := by
          have hnd := hinv'.hnodup
          rw [hiter] at hnd
          rw [List.nodup_append] at hnd
          rw [hinv.hvis, List.mem_toFinset]
          intro hmem
          exact hnd.2.2 hmem (List.mem_singleton_self j)
        have hsum : ∑ i ∈ Finset.range n \ sn.visited, demandOr1 demands i
            = demandOr1 demands j
              + ∑ i ∈ Finset.range n \ insert j sn.visited, demandOr1 demands i := by
          have hmem : j ∈ Finset.range n \ sn.visited := by simp [hjn, hjv]
          have herase : Finset.range n \ insert j sn.visited
              = (Finset.range n \ sn.visited).erase j := by
            ext x
            simp only [Finset.mem_sdiff, Finset.mem_insert, Finset.mem_erase, Finset.mem_range]
            tauto
          rw [herase, Finset.add_sum_erase _ _ hmem]
        obtain ⟨sv', hsv', hr', hv'⟩ := ih (nnIter n matrix sn) (vrpPush fl demands sv j) hinv'
          (by
            rw [hiter]
            simp only [vrpPush]
            rw [hkey j hjn hjv, hsl, Finset.erase_insert_of_ne (fun h => hjv (by rw [h]; exact h0v)),
              Finset.sum_insert (fun h => hjv (Finset.mem_of_mem_erase h))]
            ring)
          (by rw [hiter]; simp only [vrpPush, hvis])
          (by rw [hiter]; simp only [vrpPush, hroute])
          (by rw [hiter]; simp only [vrpPush])
          (by
            rw [hiter]
            simp only [vrpPush]
            rw [hkey j hjn hjv]
            rw [hsum] at hload
            linarith)
          (by omega) fuel (by omega)
        refine ⟨sv', ?_, ?_, hv'⟩
        · simp only [vehicleLoop, hvscan]
          exact hsv'
        · rw [hr', Function.iterate_succ_apply]

theorem capacityOf_single (capacity : ℚ) : capacityOf [capacity] 0 = some capacity := by
  by_cases h : capacity = 0 <;> simp [capacityOf, h]

theorem jsAdd_zero_left (x : Option ℚ) : jsAdd (some 0) x = x := by
  cases x <;> simp [jsAdd]

/-- C27 (counterexample): two inputs.  With the stops at the positions 0, 3, 2, 1 of a
line, the demands 2.4, 2.1, 2.2 and the capacity 6.7, which is exactly the sum of these
three doubles, the vehicle takes the stops 3 and 2, its load is the double
4.300000000000001 of `2.2 + 2.1`, and `4.300000000000001 + 2.4 <= 6.7` is false: the
route is `[0, 3, 2, 0]` and stop 1 is unvisited, while the nearest-neighbour loop gives
`[0, 3, 2, 1, 0]`.  With the demands 5 and -4 and the capacity 1, their sum, stop 1, the
nearest, does not fit the empty vehicle (`0 + 5 <= 1` is false), so the vehicle goes to
stop 2 first: its route is `[0, 2, 1, 0]` while the nearest-neighbour loop gives
`[0, 1, 2, 0]`. -/
theorem solveVRPGreedy_single_counterexample :
    (∀ d ∈ roundedSumInput.demands, 0 ≤ d) ∧
    ∑ j ∈ Finset.range roundedSumInput.distance_matrix.length \ {0},
        demandOr1 roundedSumInput.demands j
      = (7543529375845581 : ℚ) / 1125899906842624 ∧
    roundedSumInput.vehicle_capacities = [(7543529375845581 : ℚ) / 1125899906842624] ∧
    nearestNeighbour 4 (cellOf roundedSumInput.distance_matrix) true 5
      = some ([0, 3, 2, 1, 0], some 6) ∧
    solveVRPGreedy roundDouble 5 roundedSumInput
      = some { routes := [{ vehicle := 0, route := [0, 3, 2, 0],
                            load := (1210342399855821 : ℚ) / 281474976710656,
                            distance := some 4 }]
               total_distance := some 4
               solver := "greedy_fallback"
               unvisited := [1] } ∧
    ∑ j ∈ Finset.range deliveryPickupInput.distance_matrix.length \ {0},
        demandOr1 deliveryPickupInput.demands j ≤ 1 ∧
    nearestNeighbour 3 (cellOf deliveryPickupInput.distance_matrix) true 4
      = some ([0, 1, 2, 0], some 4) ∧
    solveVRPGreedy roundDouble 4 deliveryPickupInput
      = some { routes := [{ vehicle := 0, route := [0, 2, 1, 0], load := 1,
                            distance := some 4 }]
               total_distance := some 4
               solver := "greedy_fallback"
               unvisited := [] } := by
  decide!

/-- C27 (amended): for a non-empty square matrix with finite entries and non-negative
demands whose sums are added without rounding error (for every set `S` of non-depot stops
and every further stop `j`, `fl` keeps the sum of the effective demands of `S` plus that
of `j`, as for integers below 2^53), `solveVRPGreedy` called with depot 0, one vehicle
and a single capacity at least the sum of the effective demands (`demands[j] || 1`) of
the non-depot stops does not throw and returns exactly one route, equal to the order of
the optimize-order nearest-neighbour loop on the same matrix with
`return_to_origin = true`, with the same unrounded distance, and an empty `unvisited`
list. -/
theorem solveVRPGreedy_single_vehicle (fl : ℚ → ℚ) (matrix : List (List (Option ℚ)))
    (demands : List ℚ) (capacity : ℚ) (fuel : Nat) (hn : 0 < matrix.length)
    (hfin : FiniteMatrix matrix.length (cellOf matrix))
    (hnonneg : ∀ d ∈ demands, 0 ≤ d)
    (hsums : ∀ S ∈ (Finset.range matrix.length \ {0}).powerset,
      ∀ j ∈ (Finset.range matrix.length \ {0}) \ S,
        fl (∑ i ∈ S, demandOr1 demands i + demandOr1 demands j)
          = ∑ i ∈ S, demandOr1 demands i + demandOr1 demands j)
    (hcap : ∑ j ∈ Finset.range matrix.length \ {0}, demandOr1 demands j ≤ capacity)
    (hfuel : matrix.length < fuel) :
    ∃ order total load,
      nearestNeighbour matrix.length (cellOf matrix) true fuel = some (order, total) ∧
      ¬ solveVRPGreedyThrows
        { distance_matrix := matrix, demands := demands, vehicle_capacities := [capacity],
          num_vehicles := 1, depot := 0 } ∧
      solveVRPGreedy fl fuel
        { distance_matrix := matrix, demands := demands, vehicle_capacities := [capacity],
          num_vehicles := 1, depot := 0 }
        = some { routes := [{ vehicle := 0, route := order, load := load, distance := total }]
                 total_distance := round1 total
                 solver := "greedy_fallback"
                 unvisited := [] } := by
  have hinit := nnInit_inv matrix.length (cellOf matrix) hn
  have hcard0 : nnInit.visited.card + (matrix.length - 1) = matrix.length := by
    simp [nnInit]; omega
  obtain ⟨_, hexact, _, _⟩ := nnLoop_exact matrix.length (cellOf matrix) hfin
    (matrix.length - 1) nnInit hinit hcard0
  obtain ⟨s, hs, hinv, _⟩ := nnLoop_run matrix.length (cellOf matrix) hfin fuel nnInit hinit
    (by simp [nnInit]; omega)
  have hseq : s = (nnIter matrix.length (cellOf matrix))^[matrix.length - 1] nnInit := by
    have := hexact fuel (by omega)
    rw [hs] at this
    exact Option.some.inj this
  obtain ⟨sv', hsv', hroute', hvis'⟩ := vehicleLoop_sim fl matrix.length (cellOf matrix) demands
    capacity hfin (demandOr1_nonneg demands hnonneg) hsums (matrix.length - 1) nnInit
    (vehInit 0 {0}) hinit (by simp [vehInit, nnInit]) rfl rfl rfl
    (by simpa [vehInit, nnInit] using hcap) hcard0 fuel (by omega)
  rw [← hseq] at hroute'
  have hdist : calculateRouteDistance (s.route ++ [0]) (cellOf matrix)
      = jsAdd s.totalDistance (cellOf matrix s.current 0) := by
    rw [calculateRouteDistance_append (cellOf matrix) s.route s.current 0 hinv.hlast,
      ← hinv.htotal]
  refine ⟨s.route ++ [0], jsAdd s.totalDistance (cellOf matrix s.current 0),
    sv'.currentLoad, ?_, ?_, ?_⟩
  · simp [nearestNeighbour, hs, nnReturn]
  · intro h
    have := h.2
    simp only at this
    omega
  · have hrun : vehicleRun fl
        { distance_matrix := matrix, demands := demands, vehicle_capacities := [capacity],
          num_vehicles := 1, depot := 0 } fuel {0} 0
        = some (sv'.visited,
            { vehicle := 0, route := sv'.route ++ [0], load := sv'.currentLoad,
              distance := calculateRouteDistance (sv'.route ++ [0]) (cellOf matrix) }) := by
      simp only [vehicleRun, capacityOf_single, vrpCell_eq_cellOf]
      simp only [vehInit] at hsv'
      rw [hsv']
      rfl
    have hloop : vehiclesLoop fl
        { distance_matrix := matrix, demands := demands, vehicle_capacities := [capacity],
          num_vehicles := 1, depot := 0 } fuel (List.range 1) ({0}, [])
        = some (sv'.visited,
            [{ vehicle := 0, route := sv'.route ++ [0], load := sv'.currentLoad,
               distance := calculateRouteDistance (sv'.route ++ [0]) (cellOf matrix) }]) := by
      have : List.range 1 = [0] := rfl
      rw [this]
      simp only [vehiclesLoop, hrun, List.nil_append]
    have hunv : (List.range matrix.length).filter
        (fun i => decide (i ∉ sv'.visited ∧ i ≠ 0)) = [] := by
      rw [List.filter_eq_nil_iff]
      intro i hi
      rw [hvis']
      simp [List.mem_range.mp hi]
    rw [solveVRPGreedy_of_loop fl _ fuel _ hloop]
    simp only [List.foldl_cons, List.foldl_nil, jsAdd_zero_left, hroute', hdist, hunv]

/-- Witness for the amended C27: three stops on a line with the demands 2 and 3 and the
capacity 5. -/
theorem solveVRPGreedy_single_vehicle_witness :
    ∃ order total load,
      nearestNeighbour (lineMatrix 3).length (cellOf (lineMatrix 3)) true 4
        = some (order, total) ∧
      ¬ solveVRPGreedyThrows
        { distance_matrix := lineMatrix 3, demands := [0, 2, 3], vehicle_capacities := [5],
          num_vehicles := 1, depot := 0 } ∧
      solveVRPGreedy roundDouble 4
        { distance_matrix := lineMatrix 3, demands := [0, 2, 3], vehicle_capacities := [5],
          num_vehicles := 1, depot := 0 }
        = some { routes := [{ vehicle := 0, route := order, load := load, distance := total }]
                 total_distance := round1 total
                 solver := "greedy_fallback"
                 unvisited := [] } :=
  solveVRPGreedy_single_vehicle roundDouble (lineMatrix 3) [0, 2, 3] 5 4 (by decide)
    (by
      intro i j hi hj
      have hi' : i < 3 := hi
      have hj' : j < 3 := hj
      interval_cases i <;> interval_cases j <;> exact ⟨_, rfl⟩)
    (by decide!) (by decide!) (by decide!) (by decide)

theorem smallAngleMath_ieee : IEEEMath smallAngleMath := by
  refine ⟨?_, ?_, ?_, ?_, ?_, ?_, ?_, ?_, ?_, ?_, ?_, ?_, ?_, ?_, ?_, ?_⟩
  · simp [smallAngleMath]
  · have h : ¬ ((1 : ℚ) ≤ 1 / 2 ^ 1075) := by
      rw [not_le, div_lt_iff₀ (by positivity)]
      have : (1 : ℚ) < 2 ^ 1075 := one_lt_pow₀ (by norm_num) (by norm_num)
      linarith
    simp only [smallAngleMath, abs_one, h, if_false]
  · intro x
    simp only [smallAngleMath, abs_neg]
    split <;> simp
  · intro x hx
    simp only [smallAngleMath]
    split
    · exact le_refl _
    · exact hx
  · intro x
    simp only [smallAngleMath]
    split
    · rw [abs_zero]; positivity
    · linarith [abs_nonneg x]
  · intro x hx
    simp only [smallAngleMath, hx, if_true]
  · simp only [smallAngleMath]; norm_num
  · simp only [smallAngleMath]; norm_num
  · simp [smallAngleMath]
  · intro x
    simp only [smallAngleMath, neg_sq, neg_div]
  · intro x
    simp only [smallAngleMath]
    have h1 : (0 : ℚ) < 1 + x ^ 2 := by positivity
    rw [abs_div, abs_of_pos h1, div_le_iff₀ h1]
    nlinarith [abs_nonneg x, sq_nonneg x]
  · simp [smallAngleMath]
  · simp [smallAngleMath]
  · intro x y h
    simp only [smallAngleMath] at h
    split at h
    · simp at h
    · split at h
      · simp only [Option.some.injEq] at h
        rw [← h]; norm_num
      · simp only [Option.some.injEq] at h
        rw [← h]
        linarith
  · simp [smallAngleMath]
  · intro y x _ _
    simp only [smallAngleMath]
    exact abs_nonneg y

theorem calculateDistance_self (M : JSMath) (hM : IEEEMath M) (lat lon : ℚ) :
    calculateDistance M lat lon lat lon = some 0 := by
  simp only [calculateDistance, sub_self, hM.fl_zero, zero_mul, zero_div, hM.sin_zero,
    mul_zero, add_zero, hM.sqrt_zero, sub_zero, hM.fl_one, hM.sqrt_one, hM.atan2_zero_one]

theorem calculateDistance_nonneg_of_some (M : JSMath) (hM : IEEEMath M)
    (lat1 lon1 lat2 lon2 e : ℚ) (h : calculateDistance M lat1 lon1 lat2 lon2 = some e) :
    0 ≤ e := by
  simp only [calculateDistance] at h
  split at h
  · rename_i y x hy hx
    simp only [Option.some.injEq] at h
    rw [← h]
    apply hM.fl_nonneg
    apply mul_nonneg (by norm_num)
    apply hM.fl_nonneg
    apply mul_nonneg (by norm_num)
    exact hM.atan2_nonneg y x (hM.sqrt_nonneg _ y hy) (hM.sqrt_nonneg _ x hx)
  · simp at h

theorem calculateDistance_eq_zero_of_close (M : JSMath) (hM : IEEEMath M)
    (lat1 lat2 lon : ℚ) (hclose : |lat2 - lat1| ≤ 1 / 2 ^ 600) :
    calculateDistance M lat1 lon lat2 lon = some 0 := by
  have hε : (0 : ℚ) ≤ 1 / 2 ^ 600 := by positivity
  have h1 : |M.fl (lat2 - lat1)| ≤ 2 * (1 / 2 ^ 600) :=
    le_trans (hM.fl_abs_le _) (by linarith)
  have h2 : |M.fl (M.fl (lat2 - lat1) * M.PI)| ≤ 16 * (1 / 2 ^ 600) := by
    refine le_trans (hM.fl_abs_le _) ?_
    rw [abs_mul, abs_of_nonneg hM.PI_nonneg]
    have := mul_le_mul h1 hM.PI_le hM.PI_nonneg (by linarith)
    linarith
  have h3 : |M.fl (M.fl (M.fl (lat2 - lat1) * M.PI) / 180)| ≤ 1 / 2 ^ 600 := by
    refine le_trans (hM.fl_abs_le _) ?_
    rw [abs_div, abs_of_pos (by norm_num : (0 : ℚ) < 180)]
    rw [show 2 * (|M.fl (M.fl (lat2 - lat1) * M.PI)| / 180)
      = |M.fl (M.fl (lat2 - lat1) * M.PI)| / 90 by ring]
    rw [div_le_iff₀ (by norm_num)]
    linarith
  have h4 : |M.fl (M.fl (M.fl (M.fl (lat2 - lat1) * M.PI) / 180) / 2)| ≤ 1 / 2 ^ 600 := by
    refine le_trans (hM.fl_abs_le _) ?_
    rw [abs_div, abs_of_pos (by norm_num : (0 : ℚ) < 2)]
    linarith
  have h5 := le_trans (hM.sin_abs_le _) h4
  have h6 : M.fl (M.sin (M.fl (M.fl (M.fl (M.fl (lat2 - lat1) * M.PI) / 180) / 2)) *
      M.sin (M.fl (M.fl (M.fl (M.fl (lat2 - lat1) * M.PI) / 180) / 2))) = 0 := by
    apply hM.fl_underflow
    rw [abs_mul]
    have := mul_le_mul h5 h5 (abs_nonneg _) hε
    refine le_trans this ?_
    rw [div_mul_div_comm, one_mul, ← pow_add]
    apply div_le_div_of_nonneg_left (by norm_num) (by positivity)
    exact pow_le_pow_right₀ (by norm_num) (by norm_num)
  simp only [calculateDistance, h6, sub_self, hM.fl_zero, zero_mul, zero_div, hM.sin_zero,
    mul_zero, add_zero, hM.sqrt_zero, sub_zero, hM.fl_one, hM.sqrt_one, hM.atan2_zero_one]

/-- C22: under the IEEE 754 and `Math` facts of `IEEEMath`, `calculateDistance` is
symmetric, `calculateDistance(a, b) = calculateDistance(b, a)` for all coordinates, and
`calculateDistance(a, a) = 0`. -/
theorem calculateDistance_symmetric (M : JSMath) (hM : IEEEMath M)
    (lat1 lon1 lat2 lon2 : ℚ) :
    calculateDistance M lat1 lon1 lat2 lon2 = calculateDistance M lat2 lon2 lat1 lon1 ∧
    calculateDistance M lat1 lon1 lat1 lon1 = some 0 := by
  refine ⟨?_, calculateDistance_self M hM lat1 lon1⟩
  have key : ∀ x y, M.fl (M.fl (M.fl (x - y) * M.PI) / 180)
      = -M.fl (M.fl (M.fl (y - x) * M.PI) / 180) := by
    intro x y
    rw [← neg_sub y x, hM.fl_neg, neg_mul, hM.fl_neg, neg_div, hM.fl_neg]
  have half : ∀ z, M.sin (M.fl (-z / 2)) = -M.sin (M.fl (z / 2)) := by
    intro z
    rw [neg_div, hM.fl_neg, hM.sin_neg]
  simp only [calculateDistance]
  rw [key lat1 lat2, key lon1 lon2,
    mul_comm (M.cos (M.fl (M.fl (lat2 * M.PI) / 180)))
      (M.cos (M.fl (M.fl (lat1 * M.PI) / 180)))]
  simp only [half, neg_mul_neg, mul_neg, neg_mul, hM.fl_neg, neg_neg]

/-- Witness for C22: the small-angle stand-in at the example coordinates. -/
theorem calculateDistance_symmetric_witness :
    calculateDistance smallAngleMath (130827 / 10000) (802707 / 10000) (129716 / 10000)
        (775946 / 10000)
      = calculateDistance smallAngleMath (129716 / 10000) (775946 / 10000) (130827 / 10000)
        (802707 / 10000) ∧
    calculateDistance smallAngleMath (130827 / 10000) (802707 / 10000) (130827 / 10000)
        (802707 / 10000) = some 0 :=
  calculateDistance_symmetric smallAngleMath smallAngleMath_ieee _ _ _ _

/-- C23 (counterexample): the points (0, 0) and (2^-600, 0) are distinct and within the
ranges, and their distance is exactly 0 under every arithmetic satisfying `IEEEMath`:
the square of `sin(dLat / 2)` is below half the smallest positive double and rounds
to 0. -/
theorem calculateDistance_zero_counterexample :
    ((0 : ℚ), (0 : ℚ)) ≠ ((1 : ℚ) / 2 ^ 600, (0 : ℚ)) ∧
    (-90 : ℚ) ≤ 1 / 2 ^ 600 ∧ (1 : ℚ) / 2 ^ 600 ≤ 90 ∧
    (∀ M : JSMath, IEEEMath M → calculateDistance M 0 0 (1 / 2 ^ 600) 0 = some 0) ∧
    calculateDistance smallAngleMath 0 0 (1 / 2 ^ 600) 0 = some 0 := by
  have hpos : (0 : ℚ) < 1 / 2 ^ 600 := by positivity
  have hle1 : (1 : ℚ) / 2 ^ 600 ≤ 1 := by
    rw [div_le_iff₀ (by positivity)]
    have : (1 : ℚ) ≤ 2 ^ 600 := one_le_pow₀ (by norm_num)
    linarith
  have hall : ∀ M : JSMath, IEEEMath M → calculateDistance M 0 0 (1 / 2 ^ 600) 0 = some 0 := by
    intro M hM
    apply calculateDistance_eq_zero_of_close M hM
    rw [sub_zero, abs_of_pos hpos]
  refine ⟨?_, by linarith, by linarith, hall, hall _ smallAngleMath_ieee⟩
  intro h
  have := (Prod.mk.injEq _ _ _ _ ▸ h : (0 : ℚ) = 1 / 2 ^ 600 ∧ (0 : ℚ) = 0).1
  linarith

/-- C23 (amended): under `IEEEMath`, for all coordinates `calculateDistance(a, b)`, when
it is a number, is non-negative; it is 0 when `a == b`; and it is also 0 for two points
of equal longitude whose latitudes differ by at most 2^-600, so a distance 0 does not
imply `a == b`. -/
theorem calculateDistance_nonneg (M : JSMath) (hM : IEEEMath M) (lat1 lon1 lat2 lon2 : ℚ) :
    (∀ e, calculateDistance M lat1 lon1 lat2 lon2 = some e → 0 ≤ e) ∧
    calculateDistance M lat1 lon1 lat1 lon1 = some 0 ∧
    (|lat2 - lat1| ≤ 1 / 2 ^ 600 → calculateDistance M lat1 lon1 lat2 lon1 = some 0) :=
  ⟨fun e h => calculateDistance_nonneg_of_some M hM lat1 lon1 lat2 lon2 e h,
   calculateDistance_self M hM lat1 lon1,
   fun h => calculateDistance_eq_zero_of_close M hM lat1 lat2 lon1 h⟩

/-- Witness for the amended C23: the small-angle stand-in at the example coordinates. -/
theorem calculateDistance_nonneg_witness :
    (∀ e, calculateDistance smallAngleMath (130827 / 10000) (802707 / 10000)
        (129716 / 10000) (775946 / 10000) = some e → 0 ≤ e) ∧
    calculateDistance smallAngleMath (130827 / 10000) (802707 / 10000) (130827 / 10000)
        (802707 / 10000) = some 0 ∧
    (|(129716 / 10000 : ℚ) - 130827 / 10000| ≤ 1 / 2 ^ 600 →
      calculateDistance smallAngleMath (130827 / 10000) (802707 / 10000) (129716 / 10000)
        (802707 / 10000) = some 0) :=
  calculateDistance_nonneg smallAngleMath smallAngleMath_ieee _ _ _ _

theorem antipodalMath_doubles : AntipodalDoubles antipodalMath := by
  refine ⟨fun _ => rfl, rfl, by decide!, by decide!, by decide!, by decide!, ?_⟩
  intro x hx
  simp [antipodalMath, hx]

/-- The value of `calculateDistance` from the values of its intermediate results. -/
theorem calculateDistance_trace (M : JSMath) (lat1 lon1 lat2 lon2 : ℚ)
    (d1 d2 dLat l1 l2 dLon xs s t1 y1 x1 c1 y2 x2 c2 p xl sl u t2 a b : ℚ)
    (h1 : M.fl (lat2 - lat1) = d1) (h2 : M.fl (d1 * M.PI) = d2) (h3 : M.fl (d2 / 180) = dLat)
    (h4 : M.fl (lon2 - lon1) = l1) (h5 : M.fl (l1 * M.PI) = l2) (h6 : M.fl (l2 / 180) = dLon)
    (h7 : M.fl (dLat / 2) = xs) (h8 : M.sin xs = s) (h9 : M.fl (s * s) = t1)
    (h10 : M.fl (lat1 * M.PI) = y1) (h11 : M.fl (y1 / 180) = x1) (h12 : M.cos x1 = c1)
    (h13 : M.fl (lat2 * M.PI) = y2) (h14 : M.fl (y2 / 180) = x2) (h15 : M.cos x2 = c2)
    (h16 : M.fl (c1 * c2) = p) (h17 : M.fl (dLon / 2) = xl) (h18 : M.sin xl = sl)
    (h19 : M.fl (p * sl) = u) (h20 : M.fl (u * sl) = t2) (h21 : M.fl (t1 + t2) = a)
    (h22 : M.fl (1 - a) = b) :
    calculateDistance M lat1 lon1 lat2 lon2
      = match M.sqrt a, M.sqrt b with
        | some y, some x => some (M.fl (6371 * M.fl (2 * M.atan2 y x)))
        | _, _ => none := by
  subst h1 h2 h3 h4 h5 h6 h7 h8 h9 h10 h11 h12 h13 h14 h15 h16 h17 h18 h19 h20 h21 h22
  rfl

/-- For the antipodal points (8, 0) and (-8, 180) the haversine term `a` is the double
1.0000000000000002, `1 - a` is negative, and `calculateDistance` returns `NaN`. -/
theorem calculateDistance_antipodal (M : JSMath) (hM : AntipodalDoubles M) :
    calculateDistance M 8 0 (-8) 180 = none := by
  rw [calculateDistance_trace M 8 0 (-8) 180
    (-16) (-(884279719003555 / 17592186044416)) (-(5030569068109113 / 18014398509481984))
    180 (4974073419394997 / 8796093022208) (884279719003555 / 281474976710656)
    (-(5030569068109113 / 36028797018963968)) (-(5014239404989977 / 36028797018963968))
    (1395694493897217 / 72057594037927936)
    (884279719003555 / 35184372088832) (5030569068109113 / 36028797018963968)
    (4459770905381437 / 4503599627370496)
    (-(884279719003555 / 35184372088832)) (-(5030569068109113 / 36028797018963968))
    (4459770905381437 / 4503599627370496)
    (8832737443003841 / 9007199254740992) (884279719003555 / 562949953421312) 1
    (8832737443003841 / 9007199254740992) (8832737443003841 / 9007199254740992)
    (4503599627370497 / 4503599627370496) (-(1 / 4503599627370496))
    (by rw [hM.fl_eq]; decide!) (by rw [hM.fl_eq, hM.PI_eq]; decide!)
    (by rw [hM.fl_eq]; decide!)
    (by rw [hM.fl_eq]; decide!) (by rw [hM.fl_eq, hM.PI_eq]; decide!)
    (by rw [hM.fl_eq]; decide!)
    (by rw [hM.fl_eq]; decide!) hM.sin_lat (by rw [hM.fl_eq]; decide!)
    (by rw [hM.fl_eq, hM.PI_eq]; decide!) (by rw [hM.fl_eq]; decide!) hM.cos_lat1
    (by rw [hM.fl_eq, hM.PI_eq]; decide!) (by rw [hM.fl_eq]; decide!) hM.cos_lat2
    (by rw [hM.fl_eq]; decide!) (by rw [hM.fl_eq]; decide!) hM.sin_lon
    (by rw [hM.fl_eq]; decide!) (by rw [hM.fl_eq]; decide!) (by rw [hM.fl_eq]; decide!)
    (by rw [hM.fl_eq]; decide!)]
  rw [hM.sqrt_neg (-(1 / 4503599627370496)) (by norm_num)]
  cases M.sqrt (4503599627370497 / 4503599627370496) <;> rfl

theorem createSimpleDistanceMatrix_eq (calculateDistance : ℚ → ℚ → ℚ → ℚ → Option ℚ)
    (locations : List Coord) :
    createSimpleDistanceMatrix calculateDistance locations
      = buildMatrix calculateDistance locations := rfl

/-- C24 (counterexample): for the list of the two locations (8, 0) and (-8, 180), both
within the ranges, the entry `matrix[0][1]` is `calculateDistance(8, 0, -8, 180)`, which
is `NaN` (the haversine term is 1.0000000000000002 and `Math.sqrt(1 - a)` is `NaN`), so
not every entry is `>= 0`. -/
theorem createSimpleDistanceMatrix_nan_counterexample :
    (∀ c ∈ antipodalPair, -90 ≤ c.lat ∧ c.lat ≤ 90 ∧ -180 ≤ c.lng ∧ c.lng ≤ 180) ∧
    (∀ M : JSMath, AntipodalDoubles M →
      cellOf (createSimpleDistanceMatrix (calculateDistance M) antipodalPair) 0 1 = none) ∧
    cellOf (createSimpleDistanceMatrix (calculateDistance antipodalMath) antipodalPair) 0 1
      = none := by
  have hall : ∀ M : JSMath, AntipodalDoubles M →
      cellOf (createSimpleDistanceMatrix (calculateDistance M) antipodalPair) 0 1 = none := by
    intro M hM
    rw [createSimpleDistanceMatrix_eq,
      cellOf_buildMatrix (calculateDistance M) antipodalPair 0 1 (by decide) (by decide)]
    simp only [antipodalPair, List.getElem_cons_zero, List.getElem_cons_succ]
    simpa using calculateDistance_antipodal M hM
  exact ⟨by decide!, hall, hall _ antipodalMath_doubles⟩

/-- C24 (amended): for every list of `N` locations, `createSimpleDistanceMatrix` returns
`N` rows of length `N` with `matrix[i][i] = 0` and
`matrix[i][j] = calculateDistance(locations[i], locations[j])` for `i ≠ j`; an entry is
`NaN` or a number `≥ 0` (under the facts of `IEEEMath`). -/
theorem createSimpleDistanceMatrix_spec (M : JSMath) (hM : IEEEMath M)
    (locations : List Coord) :
    (createSimpleDistanceMatrix (calculateDistance M) locations).length = locations.length ∧
    (∀ row ∈ createSimpleDistanceMatrix (calculateDistance M) locations,
      row.length = locations.length) ∧
    (∀ i, i < locations.length →
      cellOf (createSimpleDistanceMatrix (calculateDistance M) locations) i i = some 0) ∧
    (∀ i j (hi : i < locations.length) (hj : j < locations.length), i ≠ j →
      cellOf (createSimpleDistanceMatrix (calculateDistance M) locations) i j
        = calculateDistance M locations[i].lat locations[i].lng
            locations[j].lat locations[j].lng) ∧
    (∀ i j, i < locations.length → j < locations.length →
      cellOf (createSimpleDistanceMatrix (calculateDistance M) locations) i j = none ∨
      ∃ e, cellOf (createSimpleDistanceMatrix (calculateDistance M) locations) i j = some e ∧
        0 ≤ e) := by
  refine ⟨by simp [createSimpleDistanceMatrix], ?_, ?_, ?_, ?_⟩
  · intro row hrow
    simp only [createSimpleDistanceMatrix, List.mem_map] at hrow
    obtain ⟨i, _, rfl⟩ := hrow
    simp
  · intro i hi
    rw [createSimpleDistanceMatrix_eq, cellOf_buildMatrix _ _ i i hi hi]
    simp
  · intro i j hi hj hij
    rw [createSimpleDistanceMatrix_eq, cellOf_buildMatrix _ _ i j hi hj]
    simp [hij]
  · intro i j hi hj
    rw [createSimpleDistanceMatrix_eq, cellOf_buildMatrix _ _ i j hi hj]
    by_cases hij : i = j
    · exact Or.inr ⟨0, by simp [hij], le_refl _⟩
    · simp only [hij, if_false]
      cases hc : calculateDistance M locations[i].lat locations[i].lng
          locations[j].lat locations[j].lng with
      | none => exact Or.inl rfl
      | some e =>
        exact Or.inr ⟨e, rfl, calculateDistance_nonneg_of_some M hM _ _ _ _ e hc⟩

/-- Witness for the amended C24: the pair of antipodal points with the rounding of
doubles, where the entries off the diagonal are `NaN`, and the example destinations with
the small-angle stand-in, where every entry is a number. -/
theorem createSimpleDistanceMatrix_spec_witness :
    ((createSimpleDistanceMatrix (calculateDistance antipodalMath) antipodalPair).length
        = antipodalPair.length ∧
      (∀ row ∈ createSimpleDistanceMatrix (calculateDistance antipodalMath) antipodalPair,
        row.length = antipodalPair.length) ∧
      (∀ i, i < antipodalPair.length →
        cellOf (createSimpleDistanceMatrix (calculateDistance antipodalMath) antipodalPair)
          i i = some 0) ∧
      (∀ i j (hi : i < antipodalPair.length) (hj : j < antipodalPair.length), i ≠ j →
        cellOf (createSimpleDistanceMatrix (calculateDistance antipodalMath) antipodalPair)
            i j
          = calculateDistance antipodalMath antipodalPair[i].lat antipodalPair[i].lng
              antipodalPair[j].lat antipodalPair[j].lng) ∧
      (∀ i j, i < antipodalPair.length → j < antipodalPair.length →
        cellOf (createSimpleDistanceMatrix (calculateDistance antipodalMath) antipodalPair)
            i j = none ∨
        ∃ e, cellOf (createSimpleDistanceMatrix (calculateDistance antipodalMath)
            antipodalPair) i j = some e ∧ 0 ≤ e)) ∧
    ((createSimpleDistanceMatrix (calculateDistance smallAngleMath) exampleDestinations).length
        = exampleDestinations.length ∧
      (∀ row ∈ createSimpleDistanceMatrix (calculateDistance smallAngleMath)
          exampleDestinations,
        row.length = exampleDestinations.length) ∧
      (∀ i, i < exampleDestinations.length →
        cellOf (createSimpleDistanceMatrix (calculateDistance smallAngleMath)
          exampleDestinations) i i = some 0) ∧
      (∀ i j (hi : i < exampleDestinations.length) (hj : j < exampleDestinations.length),
        i ≠ j →
        cellOf (createSimpleDistanceMatrix (calculateDistance smallAngleMath)
            exampleDestinations) i j
          = calculateDistance smallAngleMath exampleDestinations[i].lat
              exampleDestinations[i].lng exampleDestinations[j].lat
              exampleDestinations[j].lng) ∧
      (∀ i j, i < exampleDestinations.length → j < exampleDestinations.length →
        cellOf (createSimpleDistanceMatrix (calculateDistance smallAngleMath)
            exampleDestinations) i j = none ∨
        ∃ e, cellOf (createSimpleDistanceMatrix (calculateDistance smallAngleMath)
            exampleDestinations) i j = some e ∧ 0 ≤ e)) :=
  ⟨createSimpleDistanceMatrix_spec antipodalMath antipodalMath_ieee antipodalPair,
   createSimpleDistanceMatrix_spec smallAngleMath smallAngleMath_ieee exampleDestinations⟩

theorem legs_nonneg (calculateDistance : ℚ → ℚ → ℚ → ℚ → Option ℚ)
    (hnonneg : ∀ a b c d e, calculateDistance a b c d = some e → 0 ≤ e)
    (pairs : List (Coord × Coord)) (acc v : ℚ) (hacc : 0 ≤ acc)
    (h : pairs.foldl
      (fun d p => jsAdd d (calculateDistance p.1.lat p.1.lng p.2.lat p.2.lng)) (some acc)
      = some v) : 0 ≤ v := by
  induction pairs generalizing acc with
  | nil =>
    simp only [List.foldl_nil, Option.some.injEq] at h
    rw [← h]; exact hacc
  | cons p rest ih =>
    simp only [List.foldl_cons] at h
    cases hc : calculateDistance p.1.lat p.1.lng p.2.lat p.2.lng with
    | none =>
      rw [hc] at h
      have hnone : ∀ l : List (Coord × Coord), l.foldl
          (fun d p => jsAdd d (calculateDistance p.1.lat p.1.lng p.2.lat p.2.lng)) none
          = none := by
        intro l
        induction l with
        | nil => rfl
        | cons q t iht => simpa [jsAdd] using iht
      have hj : jsAdd (some acc) none = none := rfl
      rw [hj, hnone] at h
      cases h
    | some e =>
      rw [hc] at h
      have hj : jsAdd (some acc) (some e) = some (acc + e) := rfl
      rw [hj] at h
      exact ih (acc + e) (add_nonneg hacc (hnonneg _ _ _ _ e hc)) h

/-- C20 (counterexample): for the original list of the two points (8, 0) and (-8, 180),
whose distance is `NaN`, `calculateSavings` returns `NaN`, which is not a value
`<= 100`. -/
theorem calculateSavings_nan_counterexample :
    (∀ c ∈ antipodalPair, -90 ≤ c.lat ∧ c.lat ≤ 90 ∧ -180 ≤ c.lng ∧ c.lng ≤ 180) ∧
    (∀ M : JSMath, AntipodalDoubles M →
      calculateSavings (calculateDistance M) antipodalPair antipodalPair = none) ∧
    calculateSavings (calculateDistance antipodalMath) antipodalPair antipodalPair = none := by
  have hall : ∀ M : JSMath, AntipodalDoubles M →
      calculateSavings (calculateDistance M) antipodalPair antipodalPair = none := by
    intro M hM
    have h := calculateDistance_antipodal M hM
    simp [calculateSavings, antipodalPair, h, jsAdd]
  exact ⟨by decide!, hall, hall _ antipodalMath_doubles⟩

/-- C20 (amended): for every pair of coordinate lists the value returned by
`calculateSavings` is `NaN` or an integer that is at most 100 (under the facts of
`IEEEMath`, by which a distance that is a number is non-negative). -/
theorem calculateSavings_le_100 (M : JSMath) (hM : IEEEMath M)
    (original optimized : List Coord) :
    calculateSavings (calculateDistance M) original optimized = none ∨
    ∃ z : ℤ, calculateSavings (calculateDistance M) original optimized = some z ∧
      z ≤ 100 := by
  by_cases hlen : original.length ≤ 1
  · exact Or.inr ⟨0, by simp [calculateSavings, hlen], by norm_num⟩
  · simp only [calculateSavings, hlen, if_false]
    cases ho : (original.zip original.tail).foldl
        (fun d p => jsAdd d (calculateDistance M p.1.lat p.1.lng p.2.lat p.2.lng)) (some 0) with
    | none => exact Or.inl rfl
    | some o =>
      have ho0 : 0 ≤ o := legs_nonneg (calculateDistance M)
        (calculateDistance_nonneg_of_some M hM) _ 0 o (le_refl _) ho
      cases hp : (optimized.zip optimized.tail).foldl
          (fun d p => jsAdd d (calculateDistance M p.1.lat p.1.lng p.2.lat p.2.lng))
          (some 0) with
      | none =>
        by_cases h0 : o = 0
        · exact Or.inr ⟨0, by simp [h0], by norm_num⟩
        · exact Or.inl (by simp [h0])
      | some p =>
        have hp0 : 0 ≤ p := legs_nonneg (calculateDistance M)
          (calculateDistance_nonneg_of_some M hM) _ 0 p (le_refl _) hp
        by_cases h0 : o = 0
        · exact Or.inr ⟨0, by simp [h0], by norm_num⟩
        · have hpos : 0 < o := lt_of_le_of_ne ho0 (Ne.symm h0)
          refine Or.inr ⟨mathRound ((1 - p / o) * 100), by simp [h0], ?_⟩
          have hdiv : 0 ≤ p / o := div_nonneg hp0 (le_of_lt hpos)
          have : mathRound ((1 - p / o) * 100) < 101 := by
            unfold mathRound
            rw [Int.floor_lt]
            push_cast
            linarith
          omega

/-- Witness for the amended C20: the pair of antipodal points with the rounding of
doubles, where the value is `NaN`, and the example destinations against their reverse
with the small-angle stand-in. -/
theorem calculateSavings_le_100_witness :
    (calculateSavings (calculateDistance antipodalMath) antipodalPair antipodalPair = none ∨
      ∃ z : ℤ, calculateSavings (calculateDistance antipodalMath) antipodalPair antipodalPair
        = some z ∧ z ≤ 100) ∧
    (calculateSavings (calculateDistance smallAngleMath) exampleDestinations
        exampleDestinations.reverse = none ∨
      ∃ z : ℤ, calculateSavings (calculateDistance smallAngleMath) exampleDestinations
        exampleDestinations.reverse = some z ∧ z ≤ 100) :=
  ⟨calculateSavings_le_100 antipodalMath antipodalMath_ieee antipodalPair antipodalPair,
   calculateSavings_le_100 smallAngleMath smallAngleMath_ieee exampleDestinations
    exampleDestinations.reverse⟩
theorem lor_shifted (acc k shift : Nat) (hacc : acc < 2 ^ shift) :
    acc ||| (k * 2 ^ shift) = k * 2 ^ shift + acc := by
  rw [Nat.lor_comm, Nat.mul_comm k, Nat.mul_add_lt_is_or hacc k]

theorem chunk_of_code (k : Nat) : ((((k + 63 : Nat) : Int) - 63) % 32).toNat = k % 32 := by
  omega

theorem readChunks_encodeChunks (fuel z shift acc : Nat) (rest : List Nat) (hz : z ≤ fuel)
    (hacc : acc < 2 ^ shift) (hfit : z * 2 ^ shift + acc < 2 ^ 32) :
    readChunks (encodeChunks fuel z ++ rest) shift acc = (z * 2 ^ shift + acc, rest) := by
  induction fuel generalizing z shift acc with
  | zero =>
    have hz0 : z = 0 := by omega
    subst hz0
    simp [encodeChunks, readChunks]
  | succ fuel ih =>
    have hP : 0 < 2 ^ shift := by positivity
    by_cases hz0 : z = 0
    · subst hz0
      simp [encodeChunks, readChunks]
    have hshift : shift < 32 := by
      have h1 : 2 ^ shift ≤ z * 2 ^ shift := Nat.le_mul_of_pos_left _ (Nat.pos_of_ne_zero hz0)
      have h2 : 2 ^ shift < 2 ^ 32 := by omega
      exact (Nat.pow_lt_pow_iff_right (by norm_num)).mp h2
    have hmod : shift % 32 = shift := Nat.mod_eq_of_lt hshift
    by_cases h32 : 32 ≤ z
    · have hchunk : (z % 32) * 2 ^ shift ≤ 31 * 2 ^ shift :=
        Nat.mul_le_mul_right _ (by omega)
      have hsplit : z * 2 ^ shift = (z / 32) * (32 * 2 ^ shift) + (z % 32) * 2 ^ shift := by
        calc z * 2 ^ shift = (32 * (z / 32) + z % 32) * 2 ^ shift := by
              rw [Nat.div_add_mod z 32]
          _ = (z / 32) * (32 * 2 ^ shift) + (z % 32) * 2 ^ shift := by ring
      have hlt : (z % 32) * 2 ^ shift < 2 ^ 32 := by
        have : 0 ≤ (z / 32) * (32 * 2 ^ shift) := Nat.zero_le _
        omega
      have hb : (32 : Int) ≤ ((z % 32 + 32 + 63 : Nat) : Int) - 63 := by omega
      have hc : ((((z % 32 + 32 + 63 : Nat) : Int) - 63) % 32).toNat = z % 32 := by omega
      simp only [encodeChunks, h32, if_true, List.cons_append, readChunks, hb, hc, hmod,
        Nat.mod_eq_of_lt hlt, lor_shifted acc (z % 32) shift hacc]
      have hpow : 2 ^ (shift + 5) = 32 * 2 ^ shift := by
        rw [pow_add]; ring
      rw [ih (z / 32) (shift + 5) ((z % 32) * 2 ^ shift + acc) (by omega)
        (by rw [hpow]; omega) (by rw [hpow]; omega)]
      rw [hpow]
      congr 1
      omega
    · have hlt : z * 2 ^ shift < 2 ^ 32 := by omega
      have hb : ¬ ((32 : Int) ≤ ((z + 63 : Nat) : Int) - 63) := by omega
      have hc : ((((z + 63 : Nat) : Int) - 63) % 32).toNat = z := by omega
      simp only [encodeChunks, h32, if_false, List.cons_append, List.nil_append, readChunks, hb,
        hc, hmod, Nat.mod_eq_of_lt hlt, lor_shifted acc z shift hacc]

theorem readChunks_encodeValue (v : Int) (rest : List Nat) (hv : zigzag v < 2 ^ 32) :
    readChunks (encodeValue v ++ rest) 0 0 = (zigzag v, rest) := by
  have := readChunks_encodeChunks (zigzag v) (zigzag v) 0 0 rest (le_refl _) (by norm_num)
    (by simpa using hv)
  simpa [encodeValue] using this

theorem unzigzag_zigzag (v : Int) (hv : zigzag v < 2 ^ 31) : unzigzag (zigzag v) = v := by
  simp only [zigzag] at hv ⊢
  simp only [unzigzag, toInt32]
  split at hv <;> split <;> split <;> omega

theorem zigzag_lt (v : Int) (hv : |v| ≤ 36000000) : zigzag v < 2 ^ 31 := by
  have h := abs_le.mp hv
  simp only [zigzag]
  split <;> omega

theorem encodeValue_ne_nil (v : Int) : encodeValue v ≠ [] := by
  simp only [encodeValue]
  cases zigzag v with
  | zero => simp [encodeChunks]
  | succ k =>
    simp only [encodeChunks]
    split <;> simp

theorem decodeLoop_succ (fuel : Nat) (s : List Nat) (lat lng : Int) (hs : s ≠ []) :
    decodeLoop (fuel + 1) s lat lng
      = (decodeLoop fuel (readChunks (readChunks s 0 0).2 0 0).2
          (lat + unzigzag (readChunks s 0 0).1)
          (lng + unzigzag (readChunks (readChunks s 0 0).2 0 0).1)).map fun points =>
        ({ lat := ((lat + unzigzag (readChunks s 0 0).1 : Int) : ℚ) / 100000
           lng := ((lng + unzigzag (readChunks (readChunks s 0 0).2 0 0).1 : Int) : ℚ)
             / 100000 } : Coord) :: points := by
  cases s with
  | nil => exact absurd rfl hs
  | cons c rest => rfl

theorem decodeLoop_nil (fuel : Nat) (lat lng : Int) : decodeLoop fuel [] lat lng = some [] := by
  cases fuel <;> rfl

theorem decodePolyline_eq (fuel : Nat) (s : List Nat) :
    decodePolyline fuel (some s) = decodeLoop fuel s 0 0 := by
  cases s with
  | nil => rw [decodeLoop_nil]; rfl
  | cons c rest => rfl

theorem decodeLoop_encodeFrom (points : List (Int × Int)) (lat lng : Int) (fuel : Nat)
    (hlat : |lat| ≤ 9000000) (hlng : |lng| ≤ 18000000)
    (hrange : ∀ p ∈ points, |p.1| ≤ 9000000 ∧ |p.2| ≤ 18000000)
    (hfuel : points.length ≤ fuel) :
    decodeLoop fuel (encodeFrom lat lng points) lat lng
      = some (points.map fun p =>
          ({ lat := (p.1 : ℚ) / 100000, lng := (p.2 : ℚ) / 100000 } : Coord)) := by
  induction points generalizing lat lng fuel with
  | nil => simp [encodeFrom, decodeLoop_nil]
  | cons p rest ih =>
    obtain ⟨hp1, hp2⟩ := hrange p (List.mem_cons_self p rest)
    cases fuel with
    | zero => simp at hfuel
    | succ fuel =>
      have hd1 : |p.1 - lat| ≤ 36000000 := by
        have h1 := abs_le.mp hp1
        have h2 := abs_le.mp hlat
        rw [abs_le]; constructor <;> omega
      have hd2 : |p.2 - lng| ≤ 36000000 := by
        have h1 := abs_le.mp hp2
        have h2 := abs_le.mp hlng
        rw [abs_le]; constructor <;> omega
      have hz1 := zigzag_lt _ hd1
      have hz2 := zigzag_lt _ hd2
      have hne : encodeFrom lat lng (p :: rest) ≠ [] := by
        simp [encodeFrom, encodeValue_ne_nil]
      have hr1 : readChunks (encodeFrom lat lng (p :: rest)) 0 0
          = (zigzag (p.1 - lat), encodeValue (p.2 - lng) ++ encodeFrom p.1 p.2 rest) := by
        simp only [encodeFrom]
        exact readChunks_encodeValue _ _ (by omega)
      have hr2 : readChunks (encodeValue (p.2 - lng) ++ encodeFrom p.1 p.2 rest) 0 0
          = (zigzag (p.2 - lng), encodeFrom p.1 p.2 rest) :=
        readChunks_encodeValue _ _ (by omega)
      rw [decodeLoop_succ _ _ _ _ hne, hr1]
      simp only [hr2, unzigzag_zigzag _ hz1, unzigzag_zigzag _ hz2, add_sub_cancel]
      rw [ih p.1 p.2 fuel hp1 hp2
        (fun q hq => hrange q (List.mem_cons_of_mem p hq)) (by simpa using hfuel)]
      simp

/-- C30: `decodePolyline` returns `[]` for a missing and for an empty string; applied to
the Google encoding of a sequence of points whose coordinates are multiples of `1e-5`
with latitude in [-90, 90] and longitude in [-180, 180] (one pass of the outer loop per
point), it returns the same points in the same order; and the string
"_p~iF~ps|U_ulLnnqC_mqNvxq" followed by a backtick and "@", which is the encoding of
(38.5, -120.2), (40.7, -120.95), (43.252, -126.453), decodes to these points. -/
theorem decodePolyline_roundtrip (points : List (Int × Int)) (fuel : Nat)
    (hrange : ∀ p ∈ points, |p.1| ≤ 9000000 ∧ |p.2| ≤ 18000000)
    (hfuel : points.length ≤ fuel) :
    decodePolyline fuel none = some [] ∧
    decodePolyline fuel (some []) = some [] ∧
    decodePolyline fuel (some (encodePolyline points))
      = some (points.map fun p =>
          ({ lat := (p.1 : ℚ) / 100000, lng := (p.2 : ℚ) / 100000 } : Coord)) ∧
    encodePolyline examplePoints = examplePolyline ∧
    decodePolyline 3 (some examplePolyline)
      = some [{ lat := 385 / 10, lng := -1202 / 10 }, { lat := 407 / 10, lng := -12095 / 100 },
          { lat := 43252 / 1000, lng := -126453 / 1000 }] := by
  refine ⟨rfl, rfl, ?_, by decide!, by decide!⟩
  rw [decodePolyline_eq]
  exact decodeLoop_encodeFrom points 0 0 fuel (by norm_num) (by norm_num) hrange hfuel

/-- Witness for C30: the three points of the documented example. -/
theorem decodePolyline_roundtrip_witness :
    decodePolyline 3 (some (encodePolyline examplePoints))
      = some (examplePoints.map fun p =>
          ({ lat := (p.1 : ℚ) / 100000, lng := (p.2 : ℚ) / 100000 } : Coord)) :=
  (decodePolyline_roundtrip examplePoints 3 (by decide) (by decide)).2.2.1

end ZeroDay
